import Mathlib

/-!
# Verification of the chibisurvival simulation engine

This file gives a shallow embedding of the real-time survival-game engine
(`src/game/engine.ts` together with the data/configuration module
`src/game/types.ts`) and proves properties of the embedded code.

Modelling conventions:

* All JavaScript numbers are modelled as rationals (`ℚ`).  Decimal literals
  are written exactly as they appear in the source.
* Transcendental library functions (`Math.hypot`, `Math.cos`, `Math.sin`,
  `Math.atan2`, `Math.exp`, `Math.sqrt`) are modelled by an abstract oracle
  (`MathOracle`); every theorem below holds for every oracle, so no property
  proved here depends on the actual values of these functions.
* `Math.random()` is modelled by an oracle stream `RS : ℕ → ℚ` of samples;
  where a property needs the real range of `Math.random()`, the hypothesis
  `RSok rs` (all samples in `[0, 1)`) is assumed.  Call sites consume
  samples at documented indices; when a loop needs a fresh stream per
  iteration the stream is split with `rsub` (a `Nat.pair` split).  This
  re-indexing does not change the set of possible behaviours since the
  stream values are arbitrary.
* The engine class keeps its per-session fields (`characterId`, `input`,
  `touchVector`, `ids`) next to a `RuntimeState` record; the embedding
  flattens both into a single `Engine` structure.  Field names follow the
  source, except `playerSpeedRatio`, which is called `playerSpeedFrac`
  here.
* `pickRandomUnique` (a Fisher–Yates shuffle over a copied array followed
  by `slice(0, n)`) is embedded as a structurally identical sequence of
  index swaps on a list, driven by the random stream.
-/

set_option maxRecDepth 8000

namespace ChibiSurvival

/-! ## Spatial and math utilities (`engine.ts` lines 48–98) -/

/-- Random samples oracle standing for the sequence of `Math.random()`
results. -/
abbrev RS := ℕ → ℚ

/-- All samples of the stream lie in `[0, 1)`, as real `Math.random()`
results do. -/
def RSok (rs : RS) : Prop := ∀ n, 0 ≤ rs n ∧ rs n < 1

/-- Split a random stream into independent substreams. -/
def rsub (rs : RS) (i : ℕ) : RS := fun k => rs (Nat.pair i k)

/-- Oracle for the transcendental math library functions used by the
engine.  Theorems hold for every oracle. -/
structure MathOracle where
  hypot : ℚ → ℚ → ℚ
  cos : ℚ → ℚ
  sin : ℚ → ℚ
  atan2 : ℚ → ℚ → ℚ
  exp : ℚ → ℚ
  sqrt : ℚ → ℚ

/-- A trivial oracle used to instantiate witnesses. -/
def zeroOracle : MathOracle :=
  { hypot := fun _ _ => 0, cos := fun _ => 0, sin := fun _ => 0
    atan2 := fun _ _ => 0, exp := fun _ => 0, sqrt := fun _ => 0 }

/-- The double value of `Math.PI`. -/
def mathPi : ℚ := 3.141592653589793

structure Vec2 where
  x : ℚ
  y : ℚ
  deriving DecidableEq

/-- `clamp` (line 48). -/
def clampQ (v min max : ℚ) : ℚ := Max.max min (Min.min max v)

/-- `randomRange(min, max)` (line 50) with the `Math.random()` sample `u`
made explicit. -/
def randomRange (u min max : ℚ) : ℚ := u * (max - min) + min

/-- Index of a uniformly random element of an `n`-element array:
`Math.floor(Math.random() * n)`.  The `% n` makes the function total; for
`u ∈ [0, 1)` and `n > 0` it agrees with the source expression. -/
def randIdx (u : ℚ) (n : ℕ) : ℕ :=
  if n = 0 then 0 else (Int.toNat ⌊u * n⌋) % n

/-- `sqr` (line 52). -/
def sqrQ (v : ℚ) : ℚ := v * v

/-- `distanceSq` (line 54). -/
def distanceSq (a b : Vec2) : ℚ := sqrQ (a.x - b.x) + sqrQ (a.y - b.y)

/-- `normalize` (lines 56–62). -/
def normalize (M : MathOracle) (v : Vec2) : Vec2 :=
  let mag := M.hypot v.x v.y
  if mag < 0.0001 then ⟨0, 0⟩ else ⟨v.x / mag, v.y / mag⟩

/-- `moveTowards` (lines 64–70). -/
def moveTowards (M : MathOracle) (from_ to_ : Vec2) (speed dt : ℚ) : Vec2 :=
  let dir := normalize M ⟨to_.x - from_.x, to_.y - from_.y⟩
  ⟨from_.x + dir.x * speed * dt, from_.y + dir.y * speed * dt⟩

/-- `distanceToSegment` (lines 85–98). -/
def distanceToSegment (M : MathOracle) (p a b : Vec2) : ℚ :=
  let abx := b.x - a.x
  let aby := b.y - a.y
  let apx := p.x - a.x
  let apy := p.y - a.y
  let ab2 := abx * abx + aby * aby
  if ab2 ≤ 0.0001 then M.hypot (p.x - a.x) (p.y - a.y)
  else
    let t := clampQ ((apx * abx + apy * aby) / ab2) 0 1
    let cx := a.x + abx * t
    let cy := a.y + aby * t
    M.hypot (p.x - cx) (p.y - cy)

/-- JavaScript `Math.round` (round half away from zero becomes
`⌊x + 1/2⌋` for the values rounded by this engine). -/
def jsRound (q : ℚ) : ℤ := ⌊q + 1 / 2⌋

/-- `pickRandom` (line 72): `arr[Math.floor(Math.random() * arr.length)]`,
with a default for the (never used) empty-array case. -/
def pickRandom {α : Type} (u : ℚ) (dflt : α) (arr : List α) : α :=
  arr.getD (randIdx u arr.length) dflt

/-- One Fisher–Yates step: exchange positions `i` and `j` of a list
(`copy[i] = copy[j]; copy[j] = tmp` in lines 76–81). -/
def swapL {α : Type} (l : List α) (i j : ℕ) : List α :=
  match l.get? i, l.get? j with
  | some a, some b => (l.set i b).set j a
  | _, _ => l

/-- The Fisher–Yates loop of `pickRandomUnique` (lines 76–81): for
`i = n, n-1, …, 1` swap index `i` with a random index `j ∈ [0, i]`. -/
def shuffleAux {α : Type} (rs : RS) : ℕ → List α → List α
  | 0, l => l
  | i + 1, l => shuffleAux rs i (swapL l (i + 1) (randIdx (rs (i + 1)) (i + 2)))

/-- `pickRandomUnique` (lines 74–83): shuffle a copy, then `slice(0, n)`. -/
def pickRandomUnique {α : Type} (rs : RS) (arr : List α) (n : ℕ) : List α :=
  (shuffleAux rs (arr.length - 1) arr).take n

/-! ## Data model (`types.ts`) -/

inductive CharacterId | warrior | mage | archer
  deriving DecidableEq

inductive AttackStyle | slash_projectile | arrow | magic_aoe
  deriving DecidableEq

inductive MonsterKind | slime | bat | skeleton | scorpion | mummy | flame | boss
  deriving DecidableEq

inductive UpgradeType
  | damage | attackSpeed | maxHp | heal | moveSpeed | projectiles | range
  | crit | armor | magnet | pierce | skillLightning | skillBlade | skillLaser
  deriving DecidableEq

inductive SkillId | lightning | blade | laser
  deriving DecidableEq

inductive AudioEventType
  | ui_click | player_move_loop | monster_swarm_loop | player_attack
  | skill_lightning | skill_blade | skill_laser | player_hit | monster_die
  | boss_spawn | boss_die | level_up | stage_clear | game_over | victory
  deriving DecidableEq

structure AudioEvent where
  id : ℕ
  type : AudioEventType
  intensity : ℚ
  deriving DecidableEq

structure SkillLevels where
  lightning : ℕ
  blade : ℕ
  laser : ℕ
  deriving DecidableEq

structure CharacterConfig where
  id : CharacterId
  name : String
  title : String
  description : String
  attackStyle : AttackStyle
  maxHp : ℚ
  speed : ℚ
  damage : ℚ
  attackInterval : ℚ
  range : ℚ
  projectiles : ℕ
  critChance : ℚ
  armor : ℚ
  bodyColor : String
  hairColor : String
  accentColor : String
  deriving DecidableEq

structure MonsterConfig where
  kind : MonsterKind
  hp : ℚ
  speed : ℚ
  radius : ℚ
  damage : ℚ
  exp : ℚ
  color : String
  deriving DecidableEq

structure BossConfig where
  stageId : ℕ
  name : String
  hp : ℚ
  speed : ℚ
  radius : ℚ
  damage : ℚ
  color : String
  deriving DecidableEq

structure StageConfig where
  id : ℕ
  name : String
  duration : ℚ
  spawnBaseInterval : ℚ
  spawnMinInterval : ℚ
  monsterPool : List MonsterKind
  floorColorA : String
  floorColorB : String
  accent : String
  boss : BossConfig
  deriving DecidableEq

structure Player where
  pos : Vec2
  vel : Vec2
  radius : ℚ
  hp : ℚ
  maxHp : ℚ
  speed : ℚ
  damage : ℚ
  attackInterval : ℚ
  attackCooldown : ℚ
  range : ℚ
  projectiles : ℕ
  critChance : ℚ
  armor : ℚ
  magnetRadius : ℚ
  pierce : ℕ
  exp : ℚ
  expToNext : ℚ
  level : ℕ
  facing : ℤ
  lastMoveDir : Vec2
  invincibleTimer : ℚ
  deriving DecidableEq

structure Monster where
  id : ℕ
  kind : MonsterKind
  pos : Vec2
  vel : Vec2
  radius : ℚ
  hp : ℚ
  maxHp : ℚ
  speed : ℚ
  damage : ℚ
  expValue : ℚ
  isBoss : Bool
  color : String
  deriving DecidableEq

inductive ProjectileKind | default | slash | arrow | magic
  deriving DecidableEq

structure Projectile where
  id : ℕ
  pos : Vec2
  vel : Vec2
  radius : ℚ
  damage : ℚ
  life : ℚ
  maxLife : ℚ
  pierceLeft : ℕ
  critChance : ℚ
  kind : ProjectileKind
  aoeRadius : Option ℚ := none
  angle : Option ℚ := none
  deriving DecidableEq

structure Gem where
  id : ℕ
  pos : Vec2
  value : ℚ
  radius : ℚ
  deriving DecidableEq

structure Particle where
  id : ℕ
  pos : Vec2
  vel : Vec2
  life : ℚ
  maxLife : ℚ
  size : ℚ
  color : String
  deriving DecidableEq

structure DamageText where
  id : ℕ
  pos : Vec2
  value : ℤ
  life : ℚ
  maxLife : ℚ
  crit : Bool
  deriving DecidableEq

structure SlashEffect where
  id : ℕ
  pos : Vec2
  radius : ℚ
  angle : ℚ
  life : ℚ
  maxLife : ℚ
  deriving DecidableEq

structure BeamEffect where
  id : ℕ
  from_ : Vec2
  to_ : Vec2
  life : ℚ
  maxLife : ℚ
  color : String
  deriving DecidableEq

structure LightningEffect where
  id : ℕ
  pos : Vec2
  radius : ℚ
  life : ℚ
  maxLife : ℚ
  deriving DecidableEq

inductive BossTelegraphKind | circle | line | cone
  deriving DecidableEq

structure BossTelegraph where
  id : ℕ
  kind : BossTelegraphKind
  pos : Vec2
  to_ : Option Vec2
  angle : ℚ
  arcSpan : ℚ
  radius : ℚ
  width : ℚ
  life : ℚ
  maxLife : ℚ
  damage : ℚ
  deriving DecidableEq

structure UpgradeOption where
  id : UpgradeType
  name : String
  description : String
  deriving DecidableEq

structure CameraState where
  x : ℚ
  y : ℚ
  shakeX : ℚ
  shakeY : ℚ
  deriving DecidableEq

structure InputState where
  up : Bool
  down : Bool
  left : Bool
  right : Bool
  deriving DecidableEq

/-! ## Static configuration data (`types.ts` lines 309–587) -/

def WORLD_WIDTH : ℚ := 5200
def WORLD_HEIGHT : ℚ := 3600

def warriorConfig : CharacterConfig :=
  { id := .warrior, name := "블레이드 곰돌", title := "근접 탱커"
    description := "검기를 날려 넓은 범위의 적을 정리합니다."
    attackStyle := .slash_projectile, maxHp := 180, speed := 255, damage := 30
    attackInterval := 0.75, range := 184, projectiles := 1, critChance := 0.12
    armor := 0.16, bodyColor := "#d64d4d", hairColor := "#7f4f24"
    accentColor := "#ffd97d" }

def mageConfig : CharacterConfig :=
  { id := .mage, name := "별빛 마도사", title := "원거리 광역"
    description := "마법 구체가 적에게 닿으면 폭발하여 범위 피해를 줍니다."
    attackStyle := .magic_aoe, maxHp := 120, speed := 270, damage := 24
    attackInterval := 0.58, range := 520, projectiles := 1, critChance := 0.16
    armor := 0.05, bodyColor := "#5777d9", hairColor := "#3d2d86"
    accentColor := "#9ef6ff" }

def archerConfig : CharacterConfig :=
  { id := .archer, name := "숲의 레인저", title := "고속 연사"
    description := "빠른 화살 연사로 적을 쉴 틈 없이 공격합니다."
    attackStyle := .arrow, maxHp := 135, speed := 305, damage := 21
    attackInterval := 0.32, range := 470, projectiles := 1, critChance := 0.11
    armor := 0.08, bodyColor := "#31a46b", hairColor := "#8d5a2a"
    accentColor := "#f4f1bb" }

def CHARACTER_CONFIGS : CharacterId → CharacterConfig
  | .warrior => warriorConfig
  | .mage => mageConfig
  | .archer => archerConfig

def MONSTER_CONFIGS : MonsterKind → MonsterConfig
  | .slime => { kind := .slime, hp := 28, speed := 95, radius := 19, damage := 8, exp := 8, color := "#5fcf80" }
  | .bat => { kind := .bat, hp := 22, speed := 160, radius := 15, damage := 7, exp := 9, color := "#6767af" }
  | .skeleton => { kind := .skeleton, hp := 44, speed := 108, radius := 20, damage := 10, exp := 12, color := "#ddd4c5" }
  | .scorpion => { kind := .scorpion, hp := 58, speed := 124, radius := 22, damage := 13, exp := 14, color := "#c88d34" }
  | .mummy => { kind := .mummy, hp := 72, speed := 90, radius := 24, damage := 15, exp := 16, color := "#c0b28a" }
  | .flame => { kind := .flame, hp := 82, speed := 140, radius := 26, damage := 18, exp := 18, color := "#f4683d" }
  | .boss => { kind := .boss, hp := 0, speed := 0, radius := 0, damage := 0, exp := 0, color := "" }

def stage1 : StageConfig :=
  { id := 1, name := "초록 숲", duration := 65, spawnBaseInterval := 0.9
    spawnMinInterval := 0.36, monsterPool := [.slime, .bat]
    floorColorA := "#0a3a2f", floorColorB := "#0d4b3f", accent := "#7ed957"
    boss := { stageId := 1, name := "킹 슬라임", hp := 1000, speed := 92
              radius := 58, damage := 24, color := "#79e27e" } }

def stage2 : StageConfig :=
  { id := 2, name := "그림자 동굴", duration := 72, spawnBaseInterval := 0.78
    spawnMinInterval := 0.3, monsterPool := [.bat, .skeleton]
    floorColorA := "#1f2334", floorColorB := "#2b3048", accent := "#a3b9ff"
    boss := { stageId := 2, name := "가고일 로드", hp := 1400, speed := 98
              radius := 62, damage := 28, color := "#8a96bf" } }

def stage3 : StageConfig :=
  { id := 3, name := "황혼 사막", duration := 80, spawnBaseInterval := 0.72
    spawnMinInterval := 0.27, monsterPool := [.scorpion, .mummy]
    floorColorA := "#5b3e22", floorColorB := "#6f4e2c", accent := "#ffd38b"
    boss := { stageId := 3, name := "사막 포식자", hp := 1850, speed := 108
              radius := 66, damage := 31, color := "#e4a547" } }

def stage4 : StageConfig :=
  { id := 4, name := "용암 지대", duration := 88, spawnBaseInterval := 0.65
    spawnMinInterval := 0.24, monsterPool := [.flame, .mummy, .scorpion]
    floorColorA := "#4a1616", floorColorB := "#651f1f", accent := "#ff8248"
    boss := { stageId := 4, name := "마그마 골렘", hp := 2500, speed := 95
              radius := 72, damage := 35, color := "#ff6d3a" } }

def stage5 : StageConfig :=
  { id := 5, name := "마왕 성채", duration := 96, spawnBaseInterval := 0.58
    spawnMinInterval := 0.2, monsterPool := [.skeleton, .flame, .mummy, .bat]
    floorColorA := "#262334", floorColorB := "#2f2c40", accent := "#ffd166"
    boss := { stageId := 5, name := "데몬 로드", hp := 4200, speed := 120
              radius := 82, damage := 42, color := "#f05d6c" } }

def STAGES : List StageConfig := [stage1, stage2, stage3, stage4, stage5]

def UPGRADES : List UpgradeOption :=
  [ { id := .damage, name := "날카로운 힘", description := "공격력 +15%" }
  , { id := .attackSpeed, name := "연속 베기", description := "공격 속도 +15%" }
  , { id := .maxHp, name := "생명력 강화", description := "최대 체력 +20" }
  , { id := .heal, name := "응급 처치", description := "체력 30 즉시 회복" }
  , { id := .moveSpeed, name := "신속한 발걸음", description := "이동 속도 +12%" }
  , { id := .projectiles, name := "추가 탄환", description := "투사체 +1" }
  , { id := .range, name := "사거리 확장", description := "사거리 +14%" }
  , { id := .crit, name := "치명적 조준", description := "치명타 확률 +8%" }
  , { id := .armor, name := "강철 갑주", description := "피해 감소 +7%" }
  , { id := .magnet, name := "자석 오브", description := "경험치 흡입 범위 +60" }
  , { id := .pierce, name := "관통 강화", description := "투사체 관통 +1" } ]

def CAMERA_LERP : ℚ := 10

/-! ## Engine constants (`engine.ts` lines 33–46) -/

def PLAYER_RADIUS : ℚ := 24
def GEM_PICKUP_RADIUS : ℚ := 26
def PROJECTILE_SPEED : ℚ := 560
def PROJECTILE_LIFE : ℚ := 1.25
def PARTICLE_LIFE : ℚ := 0.5
def DAMAGE_TEXT_LIFE : ℚ := 0.65
def SLASH_LIFE : ℚ := 0.22
def BEAM_LIFE : ℚ := 0.18
def LIGHTNING_LIFE : ℚ := 0.2
def MAX_MONSTERS_BASE : ℕ := 180
def MAX_MONSTERS_PER_STAGE : ℕ := 24
def MAX_GEMS : ℕ := 520
def MAX_PARTICLES : ℕ := 900
def MAX_DAMAGE_TEXTS : ℕ := 180

/-- `SKILL_UPGRADE_MAP` (lines 144–159). -/
def SKILL_UPGRADE_MAP : UpgradeType → Option SkillId
  | .skillLightning => some .lightning
  | .skillBlade => some .blade
  | .skillLaser => some .laser
  | _ => none

/-! ## Engine state

The class fields (`characterId`, `input`, `touchVector`, `ids`) and the
`RuntimeState` record (lines 100–142) are flattened into one structure. -/

structure Engine where
  characterId : CharacterId
  input : InputState
  touchVector : Option Vec2
  ids : ℕ
  player : Player
  monsters : List Monster
  projectiles : List Projectile
  gems : List Gem
  particles : List Particle
  damageTexts : List DamageText
  slashes : List SlashEffect
  beams : List BeamEffect
  lightnings : List LightningEffect
  bossTelegraphs : List BossTelegraph
  camera : CameraState
  stageIndex : ℕ
  stageTimeLeft : ℚ
  bossSpawned : Bool
  bossId : Option ℕ
  spawnTimer : ℚ
  kills : ℕ
  combo : ℕ
  bestCombo : ℕ
  awaitingUpgrade : Bool
  upgradeChoices : List UpgradeOption
  pendingLevelUps : ℕ
  paused : Bool
  stageClearReady : Bool
  stageClearDelay : ℚ
  gameOver : Bool
  victory : Bool
  screenShake : ℚ
  skills : SkillLevels
  bladeOrbitAngle : ℚ
  lightningCooldown : ℚ
  laserCooldown : ℚ
  bladeTickCooldown : ℚ
  bossAttackCooldown : ℚ
  playerMoving : Bool
  playerSpeedFrac : ℚ
  playerAttackPulse : ℚ
  impactFlash : ℚ
  hitStopTimer : ℚ
  cameraShakeScale : ℚ
  audioEvents : List AudioEvent
  deriving DecidableEq

/-- `this.config` (line 176). -/
def Engine.config (e : Engine) : CharacterConfig := CHARACTER_CONFIGS e.characterId

/-- `currentStage` (lines 478–480): `STAGES[stageIndex] ?? STAGES[last]`. -/
def Engine.currentStage (e : Engine) : StageConfig := STAGES.getD e.stageIndex stage5

/-- `nextId` (lines 482–485): increment the counter, return the new id. -/
def Engine.nextId (e : Engine) : ℕ × Engine := (e.ids + 1, { e with ids := e.ids + 1 })

/-- `createInitialState` together with the constructor (lines 174–186 and
399–476). -/
def initEngine (characterId : CharacterId) : Engine :=
  let config := CHARACTER_CONFIGS characterId
  { characterId := characterId
    input := { up := false, down := false, left := false, right := false }
    touchVector := none
    ids := 1
    player :=
      { pos := ⟨WORLD_WIDTH * 0.5, WORLD_HEIGHT * 0.5⟩
        vel := ⟨0, 0⟩
        radius := PLAYER_RADIUS
        hp := config.maxHp
        maxHp := config.maxHp
        speed := config.speed
        damage := config.damage
        attackInterval := config.attackInterval
        attackCooldown := 0
        range := config.range
        projectiles := config.projectiles
        critChance := config.critChance
        armor := config.armor
        magnetRadius := 115
        pierce := 0
        exp := 0
        expToNext := 35
        level := 1
        facing := 1
        lastMoveDir := ⟨0, 1⟩
        invincibleTimer := 0 }
    monsters := []
    projectiles := []
    gems := []
    particles := []
    damageTexts := []
    slashes := []
    beams := []
    lightnings := []
    bossTelegraphs := []
    camera := { x := WORLD_WIDTH * 0.5, y := WORLD_HEIGHT * 0.5, shakeX := 0, shakeY := 0 }
    stageIndex := 0
    stageTimeLeft := stage1.duration
    bossSpawned := false
    bossId := none
    spawnTimer := 0.65
    kills := 0
    combo := 0
    bestCombo := 0
    awaitingUpgrade := false
    upgradeChoices := []
    pendingLevelUps := 0
    paused := false
    stageClearReady := false
    stageClearDelay := 0
    gameOver := false
    victory := false
    screenShake := 0
    skills := { lightning := 0, blade := 0, laser := 0 }
    bladeOrbitAngle := 0
    lightningCooldown := 1.8
    laserCooldown := 2.8
    bladeTickCooldown := 0
    bossAttackCooldown := 3.6
    playerMoving := false
    playerSpeedFrac := 0
    playerAttackPulse := 0
    impactFlash := 0
    hitStopTimer := 0
    cameraShakeScale := 1
    audioEvents := [] }

/-! ## Audio queue, cosmetic emitters (`engine.ts` lines 200–207, 1696–1742) -/

/-- `consumeAudioEvents` (lines 200–207). -/
def Engine.consumeAudioEvents (e : Engine) : List AudioEvent × Engine :=
  if e.audioEvents.length ≤ 0 then ([], e)
  else (e.audioEvents, { e with audioEvents := [] })

/-- `emitAudio` (lines 1736–1742). -/
def Engine.emitAudio (e : Engine) (t : AudioEventType) (intensity : ℚ) : Engine :=
  let (id, e) := e.nextId
  let q := e.audioEvents ++ [{ id := id, type := t, intensity := clampQ intensity 0 1 }]
  { e with audioEvents := q }

/-- One particle of `emitBurst` (lines 1718–1733); the random angle's
cosine/sine go through the math oracle. -/
def burstParticle (M : MathOracle) (rsi : RS) (id : ℕ) (center : Vec2)
    (color : String) (speed : ℚ) : Particle :=
  let angle := rsi 0 * (2 * mathPi)
  let magnitude := randomRange (rsi 1) (speed * 0.35) speed
  { id := id, pos := ⟨center.x, center.y⟩,
    vel := ⟨M.cos angle * magnitude, M.sin angle * magnitude⟩,
    life := PARTICLE_LIFE * randomRange (rsi 2) 0.7 1.3,
    maxLife := PARTICLE_LIFE,
    size := randomRange (rsi 3) 2 4.5,
    color := color }

/-- The push loop of `emitBurst`: first argument is the loop index, second
the remaining allowance. -/
def emitBurstAux (M : MathOracle) (rs : RS) (center : Vec2) (color : String)
    (speed : ℚ) : ℕ → ℕ → Engine → Engine
  | _, 0, e => e
  | i, n + 1, e =>
    let (pid, e) := e.nextId
    let e := { e with particles :=
      e.particles ++ [burstParticle M (rsub rs i) pid center color speed] }
    emitBurstAux M rs center color speed (i + 1) n e

/-- `emitBurst` (lines 1710–1734).  Note the early return: at the particle
cap the whole burst is dropped. -/
def Engine.emitBurst (M : MathOracle) (rs : RS) (e : Engine) (center : Vec2)
    (count : ℕ) (color : String) (speed : ℚ) : Engine :=
  if e.particles.length ≥ MAX_PARTICLES then e
  else
    let allowance := Min.min count (MAX_PARTICLES - e.particles.length)
    if allowance = 0 then e
    else emitBurstAux M rs center color speed 0 allowance e

/-- `spawnDamageText` (lines 1696–1708): at the cap, `shift()` evicts the
oldest entry before the push. -/
def Engine.spawnDamageText (e : Engine) (pos : Vec2) (value : ℤ) (crit : Bool) : Engine :=
  let e :=
    if e.damageTexts.length ≥ MAX_DAMAGE_TEXTS then { e with damageTexts := e.damageTexts.tail }
    else e
  let (id, e) := e.nextId
  let q := e.damageTexts ++
      [{ id := id, pos := pos, value := value, life := DAMAGE_TEXT_LIFE,
         maxLife := DAMAGE_TEXT_LIFE, crit := crit }]
  { e with damageTexts := q }

/-! ## Damage to monsters (`damageMonster`, lines 1529–1553) -/

/-- The in-place mutation of the struck monster: hp loss and knockback. -/
def hitMonster (M : MathOracle) (playerPos : Vec2) (m : Monster) (amount : ℚ)
    (crit : Bool) : Monster :=
  let m := { m with hp := m.hp - amount }
  let push : ℚ := if m.isBoss then 6 else if crit then 18 else 11
  let away := normalize M ⟨m.pos.x - playerPos.x, m.pos.y - playerPos.y⟩
  { m with pos := ⟨clampQ (m.pos.x + away.x * push) (m.radius + 4) (WORLD_WIDTH - m.radius - 4),
                   clampQ (m.pos.y + away.y * push) (m.radius + 4) (WORLD_HEIGHT - m.radius - 4)⟩ }

/-- `damageMonster` (lines 1529–1553).  The source receives the monster by
reference; the embedding addresses it by its (unique) id. -/
def Engine.damageMonster (M : MathOracle) (rs : RS) (e : Engine) (mid : ℕ)
    (amount : ℚ) (crit : Bool) : Engine :=
  match e.monsters.find? (fun m => m.id == mid) with
  | none => e
  | some m =>
    let e := e.spawnDamageText ⟨m.pos.x, m.pos.y⟩ (jsRound amount) crit
    let e := e.emitBurst M rs m.pos (if crit then 6 else 4) (if crit then "#ffe08a" else "#fff") 130
    let newMonsters := e.monsters.map
      (fun m0 => if m0.id == mid then hitMonster M e.player.pos m0 amount crit else m0)
    let e := { e with monsters := newMonsters }
    let e := { e with
      impactFlash := max e.impactFlash (if crit then 0.24 else 0.1),
      hitStopTimer := max e.hitStopTimer (if crit then 0.028 else 0.012),
      screenShake := max e.screenShake (if crit then 7 else 4) }
    if m.isBoss then
      { e with screenShake := max e.screenShake (if crit then 9 else 6),
               hitStopTimer := max e.hitStopTimer (if crit then 0.032 else 0.018) }
    else e

/-! ## Nearest-monster selection (`collectNearestLivingMonsters`,
lines 858–892) -/

/-- Insert a monster into the ascending-by-distance buffer.  The source
scans the insertion point from the end with strict `<`, i.e. a stable
insertion after equal keys. -/
def insNearest (m : Monster) (d2 : ℚ) : List (Monster × ℚ) → List (Monster × ℚ)
  | [] => [(m, d2)]
  | x :: xs => if x.2 ≤ d2 then x :: insNearest m d2 xs else (m, d2) :: x :: xs

/-- `collectNearestLivingMonsters` (lines 858–892).  `maxDistanceSq = none`
models `Number.POSITIVE_INFINITY`.  The source's skip-when-`insertAt ≥
maxCount` plus pop-when-overfull is insertion followed by `take maxCount`. -/
def Engine.collectNearestLivingMonsters (e : Engine) (origin : Vec2)
    (maxDistanceSq : Option ℚ) (maxCount : ℕ) : List Monster :=
  if maxCount = 0 then []
  else
    (e.monsters.foldl (fun acc m =>
      if m.hp ≤ 0 then acc
      else
        let d2 := distanceSq m.pos origin
        match maxDistanceSq with
        | some md => if d2 > md then acc else (insNearest m d2 acc).take maxCount
        | none => (insNearest m d2 acc).take maxCount) []).map Prod.fst

/-! ## Experience and upgrades (lines 1370–1527) -/

/-- The level-up loop of `gainExp` (lines 1378–1384): while
`exp ≥ expToNext` and fewer than 24 levels gained this call.  Returns the
new `(exp, expToNext, level)` and the number of levels gained. -/
def levelLoop : ℕ → ℚ → ℚ → ℕ → ℚ × ℚ × ℕ × ℕ
  | 0, e, n, lv => (e, n, lv, 0)
  | fuel + 1, e, n, lv =>
    if e ≥ n then
      let r := levelLoop fuel (e - n) ((⌊n * 1.28 + 16⌋ : ℤ) : ℚ) (lv + 1)
      (r.1, r.2.1, r.2.2.1, r.2.2.2 + 1)
    else (e, n, lv, 0)

/-- Skill level lookup (`this.state.skills[skill]`). -/
def SkillLevels.get (s : SkillLevels) : SkillId → ℕ
  | .lightning => s.lightning
  | .blade => s.blade
  | .laser => s.laser

/-- Skill level update (`this.state.skills[skillId] = …`). -/
def SkillLevels.set (s : SkillLevels) : SkillId → ℕ → SkillLevels
  | .lightning, v => { s with lightning := v }
  | .blade, v => { s with blade := v }
  | .laser, v => { s with laser := v }

/-- `buildSkillUpgradeOptions` (lines 1432–1463); the template strings are
written as explicit concatenations. -/
def Engine.buildSkillUpgradeOptions (e : Engine) : List UpgradeOption :=
  let lightningLevel := e.skills.lightning
  let bladeLevel := e.skills.blade
  let laserLevel := e.skills.laser
  [ { id := .skillLightning
      name := if lightningLevel = 0 then "신규 스킬: 번개 강림"
              else "번개 강림 Lv." ++ toString (lightningLevel + 1)
      description := if lightningLevel = 0 then "주기적으로 낙뢰를 내려 광역 피해를 줍니다."
                     else "낙뢰 수/피해 강화 (현재 Lv." ++ toString lightningLevel ++ ")" }
  , { id := .skillBlade
      name := if bladeLevel = 0 then "신규 스킬: 회전 칼날"
              else "회전 칼날 Lv." ++ toString (bladeLevel + 1)
      description := if bladeLevel = 0 then "주변을 도는 칼날로 근접 몬스터를 자동 공격합니다."
                     else "칼날 수/피해 강화 (현재 Lv." ++ toString bladeLevel ++ ")" }
  , { id := .skillLaser
      name := if laserLevel = 0 then "신규 스킬: 레이저 미사일"
              else "레이저 미사일 Lv." ++ toString (laserLevel + 1)
      description := if laserLevel = 0 then "강력한 관통 레이저를 발사해 직선 상 적을 관통합니다."
                     else "레이저 피해/쿨다운 강화 (현재 Lv." ++ toString laserLevel ++ ")" } ]

/-- Default used for the (unreachable) empty-pool case of `pickRandom`. -/
def dfltUpgrade : UpgradeOption := { id := .damage, name := "", description := "" }

/-- `makeUpgradeChoices` (lines 1399–1430). -/
def Engine.makeUpgradeChoices (e : Engine) (rs : RS) : List UpgradeOption :=
  let statPool := UPGRADES.filter (fun upgrade =>
    if e.config.attackStyle = .slash_projectile then
      upgrade.id ≠ .projectiles && upgrade.id ≠ .pierce
    else true)
  let options := statPool
  let skillPool := e.buildSkillUpgradeOptions
  let unlockedMissing := skillPool.filter (fun option =>
    match SKILL_UPGRADE_MAP option.id with
    | none => false
    | some skill => e.skills.get skill = 0)
  let chosen : List UpgradeOption :=
    if unlockedMissing.length > 0 then [pickRandom (rs 0) dfltUpgrade unlockedMissing] else []
  let fullPool := options ++ skillPool
  let remainingPool := fullPool.filter (fun opt => !(chosen.any (fun pick => pick.id == opt.id)))
  let chosen := chosen ++ pickRandomUnique (rsub rs 1) remainingPool (3 - chosen.length)
  chosen.take 3

/-- `gainExp` (lines 1370–1397). -/
def Engine.gainExp (rs : RS) (e : Engine) (amount : ℚ) : Engine :=
  if amount ≤ 0 then e
  else
    let p := e.player
    let r := levelLoop 24 (p.exp + amount) p.expToNext p.level
    let leveled := r.2.2.2
    let e := { e with player := { p with exp := r.1, expToNext := r.2.1, level := r.2.2.1 } }
    if leveled = 0 then e
    else
      let e := { e with pendingLevelUps := e.pendingLevelUps + leveled }
      let e :=
        if !e.awaitingUpgrade then
          { e with awaitingUpgrade := true, upgradeChoices := e.makeUpgradeChoices (rsub rs 0) }
        else e
      let e := e.emitAudio .level_up (clampQ ((leveled : ℚ) / 3) 0.35 1)
      { e with screenShake := max e.screenShake 4 }

/-- `applyStatUpgrade` (lines 1465–1513). -/
def Engine.applyStatUpgrade (e : Engine) (type : UpgradeType) : Engine :=
  let p := e.player
  match type with
  | .damage => { e with player := { p with damage := p.damage * 1.15 } }
  | .attackSpeed => { e with player := { p with attackInterval := max 0.16 (p.attackInterval * 0.87) } }
  | .maxHp => { e with player := { p with maxHp := p.maxHp + 20, hp := p.hp + 20 } }
  | .heal => { e with player := { p with hp := p.hp + 30 } }
  | .moveSpeed => { e with player := { p with speed := p.speed * 1.12 } }
  | .projectiles =>
    if e.config.attackStyle ≠ .slash_projectile then
      { e with player := { p with projectiles := p.projectiles + 1 } }
    else { e with player := { p with damage := p.damage * 1.08 } }
  | .range => { e with player := { p with range := p.range * 1.14 } }
  | .crit => { e with player := { p with critChance := min 0.85 (p.critChance + 0.08) } }
  | .armor => { e with player := { p with armor := min 0.75 (p.armor + 0.07) } }
  | .magnet => { e with player := { p with magnetRadius := p.magnetRadius + 60 } }
  | .pierce =>
    if e.config.attackStyle ≠ .slash_projectile then
      { e with player := { p with pierce := p.pierce + 1 } }
    else { e with player := { p with damage := p.damage * 1.08 } }
  | _ => e

/-- `applySkillUpgrade` (lines 1515–1527). -/
def Engine.applySkillUpgrade (e : Engine) (skillId : SkillId) : Engine :=
  let e := { e with skills := e.skills.set skillId (min 8 (e.skills.get skillId + 1)) }
  let e := if skillId = .lightning then { e with lightningCooldown := min e.lightningCooldown 0.2 } else e
  let e := if skillId = .laser then { e with laserCooldown := min e.laserCooldown 0.2 } else e
  if skillId = .blade then { e with bladeTickCooldown := min e.bladeTickCooldown 0.05 } else e

/-- `applyUpgrade` (lines 259–281). -/
def Engine.applyUpgrade (e : Engine) (type : UpgradeType) (rs : RS) : Engine :=
  if !e.awaitingUpgrade || e.pendingLevelUps = 0 then e
  else
    let e :=
      match SKILL_UPGRADE_MAP type with
      | some skillTarget => e.applySkillUpgrade skillTarget
      | none => e.applyStatUpgrade type
    let e := { e with player := { e.player with hp := clampQ e.player.hp 0 e.player.maxHp } }
    let e := { e with pendingLevelUps := e.pendingLevelUps - 1 }
    if e.pendingLevelUps > 0 then
      { e with awaitingUpgrade := true, upgradeChoices := e.makeUpgradeChoices rs }
    else { e with awaitingUpgrade := false, upgradeChoices := [] }

/-! ## Pause, stage advance (lines 283–328, 382–397, 560–576) -/

/-- `canTogglePause` (lines 382–389). -/
def Engine.canTogglePause (e : Engine) : Bool :=
  !(e.gameOver || e.victory || e.awaitingUpgrade || e.stageClearReady)

/-- `clearInputs` (lines 391–397). -/
def Engine.clearInputs (e : Engine) : Engine :=
  { e with input := { up := false, down := false, left := false, right := false },
           touchVector := none }

/-- `togglePause` (lines 283–294). -/
def Engine.togglePause (e : Engine) : Bool × Engine :=
  if !e.canTogglePause then (e.paused, e)
  else
    let e := { e with paused := !e.paused }
    let e := if e.paused then e.clearInputs else e
    (e.paused, e)

/-- `advanceToNextStage` (lines 296–328). -/
def Engine.advanceToNextStage (M : MathOracle) (rs : RS) (e : Engine) : Bool × Engine :=
  if !e.stageClearReady || e.stageIndex ≥ STAGES.length - 1 || e.awaitingUpgrade
      || e.pendingLevelUps > 0 then
    (false, e)
  else
    let e := { e with stageIndex := e.stageIndex + 1 }
    let nextStage := e.currentStage
    let e := { e with
      stageTimeLeft := nextStage.duration,
      spawnTimer := 1,
      bossSpawned := false,
      bossId := none,
      stageClearReady := false,
      stageClearDelay := 0,
      paused := false,
      monsters := [],
      projectiles := [],
      gems := [],
      bossTelegraphs := [],
      bossAttackCooldown := 2.8,
      combo := 0 }
    let newHp := min e.player.maxHp (e.player.hp + e.player.maxHp * 0.24)
    let e := { e with player := { e.player with hp := newHp } }
    let e := e.emitBurst M rs e.player.pos 24 nextStage.accent 180
    (true, e)

/-- `updateStageClearTransition` (lines 560–576). -/
def Engine.updateStageClearTransition (M : MathOracle) (rs : RS) (e : Engine)
    (dt : ℚ) : Engine :=
  if e.awaitingUpgrade || e.stageIndex ≥ STAGES.length - 1 || e.gameOver || e.victory then e
  else
    let e := { e with stageClearDelay := max 0 (e.stageClearDelay - dt) }
    if e.stageClearDelay > 0 then e
    else (e.advanceToNextStage M rs).2

/-! ## Spawning (lines 537–642) -/

/-- `spawnMonster` (lines 578–608). -/
def Engine.spawnMonster (M : MathOracle) (rs : RS) (e : Engine) (stage : StageConfig) : Engine :=
  let kind := pickRandom (rs 0) .slime stage.monsterPool
  let base := MONSTER_CONFIGS kind
  let p := e.player
  let angle := rs 1 * (2 * mathPi)
  let spawnRadius := randomRange (rs 2) 430 640
  let pos : Vec2 :=
    ⟨clampQ (p.pos.x + M.cos angle * spawnRadius) 22 (WORLD_WIDTH - 22),
     clampQ (p.pos.y + M.sin angle * spawnRadius) 22 (WORLD_HEIGHT - 22)⟩
  let stageFactor := 1 + (e.stageIndex : ℚ) * 0.23
  let timeFactor := 1 + (1 - e.stageTimeLeft / stage.duration) * 0.55
  let hp := base.hp * stageFactor * timeFactor
  let (mid, e) := e.nextId
  let newList := e.monsters ++
      [{ id := mid, kind := kind, pos := pos, vel := ⟨0, 0⟩, radius := base.radius,
         hp := hp, maxHp := hp,
         speed := base.speed * (1 + (e.stageIndex : ℚ) * 0.05),
         damage := base.damage * stageFactor,
         expValue := base.exp, isBoss := false, color := base.color }]
  { e with monsters := newList }

/-- `spawnBoss` (lines 610–642). -/
def Engine.spawnBoss (M : MathOracle) (rs : RS) (e : Engine) : Engine :=
  let stage := e.currentStage
  let bossData := stage.boss
  let p := e.player
  let angle := rs 0 * (2 * mathPi)
  let dist : ℚ := 520
  let (bid, e) := e.nextId
  let boss : Monster :=
    { id := bid, kind := .boss,
      pos := ⟨clampQ (p.pos.x + M.cos angle * dist) (bossData.radius + 5) (WORLD_WIDTH - bossData.radius - 5),
              clampQ (p.pos.y + M.sin angle * dist) (bossData.radius + 5) (WORLD_HEIGHT - bossData.radius - 5)⟩,
      vel := ⟨0, 0⟩, radius := bossData.radius, hp := bossData.hp, maxHp := bossData.hp,
      speed := bossData.speed, damage := bossData.damage, expValue := 100,
      isBoss := true, color := bossData.color }
  let e := { e with
    monsters := e.monsters ++ [boss], bossSpawned := true,
    bossId := some boss.id,
    bossAttackCooldown := randomRange (rs 1) 2.2 3.2,
    screenShake := max e.screenShake 10 }
  let e := e.emitBurst M (rsub rs 2) boss.pos 26 stage.accent 190
  e.emitAudio .boss_spawn 1

/-- `updateStage` (lines 537–558). -/
def Engine.updateStage (M : MathOracle) (rs : RS) (e : Engine) (dt : ℚ) : Engine :=
  let e :=
    if !e.bossSpawned then
      let e := { e with stageTimeLeft := max 0 (e.stageTimeLeft - dt) }
      if e.stageTimeLeft ≤ 0 then e.spawnBoss M (rsub rs 0) else e
    else e
  let stage := e.currentStage
  let e := { e with spawnTimer := e.spawnTimer - dt }
  if e.spawnTimer ≤ 0 ∧ e.bossSpawned = false then
    let monsterCap := MAX_MONSTERS_BASE + e.stageIndex * MAX_MONSTERS_PER_STAGE
    let e := if e.monsters.length < monsterCap then e.spawnMonster M (rsub rs 1) stage else e
    let elapsed := 1 - e.stageTimeLeft / stage.duration
    let minInterval := stage.spawnMinInterval
    let interval := stage.spawnBaseInterval - elapsed * (stage.spawnBaseInterval - minInterval)
    { e with spawnTimer := (max minInterval interval) * randomRange (rs 2) 0.8 1.2 }
  else e

/-! ## Deaths and progression (lines 1555–1640) -/

/-- `collectAllStageGems` (lines 1631–1640). -/
def Engine.collectAllStageGems (M : MathOracle) (rs : RS) (e : Engine) : Engine :=
  if e.gems.length ≤ 0 then e
  else
    let totalExp := (e.gems.map Gem.value).sum
    let e := { e with gems := [] }
    let e := e.gainExp (rsub rs 0) totalExp
    e.emitBurst M (rsub rs 1) e.player.pos 22 "#8fffd9" 210

/-- The per-monster loop of `processDeathsAndProgression` (lines 1560–1599);
accumulates the survivor list, the boss-defeated flag and the number of
regular kills. -/
def deathLoop (M : MathOracle) (rs : RS) :
    List Monster → ℕ → Engine → List Monster → Bool → ℕ →
    Engine × List Monster × Bool × ℕ
  | [], _, e, surv, bd, rk => (e, surv, bd, rk)
  | monster :: rest, i, e, surv, bd, rk =>
    if monster.hp > 0 then deathLoop M rs rest (i + 1) e (surv ++ [monster]) bd rk
    else
      let e := { e with kills := e.kills + 1, combo := e.combo + 1 }
      let e := { e with bestCombo := max e.bestCombo e.combo }
      if monster.isBoss then
        let e := { e with bossId := none, bossTelegraphs := [],
                          screenShake := max e.screenShake 14 }
        let e := e.emitBurst M (rsub (rsub rs i) 0) monster.pos 38 "#ffd166" 250
        let e := e.emitAudio .boss_die 1
        deathLoop M rs rest (i + 1) e surv true rk
      else
        let rsi := rsub rs i
        let e :=
          if e.gems.length ≥ MAX_GEMS then
            let idx := randIdx (rsi 1) e.gems.length
            match e.gems.get? idx with
            | some merged =>
              let mergedGem :=
                { merged with
                  value := merged.value + monster.expValue,
                  pos := ⟨(merged.pos.x + monster.pos.x) * 0.5,
                          (merged.pos.y + monster.pos.y) * 0.5⟩ }
              { e with gems := e.gems.set idx mergedGem }
            | none => e
          else
            let (gid, e) := e.nextId
            { e with gems := e.gems ++
                [{ id := gid,
                   pos := ⟨monster.pos.x + randomRange (rsi 2) (-8) 8,
                           monster.pos.y + randomRange (rsi 3) (-8) 8⟩,
                   value := monster.expValue, radius := 6 }] }
        deathLoop M rs rest (i + 1) e surv bd (rk + 1)

/-- `processDeathsAndProgression` (lines 1555–1629). -/
def Engine.processDeathsAndProgression (M : MathOracle) (rs : RS) (e : Engine) : Engine :=
  let r := deathLoop M (rsub rs 0) e.monsters 0 e [] false 0
  let e := r.1
  let survivors := r.2.1
  let bossDefeated := r.2.2.1
  let regularKilled := r.2.2.2
  let e := { e with monsters := survivors }
  let e :=
    if regularKilled > 0 then e.emitAudio .monster_die (clampQ ((regularKilled : ℚ) / 8) 0.2 1)
    else e
  if !bossDefeated then e
  else if e.stageIndex ≥ STAGES.length - 1 then
    let e := e.collectAllStageGems M (rsub rs 1)
    let e := { e with victory := true }
    e.emitAudio .victory 1
  else
    let e := e.collectAllStageGems M (rsub rs 1)
    let e := { e with
      stageClearReady := true, stageClearDelay := 2.8, bossSpawned := true,
      bossTelegraphs := [], monsters := [], projectiles := [], combo := 0 }
    e.emitAudio .stage_clear 1

/-! ## Boss telegraph state machine (lines 644–856) -/

/-- The common death check ending both player-damage paths
(lines 851–855 and 1336–1340): clamp hp at 0, raise the game-over flag,
emit the game-over audio intent. -/
def Engine.checkPlayerDeath (e : Engine) : Engine :=
  if e.player.hp ≤ 0 then
    let e := { e with player := { e.player with hp := 0 }, gameOver := true }
    e.emitAudio .game_over 1
  else e

/-- `applyTelegraphDamageToPlayer` (lines 841–856). -/
def Engine.applyTelegraphDamageToPlayer (M : MathOracle) (rs : RS) (e : Engine)
    (incomingDamage armorFactor : ℚ) : Engine :=
  let p := e.player
  let reduced := incomingDamage * (1 - p.armor * armorFactor)
  let e := { e with
    player := { p with hp := p.hp - reduced, invincibleTimer := 0.62 },
    combo := 0 }
  let e := e.spawnDamageText ⟨e.player.pos.x, e.player.pos.y⟩ (jsRound reduced) false
  let e := e.emitAudio .player_hit (clampQ (reduced / 70) 0.25 1)
  let e := e.emitBurst M rs ⟨e.player.pos.x, e.player.pos.y⟩ 10 "#ff6b6b" 190
  e.checkPlayerDeath

/-- `resolveCircleTelegraphHit` (lines 794–803). -/
def Engine.resolveCircleTelegraphHit (M : MathOracle) (rs : RS) (e : Engine)
    (telegraph : BossTelegraph) : Engine :=
  let p := e.player
  let hitRadius := telegraph.radius + p.radius * 0.45
  if distanceSq telegraph.pos p.pos > hitRadius * hitRadius ∨ p.invincibleTimer > 0 then e
  else
    let incoming := telegraph.damage * randomRange (rs 0) 0.92 1.12
    e.applyTelegraphDamageToPlayer M (rsub rs 1) incoming 0.65

/-- `resolveConeTelegraphHit` (lines 805–824). -/
def Engine.resolveConeTelegraphHit (M : MathOracle) (rs : RS) (e : Engine)
    (telegraph : BossTelegraph) : Engine :=
  let p := e.player
  let toPlayer : Vec2 := ⟨p.pos.x - telegraph.pos.x, p.pos.y - telegraph.pos.y⟩
  let dist := M.hypot toPlayer.x toPlayer.y
  if dist > telegraph.radius + p.radius * 0.5 ∨ p.invincibleTimer > 0 then e
  else
    let angleToPlayer := M.atan2 toPlayer.y toPlayer.x
    let delta := |M.atan2 (M.sin (angleToPlayer - telegraph.angle))
                          (M.cos (angleToPlayer - telegraph.angle))|
    if delta > telegraph.arcSpan * 0.5 + 0.04 then e
    else
      let incoming := telegraph.damage * randomRange (rs 0) 0.94 1.15
      e.applyTelegraphDamageToPlayer M (rsub rs 1) incoming 0.62

/-- `resolveLineTelegraphHit` (lines 826–839). -/
def Engine.resolveLineTelegraphHit (M : MathOracle) (rs : RS) (e : Engine)
    (telegraph : BossTelegraph) : Engine :=
  match telegraph.to_ with
  | none => e
  | some to_ =>
    let p := e.player
    let d := distanceToSegment M p.pos telegraph.pos to_
    if d > telegraph.width + p.radius * 0.45 ∨ p.invincibleTimer > 0 then e
    else
      let incoming := telegraph.damage * randomRange (rs 0) 0.94 1.14
      e.applyTelegraphDamageToPlayer M (rsub rs 1) incoming 0.6

/-- `resolveBossTelegraph` (lines 734–792).  A `line` telegraph with a
missing target point falls through to the circle branch, as in the
source. -/
def Engine.resolveBossTelegraph (M : MathOracle) (rs : RS) (e : Engine)
    (telegraph : BossTelegraph) : Engine :=
  if telegraph.kind = .line ∧ telegraph.to_ ≠ none then
    match telegraph.to_ with
    | none => e
    | some to_ =>
      let mid : Vec2 := ⟨(telegraph.pos.x + to_.x) * 0.5, (telegraph.pos.y + to_.y) * 0.5⟩
      let (bid, e) := e.nextId
      let beam : BeamEffect :=
        { id := bid, from_ := ⟨telegraph.pos.x, telegraph.pos.y⟩, to_ := ⟨to_.x, to_.y⟩,
          life := 0.2, maxLife := 0.2, color := "#ff9a68" }
      let e := { e with beams := e.beams ++ [beam] }
      let e := e.emitBurst M (rsub rs 0) mid (20 + e.stageIndex * 2) "#ff8f6f" 220
      let e := e.emitBurst M (rsub rs 1) mid 8 "#ffffff" 170
      let e := { e with screenShake := max e.screenShake (10 + (e.stageIndex : ℚ) * 0.5) }
      e.resolveLineTelegraphHit M (rsub rs 2) telegraph
  else if telegraph.kind = .cone then
    let slashRadius := telegraph.radius * 0.78
    let spanOffset := telegraph.arcSpan * 0.22
    let (s1id, e) := e.nextId
    let slash1 : SlashEffect :=
      { id := s1id, pos := ⟨telegraph.pos.x, telegraph.pos.y⟩, radius := slashRadius,
        angle := telegraph.angle - spanOffset, life := 0.28, maxLife := 0.28 }
    let e := { e with slashes := e.slashes ++ [slash1] }
    let (s2id, e) := e.nextId
    let slash2 : SlashEffect :=
      { id := s2id, pos := ⟨telegraph.pos.x, telegraph.pos.y⟩, radius := slashRadius - 10,
        angle := telegraph.angle + spanOffset, life := 0.24, maxLife := 0.24 }
    let e := { e with slashes := e.slashes ++ [slash2] }
    let e := e.emitBurst M (rsub rs 0) telegraph.pos (16 + e.stageIndex * 2) "#ffb37a" 220
    let e := e.emitBurst M (rsub rs 1) telegraph.pos 8 "#ffffff" 160
    let e := { e with screenShake := max e.screenShake (9 + (e.stageIndex : ℚ) * 0.5) }
    e.resolveConeTelegraphHit M (rsub rs 2) telegraph
  else
    let e := e.emitBurst M (rsub rs 0) telegraph.pos (16 + e.stageIndex * 2) "#ff9a68" 230
    let e := e.emitBurst M (rsub rs 1) telegraph.pos 8 "#ffffff" 170
    let (lid, e) := e.nextId
    let strike : LightningEffect :=
      { id := lid, pos := ⟨telegraph.pos.x, telegraph.pos.y⟩,
        radius := max 72 (telegraph.radius * 0.72),
        life := LIGHTNING_LIFE * 1.2, maxLife := LIGHTNING_LIFE * 1.2 }
    let e := { e with lightnings := e.lightnings ++ [strike] }
    let e := { e with screenShake := max e.screenShake (9 + (e.stageIndex : ℚ) * 0.5) }
    e.resolveCircleTelegraphHit M (rsub rs 2) telegraph

/-- The telegraph-pattern emission in `updateBossTelegraphs`
(lines 652–715): one new telegraph of a kind picked by the gated roll,
then a fresh randomized attack cooldown. -/
def Engine.spawnBossTelegraph (M : MathOracle) (rs : RS) (e : Engine) (boss : Monster) : Engine :=
  let roll := rs 0
  let useCone := e.stageIndex ≥ 2 ∧ roll < 0.34
  let useLine := e.stageIndex ≥ 1 ∧ ¬useCone ∧ roll < 0.7
  let e :=
    if useCone then
      let dir := normalize M ⟨e.player.pos.x - boss.pos.x, e.player.pos.y - boss.pos.y⟩
      let (tid, e) := e.nextId
      let t : BossTelegraph :=
        { id := tid, kind := .cone, pos := ⟨boss.pos.x, boss.pos.y⟩, to_ := none,
          angle := M.atan2 dir.y dir.x,
          arcSpan := max 0.5 (0.98 - (e.stageIndex : ℚ) * 0.08),
          radius := 190 + (e.stageIndex : ℚ) * 28, width := 0,
          life := 1.02, maxLife := 1.02,
          damage := boss.damage * (1.12 + (e.stageIndex : ℚ) * 0.1) }
      let e := { e with bossTelegraphs := e.bossTelegraphs ++ [t] }
      e.emitAudio .skill_blade (clampQ (0.2 + (e.stageIndex : ℚ) * 0.08) 0.2 0.55)
    else if useLine then
      let dir := normalize M ⟨e.player.pos.x - boss.pos.x, e.player.pos.y - boss.pos.y⟩
      let length := 360 + (e.stageIndex : ℚ) * 75
      let (tid, e) := e.nextId
      let t : BossTelegraph :=
        { id := tid, kind := .line, pos := ⟨boss.pos.x, boss.pos.y⟩,
          to_ := some ⟨clampQ (boss.pos.x + dir.x * length) 16 (WORLD_WIDTH - 16),
                       clampQ (boss.pos.y + dir.y * length) 16 (WORLD_HEIGHT - 16)⟩,
          angle := M.atan2 dir.y dir.x, arcSpan := 0, radius := 0,
          width := 34 + (e.stageIndex : ℚ) * 4,
          life := 0.92, maxLife := 0.92,
          damage := boss.damage * (1.02 + (e.stageIndex : ℚ) * 0.1) }
      let e := { e with bossTelegraphs := e.bossTelegraphs ++ [t] }
      e.emitAudio .skill_laser (clampQ (0.24 + (e.stageIndex : ℚ) * 0.08) 0.24 0.62)
    else
      let (tid, e) := e.nextId
      let t : BossTelegraph :=
        { id := tid, kind := .circle, pos := ⟨e.player.pos.x, e.player.pos.y⟩, to_ := none,
          angle := 0, arcSpan := 0,
          radius := boss.radius + 44 + (e.stageIndex : ℚ) * 10 + randomRange (rs 1) (-18) 26,
          width := 0, life := 1.05, maxLife := 1.05,
          damage := boss.damage * (1.08 + (e.stageIndex : ℚ) * 0.12) }
      let e := { e with bossTelegraphs := e.bossTelegraphs ++ [t] }
      e.emitAudio .skill_lightning (clampQ (0.2 + (e.stageIndex : ℚ) * 0.07) 0.2 0.55)
  { e with bossAttackCooldown :=
      (max 2.1 (4.2 - (e.stageIndex : ℚ) * 0.32)) * randomRange (rs 2) 0.9 1.2 }

/-- The countdown-and-resolve loop of `updateBossTelegraphs`
(lines 722–731): each telegraph loses `dt` of life; a still-positive
telegraph is kept pending, an expired one is resolved on the spot. -/
def telegraphLoop (M : MathOracle) (rs : RS) (dt : ℚ) :
    List BossTelegraph → ℕ → Engine → List BossTelegraph → Engine × List BossTelegraph
  | [], _, e, pending => (e, pending)
  | t :: rest, i, e, pending =>
    let t := { t with life := t.life - dt }
    if t.life > 0 then telegraphLoop M rs dt rest (i + 1) e (pending ++ [t])
    else telegraphLoop M rs dt rest (i + 1) (e.resolveBossTelegraph M (rsub rs i) t) pending

/-- The attack-scheduling phase of `updateBossTelegraphs` (lines 645–716):
while a live, undefeated boss exists the attack cooldown counts down and,
at zero, a new telegraph is emitted. -/
def Engine.bossAttackPhase (M : MathOracle) (rs : RS) (e : Engine) (dt : ℚ) : Engine :=
  let boss :=
    match e.bossId with
    | none => none
    | some bid => e.monsters.find? (fun m => m.id == bid && decide (m.hp > 0))
  match boss with
  | none => e
  | some boss =>
    let e := { e with bossAttackCooldown := e.bossAttackCooldown - dt }
    if e.bossAttackCooldown ≤ 0 then e.spawnBossTelegraph M rs boss else e

/-- `updateBossTelegraphs` (lines 644–732). -/
def Engine.updateBossTelegraphs (M : MathOracle) (rs : RS) (e : Engine) (dt : ℚ) : Engine :=
  let e := e.bossAttackPhase M (rsub rs 0) dt
  if e.bossTelegraphs.length ≤ 0 then e
  else
    let r := telegraphLoop M (rsub rs 1) dt e.bossTelegraphs 0 e []
    { r.1 with bossTelegraphs := r.2 }

/-! ## Projectiles (lines 1230–1300) -/

/-- The area-of-effect splash of a magic projectile (lines 1261–1285):
every other captured living monster inside the blast radius takes reduced
damage. -/
def aoeLoop (M : MathOracle) (rs : RS) (proj : Projectile) (hitId : ℕ) :
    List ℕ → ℕ → Engine → Engine
  | [], _, e => e
  | mid :: rest, k, e =>
    if mid == hitId then aoeLoop M rs proj hitId rest (k + 1) e
    else
      match e.monsters.find? (fun m => m.id == mid) with
      | none => aoeLoop M rs proj hitId rest (k + 1) e
      | some otherMonster =>
        let aoeR := proj.aoeRadius.getD 0
        let aoeDistSq := distanceSq proj.pos otherMonster.pos
        if aoeDistSq ≤ sqrQ (aoeR + otherMonster.radius) then
          let rsk := rsub rs k
          let aoeCrit := rsk 0 < proj.critChance * 0.5
          let aoeDmg := proj.damage * 0.6 * randomRange (rsk 1) 0.85 1.1 *
            (if aoeCrit then 1.6 else 1)
          let e := e.damageMonster M (rsub rsk 2) mid aoeDmg aoeCrit
          aoeLoop M rs proj hitId rest (k + 1) e
        else aoeLoop M rs proj hitId rest (k + 1) e

/-- The collision loop of `updateProjectiles` (lines 1249–1292) for one
projectile, iterating over the monsters that were alive when the tick's
projectile pass began (the source captures this list once; hits mutate the
shared monster records, modelled here by id lookups). -/
def projHitLoop (M : MathOracle) (rs : RS) (livingIds : List ℕ) :
    List ℕ → ℕ → Engine → Projectile → Engine × Projectile × Bool
  | [], _, e, proj => (e, proj, false)
  | mid :: rest, i, e, proj =>
    match e.monsters.find? (fun m => m.id == mid) with
    | none => projHitLoop M rs livingIds rest (i + 1) e proj
    | some monster =>
      let rr := proj.radius + monster.radius
      if distanceSq proj.pos monster.pos > rr * rr then
        projHitLoop M rs livingIds rest (i + 1) e proj
      else
        let rsi := rsub rs i
        let crit := rsi 0 < proj.critChance
        let damage := proj.damage * randomRange (rsi 1) 0.9 1.14 * (if crit then 1.8 else 1)
        let e := e.damageMonster M (rsub rsi 2) mid damage crit
        let e :=
          if proj.kind = .magic ∧ proj.aoeRadius ≠ none then
            let e := aoeLoop M (rsub rsi 3) proj mid livingIds 0 e
            let (lid, e) := e.nextId
            let strike : LightningEffect :=
              { id := lid, pos := ⟨proj.pos.x, proj.pos.y⟩, radius := proj.aoeRadius.getD 0,
                life := LIGHTNING_LIFE * 1.1, maxLife := LIGHTNING_LIFE * 1.1 }
            let e := { e with lightnings := e.lightnings ++ [strike] }
            let e := e.emitBurst M (rsub rsi 4) proj.pos 14 "#b388ff" 180
            let e := e.emitBurst M (rsub rsi 5) proj.pos 6 "#ffffff" 120
            { e with screenShake := max e.screenShake 4 }
          else e
        if proj.pierceLeft = 0 then (e, proj, true)
        else projHitLoop M rs livingIds rest (i + 1) e { proj with pierceLeft := proj.pierceLeft - 1 }

/-- The main loop of `updateProjectiles` (lines 1234–1297). -/
def projLoop (M : MathOracle) (rs : RS) (dt : ℚ) (livingIds : List ℕ) :
    List Projectile → ℕ → Engine → List Projectile → Engine × List Projectile
  | [], _, e, remaining => (e, remaining)
  | proj :: rest, i, e, remaining =>
    let proj := { proj with
      pos := ⟨proj.pos.x + proj.vel.x * dt, proj.pos.y + proj.vel.y * dt⟩,
      life := proj.life - dt }
    if proj.life ≤ 0 ∨ proj.pos.x < -60 ∨ proj.pos.y < -60 ∨
        proj.pos.x > WORLD_WIDTH + 60 ∨ proj.pos.y > WORLD_HEIGHT + 60 then
      projLoop M rs dt livingIds rest (i + 1) e remaining
    else
      let r := projHitLoop M (rsub rs i) livingIds livingIds 0 e proj
      if r.2.2 then projLoop M rs dt livingIds rest (i + 1) r.1 remaining
      else projLoop M rs dt livingIds rest (i + 1) r.1 (remaining ++ [r.2.1])

/-- `updateProjectiles` (lines 1230–1300). -/
def Engine.updateProjectiles (M : MathOracle) (rs : RS) (e : Engine) (dt : ℚ) : Engine :=
  let livingIds := (e.monsters.filter (fun m => decide (m.hp > 0))).map Monster.id
  let r := projLoop M rs dt livingIds e.projectiles 0 e []
  { r.1 with projectiles := r.2 }

/-! ## Monsters (lines 1302–1342) -/

/-- The per-monster loop of `updateMonsters`: steer toward the player,
then contact damage gated by the invincibility window. -/
def monsterLoop (M : MathOracle) (rs : RS) (dt : ℚ) :
    List Monster → ℕ → Engine → List Monster → Engine × List Monster
  | [], _, e, out => (e, out)
  | monster :: rest, i, e, out =>
    if monster.hp ≤ 0 then monsterLoop M rs dt rest (i + 1) e (out ++ [monster])
    else
      let p := e.player
      let next := moveTowards M monster.pos p.pos monster.speed dt
      let monster := { monster with
        vel := ⟨(next.x - monster.pos.x) / dt, (next.y - monster.pos.y) / dt⟩,
        pos := next }
      let rr := monster.radius + p.radius
      if distanceSq monster.pos p.pos > rr * rr then
        monsterLoop M rs dt rest (i + 1) e (out ++ [monster])
      else if p.invincibleTimer > 0 then
        monsterLoop M rs dt rest (i + 1) e (out ++ [monster])
      else
        let incoming := monster.damage * randomRange (rsub rs i 0) 0.9 1.08
        let reduced := incoming * (1 - p.armor)
        let e := { e with
          player := { p with hp := p.hp - reduced, invincibleTimer := 0.62 },
          combo := 0,
          screenShake := max e.screenShake 7,
          hitStopTimer := max e.hitStopTimer 0.018,
          impactFlash := max e.impactFlash 0.12 }
        let e := e.emitAudio .player_hit (clampQ (reduced / 60) 0.2 1)
        let e := e.spawnDamageText ⟨e.player.pos.x, e.player.pos.y⟩ (jsRound reduced) false
        let e := e.emitBurst M (rsub (rsub rs i) 1) ⟨e.player.pos.x, e.player.pos.y⟩ 8 "#ff6b6b" 170
        monsterLoop M rs dt rest (i + 1) e.checkPlayerDeath (out ++ [monster])

/-- `updateMonsters` (lines 1302–1342). -/
def Engine.updateMonsters (M : MathOracle) (rs : RS) (e : Engine) (dt : ℚ) : Engine :=
  let r := monsterLoop M rs dt e.monsters 0 e []
  { r.1 with monsters := r.2 }

/-! ## Gems (lines 1344–1368) -/

/-- The per-gem loop of `updateGems`: magnet pull, then collection. -/
def gemLoop (M : MathOracle) (rs : RS) (dt : ℚ) :
    List Gem → ℕ → Engine → List Gem → Engine × List Gem
  | [], _, e, kept => (e, kept)
  | gem :: rest, i, e, kept =>
    let p := e.player
    let d2 := distanceSq gem.pos p.pos
    let d := M.sqrt d2
    let gem :=
      if d < p.magnetRadius ∧ d > 0.001 then
        let pull := 260 + (p.magnetRadius - d) * 1.9
        { gem with pos := moveTowards M gem.pos p.pos pull dt }
      else gem
    let collectDist := GEM_PICKUP_RADIUS + gem.radius
    if distanceSq gem.pos p.pos ≤ sqrQ collectDist then
      let e := Engine.gainExp (rsub (rsub rs i) 0) e gem.value
      let e := e.emitBurst M (rsub (rsub rs i) 1) gem.pos 4 "#8fffd9" 110
      gemLoop M rs dt rest (i + 1) e kept
    else gemLoop M rs dt rest (i + 1) e (kept ++ [gem])

/-- `updateGems` (lines 1344–1368). -/
def Engine.updateGems (M : MathOracle) (rs : RS) (e : Engine) (dt : ℚ) : Engine :=
  let r := gemLoop M rs dt e.gems 0 e []
  { r.1 with gems := r.2 }

/-! ## Player motion (lines 487–535) -/

/-- `updatePlayer` (lines 487–535). -/
def Engine.updatePlayer (M : MathOracle) (e : Engine) (dt : ℚ) : Engine :=
  let p := e.player
  let inputVec : Vec2 :=
    match e.touchVector with
    | some tv => normalize M tv
    | none =>
      normalize M ⟨(if e.input.right then 1 else 0) - (if e.input.left then 1 else 0),
                   (if e.input.down then 1 else 0) - (if e.input.up then 1 else 0)⟩
  let targetVel : Vec2 := ⟨inputVec.x * p.speed, inputVec.y * p.speed⟩
  let accelerating := |inputVec.x| > 0.02 ∨ |inputVec.y| > 0.02
  let response : ℚ := if accelerating then 16 else 12
  let blend := 1 - M.exp (-response * dt)
  let vel : Vec2 := ⟨p.vel.x + (targetVel.x - p.vel.x) * blend,
                     p.vel.y + (targetVel.y - p.vel.y) * blend⟩
  let vel : Vec2 :=
    if ¬accelerating then
      ⟨vel.x * (1 - min 0.82 (dt * 10.5)), vel.y * (1 - min 0.82 (dt * 10.5))⟩
    else vel
  let speedMag := M.hypot vel.x vel.y
  let e := { e with
    playerSpeedFrac := clampQ (speedMag / max 1 p.speed) 0 1,
    playerMoving := speedMag > 8 }
  let pos : Vec2 := ⟨clampQ (p.pos.x + vel.x * dt) p.radius (WORLD_WIDTH - p.radius),
                     clampQ (p.pos.y + vel.y * dt) p.radius (WORLD_HEIGHT - p.radius)⟩
  let facing : ℤ := if |vel.x| > 4 then (if vel.x > 0 then 1 else -1) else p.facing
  let lastMoveDir := if |vel.x| > 4 ∨ |vel.y| > 4 then normalize M vel else p.lastMoveDir
  { e with player := { p with
      vel := vel, pos := pos, facing := facing, lastMoveDir := lastMoveDir,
      invincibleTimer := max 0 (p.invincibleTimer - dt) } }

/-! ## Player auto-attacks (lines 894–1064) -/

/-- Default used for the (never taken) out-of-range index of the target
cycling in the multi-shot attacks. -/
def dfltMonster : Monster :=
  { id := 0, kind := .slime, pos := ⟨0, 0⟩, vel := ⟨0, 0⟩, radius := 0, hp := 0
    maxHp := 0, speed := 0, damage := 0, expValue := 0, isBoss := false, color := "" }

/-- `performSlashProjectile` (lines 928–977). -/
def Engine.performSlashProjectile (M : MathOracle) (e : Engine) : Bool × Engine :=
  let targets := e.collectNearestLivingMonsters e.player.pos none 1
  match targets with
  | [] => (false, e)
  | main :: _ =>
    let p := e.player
    let direction := M.atan2 (main.pos.y - p.pos.y) (main.pos.x - p.pos.x)
    let dir := normalize M ⟨main.pos.x - p.pos.x, main.pos.y - p.pos.y⟩
    let e := { e with player := { p with lastMoveDir := dir } }
    let speed : ℚ := 480
    let (pid, e) := e.nextId
    let proj : Projectile :=
      { id := pid
        pos := ⟨p.pos.x + dir.x * (p.radius + 12), p.pos.y + dir.y * (p.radius + 12)⟩
        vel := ⟨dir.x * speed, dir.y * speed⟩
        radius := 22, damage := p.damage, life := 0.45, maxLife := 0.45
        pierceLeft := 99, critChance := p.critChance, kind := .slash
        angle := some direction }
    let e := { e with projectiles := e.projectiles ++ [proj] }
    let (sid, e) := e.nextId
    let slash : SlashEffect :=
      { id := sid, pos := ⟨p.pos.x, p.pos.y⟩, radius := p.range * 0.5 + 26
        angle := direction, life := SLASH_LIFE, maxLife := SLASH_LIFE }
    let e := { e with slashes := e.slashes ++ [slash] }
    (true, e)

/-- The shot loop of `performArrowAttack` (lines 991–1019), cycling over
the collected targets. -/
def arrowLoop (M : MathOracle) (rs : RS) (targets : List Monster) :
    ℕ → ℕ → Engine → Engine
  | _, 0, e => e
  | i, n + 1, e =>
    let p := e.player
    let target := targets.getD (i % targets.length) dfltMonster
    let dir := normalize M ⟨target.pos.x - p.pos.x + randomRange (rsub rs i 0) (-8) 8,
                            target.pos.y - p.pos.y + randomRange (rsub rs i 1) (-8) 8⟩
    let e := if i = 0 then { e with player := { p with lastMoveDir := dir } } else e
    let angle := M.atan2 dir.y dir.x
    let (pid, e) := e.nextId
    let proj : Projectile :=
      { id := pid
        pos := ⟨p.pos.x + dir.x * (p.radius + 8), p.pos.y + dir.y * (p.radius + 8)⟩
        vel := ⟨dir.x * 680, dir.y * 680⟩
        radius := 5, damage := p.damage, life := 1.0, maxLife := 1.0
        pierceLeft := p.pierce, critChance := p.critChance, kind := .arrow
        angle := some angle }
    let e := { e with projectiles := e.projectiles ++ [proj] }
    arrowLoop M rs targets (i + 1) n e

/-- `performArrowAttack` (lines 979–1021). -/
def Engine.performArrowAttack (M : MathOracle) (rs : RS) (e : Engine) : Bool × Engine :=
  let p := e.player
  let maxShots := max 1 p.projectiles
  let targets := e.collectNearestLivingMonsters p.pos (some (sqrQ (p.range * 1.4)))
    (min (max 1 maxShots) 12)
  if targets.length = 0 then (false, e)
  else (true, arrowLoop M rs targets 0 maxShots e)

/-- The shot loop of `performMagicAoeAttack` (lines 1035–1062). -/
def magicLoop (M : MathOracle) (rs : RS) (targets : List Monster) :
    ℕ → ℕ → Engine → Engine
  | _, 0, e => e
  | i, n + 1, e =>
    let p := e.player
    let target := targets.getD (i % targets.length) dfltMonster
    let dir := normalize M ⟨target.pos.x - p.pos.x + randomRange (rsub rs i 0) (-16) 16,
                            target.pos.y - p.pos.y + randomRange (rsub rs i 1) (-16) 16⟩
    let e := if i = 0 then { e with player := { p with lastMoveDir := dir } } else e
    let (pid, e) := e.nextId
    let proj : Projectile :=
      { id := pid
        pos := ⟨p.pos.x + dir.x * (p.radius + 8), p.pos.y + dir.y * (p.radius + 8)⟩
        vel := ⟨dir.x * PROJECTILE_SPEED, dir.y * PROJECTILE_SPEED⟩
        radius := 9, damage := p.damage, life := PROJECTILE_LIFE, maxLife := PROJECTILE_LIFE
        pierceLeft := 0, critChance := p.critChance, kind := .magic
        aoeRadius := some 65 }
    let e := { e with projectiles := e.projectiles ++ [proj] }
    magicLoop M rs targets (i + 1) n e

/-- `performMagicAoeAttack` (lines 1023–1064). -/
def Engine.performMagicAoeAttack (M : MathOracle) (rs : RS) (e : Engine) : Bool × Engine :=
  let p := e.player
  let maxShots := max 1 p.projectiles
  let targets := e.collectNearestLivingMonsters p.pos (some (sqrQ (p.range * 1.4)))
    (min (max 1 maxShots) 12)
  if targets.length = 0 then (false, e)
  else (true, magicLoop M rs targets 0 maxShots e)

/-- `updateAttacks` (lines 894–926). -/
def Engine.updateAttacks (M : MathOracle) (rs : RS) (e : Engine) (dt : ℚ) : Engine :=
  let e := { e with player := { e.player with attackCooldown := e.player.attackCooldown - dt } }
  if e.player.attackCooldown > 0 then e
  else if e.monsters.length = 0 then
    { e with player := { e.player with attackCooldown := 0.06 } }
  else
    let r :=
      match e.config.attackStyle with
      | .slash_projectile => e.performSlashProjectile M
      | .arrow => e.performArrowAttack M (rsub rs 0)
      | .magic_aoe => e.performMagicAoeAttack M (rsub rs 0)
    let attacked := r.1
    let e := r.2
    if !attacked then { e with player := { e.player with attackCooldown := 0.08 } }
    else
      let e := { e with playerAttackPulse := 1 }
      let e := e.emitAudio .player_attack 1
      { e with player := { e.player with
          attackCooldown := e.player.attackCooldown + e.player.attackInterval } }

/-! ## Skills (lines 1066–1228) -/

/-- The per-blade monster sweep of `updateBladeSkill` (lines 1114–1129). -/
def bladeHitLoop (M : MathOracle) (rs : RS) (bladePos : Vec2)
    (hitRadius baseDamage : ℚ) : List ℕ → ℕ → Engine → Bool → Engine × Bool
  | [], _, e, hitAny => (e, hitAny)
  | mid :: rest, k, e, hitAny =>
    match e.monsters.find? (fun m => m.id == mid) with
    | none => bladeHitLoop M rs bladePos hitRadius baseDamage rest (k + 1) e hitAny
    | some monster =>
      if monster.hp ≤ 0 then bladeHitLoop M rs bladePos hitRadius baseDamage rest (k + 1) e hitAny
      else
        let rr := hitRadius + monster.radius
        if distanceSq bladePos monster.pos > rr * rr then
          bladeHitLoop M rs bladePos hitRadius baseDamage rest (k + 1) e hitAny
        else
          let rsk := rsub rs k
          let crit := rsk 0 < e.player.critChance * 0.45
          let amount := baseDamage * randomRange (rsk 1) 0.9 1.08 * (if crit then 1.7 else 1)
          let e := e.damageMonster M (rsub rsk 2) mid amount crit
          bladeHitLoop M rs bladePos hitRadius baseDamage rest (k + 1) e true

/-- The blade loop of `updateBladeSkill` (lines 1107–1129). -/
def bladeLoop (M : MathOracle) (rs : RS) (bladeCount : ℕ)
    (radius hitRadius baseDamage : ℚ) : ℕ → ℕ → Engine → Bool → Engine × Bool
  | _, 0, e, hitAny => (e, hitAny)
  | i, n + 1, e, hitAny =>
    let angle := e.bladeOrbitAngle + ((i : ℚ) / (bladeCount : ℚ)) * mathPi * 2
    let bladePos : Vec2 := ⟨e.player.pos.x + M.cos angle * radius,
                            e.player.pos.y + M.sin angle * radius⟩
    let ids := e.monsters.map Monster.id
    let r := bladeHitLoop M (rsub rs i) bladePos hitRadius baseDamage ids 0 e hitAny
    bladeLoop M rs bladeCount radius hitRadius baseDamage (i + 1) n r.1 r.2

/-- `updateBladeSkill` (lines 1089–1135). -/
def Engine.updateBladeSkill (M : MathOracle) (rs : RS) (e : Engine) (dt : ℚ) : Engine :=
  let level := e.skills.blade
  if level = 0 then e
  else
    let e := { e with bladeTickCooldown := e.bladeTickCooldown - dt }
    if e.bladeTickCooldown > 0 then e
    else
      let e := { e with bladeTickCooldown := max 0.08 (0.24 - (level : ℚ) * 0.018) }
      let bladeCount := min 6 (1 + level)
      let radius := 62 + (level : ℚ) * 9
      let hitRadius := 12 + (level : ℚ) * 0.7
      let baseDamage := e.player.damage * (0.52 + (level : ℚ) * 0.2)
      let r := bladeLoop M rs bladeCount radius hitRadius baseDamage 0 bladeCount e false
      let e := r.1
      if r.2 then
        let e := { e with hitStopTimer := max e.hitStopTimer 0.016,
                          impactFlash := max e.impactFlash 0.08 }
        e.emitAudio .skill_blade (clampQ ((level : ℚ) / 8) 0.25 1)
      else e

/-- The per-target strike loop of `castLightning` (lines 1155–1173).  The
effect position is the target's position after knockback, as in the
source (the mutated record is read back). -/
def lightningTargets (M : MathOracle) (rs : RS) (level : ℕ) :
    List Monster → ℕ → Engine → Engine
  | [], _, e => e
  | target :: rest, j, e =>
    let rsj := rsub rs j
    let crit := rsj 0 < e.player.critChance * 0.6
    let amount := e.player.damage * (1.35 + (level : ℚ) * 0.48) *
      randomRange (rsj 1) 0.9 1.15 * (if crit then 1.65 else 1)
    let e := e.damageMonster M (rsub rsj 2) target.id amount crit
    let curPos := ((e.monsters.find? (fun m => m.id == target.id)).map Monster.pos).getD target.pos
    let (lid, e) := e.nextId
    let strike : LightningEffect :=
      { id := lid, pos := ⟨curPos.x, curPos.y⟩, radius := 72 + (level : ℚ) * 8
        life := LIGHTNING_LIFE, maxLife := LIGHTNING_LIFE }
    let e := { e with lightnings := e.lightnings ++ [strike] }
    let e := e.emitBurst M (rsub rsj 3) curPos 12 "#9ef6ff" 240
    let e := e.emitBurst M (rsub rsj 4) curPos 8 "#ffffff" 160
    let e := { e with screenShake := max e.screenShake 8,
                      hitStopTimer := max e.hitStopTimer 0.022,
                      impactFlash := max e.impactFlash 0.18 }
    lightningTargets M rs level rest (j + 1) e

/-- `castLightning` (lines 1137–1175). -/
def Engine.castLightning (M : MathOracle) (rs : RS) (e : Engine) : Engine :=
  if e.monsters.length = 0 then e
  else
    let level := e.skills.lightning
    let targetCount := 1 + (level + 1) / 2
    let nearestPool := e.collectNearestLivingMonsters e.player.pos none (max 3 (targetCount * 2))
    if nearestPool.length = 0 then e
    else
      let targets := pickRandomUnique (rsub rs 0) nearestPool (min targetCount nearestPool.length)
      let e := lightningTargets M (rsub rs 1) level targets 0 e
      e.emitAudio .skill_lightning (clampQ ((level : ℚ) / 8) 0.3 1)

/-- The segment-hit loop of `castLaser` (lines 1201–1212). -/
def laserHitLoop (M : MathOracle) (rs : RS) (beamStart beamEnd : Vec2)
    (baseDamage : ℚ) : List ℕ → ℕ → Engine → Engine
  | [], _, e => e
  | mid :: rest, k, e =>
    match e.monsters.find? (fun m => m.id == mid) with
    | none => laserHitLoop M rs beamStart beamEnd baseDamage rest (k + 1) e
    | some monster =>
      if monster.hp ≤ 0 then laserHitLoop M rs beamStart beamEnd baseDamage rest (k + 1) e
      else
        let d := distanceToSegment M monster.pos beamStart beamEnd
        if d > monster.radius + 12 then laserHitLoop M rs beamStart beamEnd baseDamage rest (k + 1) e
        else
          let rsk := rsub rs k
          let crit := rsk 0 < e.player.critChance * 0.35
          let amount := baseDamage * randomRange (rsk 1) 0.93 1.08 * (if crit then 1.6 else 1)
          let e := e.damageMonster M (rsub rsk 2) mid amount crit
          laserHitLoop M rs beamStart beamEnd baseDamage rest (k + 1) e

/-- `castLaser` (lines 1177–1228). -/
def Engine.castLaser (M : MathOracle) (rs : RS) (e : Engine) : Engine :=
  let level := e.skills.laser
  if level = 0 ∨ e.monsters.length = 0 then e
  else
    let p := e.player
    match e.collectNearestLivingMonsters p.pos none 1 with
    | [] => e
    | target :: _ =>
      let dir := normalize M ⟨target.pos.x - p.pos.x, target.pos.y - p.pos.y⟩
      let range := 520 + (level : ℚ) * 95
      let beamStart : Vec2 := ⟨p.pos.x, p.pos.y - 14⟩
      let beamEnd : Vec2 := ⟨beamStart.x + dir.x * range, beamStart.y + dir.y * range⟩
      let baseDamage := p.damage * (2.9 + (level : ℚ) * 1.15)
      let ids := e.monsters.map Monster.id
      let e := laserHitLoop M (rsub rs 0) beamStart beamEnd baseDamage ids 0 e
      let (bid, e) := e.nextId
      let beam : BeamEffect :=
        { id := bid, from_ := beamStart, to_ := beamEnd, life := BEAM_LIFE
          maxLife := BEAM_LIFE, color := "#f8b4ff" }
      let e := { e with beams := e.beams ++ [beam] }
      let e := e.emitBurst M (rsub rs 1) beamEnd 18 "#ffb5f7" 220
      let e := e.emitBurst M (rsub rs 2) beamEnd 10 "#ffffff" 170
      let e := { e with screenShake := max e.screenShake 10,
                        hitStopTimer := max e.hitStopTimer 0.03,
                        impactFlash := max e.impactFlash 0.22 }
      e.emitAudio .skill_laser (clampQ ((level : ℚ) / 8) 0.35 1)

/-- The lightning gate of `updateSkills` (lines 1074–1079). -/
def Engine.tickLightningGate (M : MathOracle) (rs : RS) (e : Engine) : Engine :=
  if e.skills.lightning > 0 ∧ e.lightningCooldown ≤ 0 then
    let e := e.castLightning M rs
    { e with lightningCooldown := max 0.7 (3.25 - (e.skills.lightning : ℚ) * 0.38) }
  else e

/-- The laser gate of `updateSkills` (lines 1081–1086). -/
def Engine.tickLaserGate (M : MathOracle) (rs : RS) (e : Engine) : Engine :=
  if e.skills.laser > 0 ∧ e.laserCooldown ≤ 0 then
    let e := e.castLaser M rs
    { e with laserCooldown := max 0.95 (4.1 - (e.skills.laser : ℚ) * 0.42) }
  else e

/-- `updateSkills` (lines 1066–1087). -/
def Engine.updateSkills (M : MathOracle) (rs : RS) (e : Engine) (dt : ℚ) : Engine :=
  let e := { e with bladeOrbitAngle :=
    e.bladeOrbitAngle + dt * (1.8 + (e.skills.blade : ℚ) * 0.16) * mathPi }
  let e :=
    if e.bladeOrbitAngle > mathPi * 2 then
      { e with bladeOrbitAngle := e.bladeOrbitAngle - mathPi * 2 }
    else e
  let e := e.updateBladeSkill M (rsub rs 0) dt
  let e := { e with lightningCooldown := e.lightningCooldown - dt }
  let e := e.tickLightningGate M (rsub rs 1)
  let e := { e with laserCooldown := e.laserCooldown - dt }
  e.tickLaserGate M (rsub rs 2)

/-! ## Cosmetic decay and camera (lines 1642–1694) -/

/-- `updateVisuals` (lines 1642–1674). -/
def Engine.updateVisuals (e : Engine) (dt : ℚ) : Engine :=
  let particles := (e.particles.map (fun pt =>
    { pt with pos := ⟨pt.pos.x + pt.vel.x * dt, pt.pos.y + pt.vel.y * dt⟩,
              life := pt.life - dt })).filter (fun pt => decide (pt.life > 0))
  let damageTexts := (e.damageTexts.map (fun t =>
    { t with pos := ⟨t.pos.x, t.pos.y - 42 * dt⟩,
             life := t.life - dt })).filter (fun t => decide (t.life > 0))
  let slashes := (e.slashes.map (fun s => { s with life := s.life - dt })).filter
    (fun s => decide (s.life > 0))
  let beams := (e.beams.map (fun b => { b with life := b.life - dt })).filter
    (fun b => decide (b.life > 0))
  let lightnings := (e.lightnings.map (fun s => { s with life := s.life - dt })).filter
    (fun s => decide (s.life > 0))
  { e with
    particles := particles, damageTexts := damageTexts, slashes := slashes,
    beams := beams, lightnings := lightnings,
    playerAttackPulse := max 0 (e.playerAttackPulse - dt * 2.0),
    screenShake := max 0 (e.screenShake - dt * 18),
    impactFlash := max 0 (e.impactFlash - dt * 1.8) }

/-- `updateCamera` (lines 1676–1694). -/
def Engine.updateCamera (M : MathOracle) (rs : RS) (e : Engine)
    (viewportWidth viewportHeight dt : ℚ) : Engine :=
  let p := e.player
  let cam := e.camera
  let targetX := clampQ p.pos.x (viewportWidth * 0.5) (WORLD_WIDTH - viewportWidth * 0.5)
  let targetY := clampQ p.pos.y (viewportHeight * 0.5) (WORLD_HEIGHT - viewportHeight * 0.5)
  let followFactor := 1 - M.exp (-CAMERA_LERP * dt)
  let cam := { cam with x := cam.x + (targetX - cam.x) * followFactor,
                        y := cam.y + (targetY - cam.y) * followFactor }
  let cam :=
    if e.screenShake > 0.01 then
      let amp := e.screenShake * e.cameraShakeScale
      { cam with shakeX := randomRange (rs 0) (-amp) amp,
                 shakeY := randomRange (rs 1) (-amp) amp }
    else { cam with shakeX := 0, shakeY := 0 }
  { e with camera := cam }

/-! ## The tick dispatcher (`update`, lines 209–257) -/

/-- `update` (lines 209–257). -/
def Engine.update (M : MathOracle) (rs : RS) (e : Engine)
    (deltaSeconds viewportWidth viewportHeight : ℚ) : Engine :=
  let dt := clampQ deltaSeconds 0 0.05
  if dt ≤ 0 then e
  else if e.paused then e.updateCamera M (rsub rs 10) viewportWidth viewportHeight dt
  else if e.hitStopTimer > 0 then
    let e := { e with hitStopTimer := max 0 (e.hitStopTimer - dt) }
    let e := e.updateVisuals (dt * 0.45)
    e.updateCamera M (rsub rs 10) viewportWidth viewportHeight (dt * 0.55)
  else if e.gameOver ∨ e.victory then
    let e := e.updateVisuals dt
    e.updateCamera M (rsub rs 10) viewportWidth viewportHeight dt
  else if e.awaitingUpgrade then
    let e := e.updateVisuals dt
    e.updateCamera M (rsub rs 10) viewportWidth viewportHeight dt
  else if e.stageClearReady then
    let e := e.updateStageClearTransition M (rsub rs 9) dt
    let e := e.updateVisuals dt
    e.updateCamera M (rsub rs 10) viewportWidth viewportHeight dt
  else
    let e := e.updatePlayer M dt
    let e := e.updateStage M (rsub rs 0) dt
    let e := e.updateAttacks M (rsub rs 1) dt
    let e := e.updateSkills M (rsub rs 2) dt
    let e := e.updateBossTelegraphs M (rsub rs 3) dt
    let e := e.updateProjectiles M (rsub rs 4) dt
    let e := e.updateMonsters M (rsub rs 5) dt
    let e := e.updateGems M (rsub rs 6) dt
    let e := e.processDeathsAndProgression M (rsub rs 7)
    let e := e.updateVisuals dt
    e.updateCamera M (rsub rs 10) viewportWidth viewportHeight dt

/-! ## Input setters (lines 188–198) -/

/-- `setInputKey` (lines 188–190). -/
def Engine.setInputKey (e : Engine) (key : String) (pressed : Bool) : Engine :=
  if key = "up" then { e with input := { e.input with up := pressed } }
  else if key = "down" then { e with input := { e.input with down := pressed } }
  else if key = "left" then { e with input := { e.input with left := pressed } }
  else if key = "right" then { e with input := { e.input with right := pressed } }
  else e

/-- `setTouchVector` (lines 192–194). -/
def Engine.setTouchVector (e : Engine) (vector : Option Vec2) : Engine :=
  { e with touchVector := vector }

/-- `setCameraShakeScale` (lines 196–198). -/
def Engine.setCameraShakeScale (e : Engine) (scale : ℚ) : Engine :=
  { e with cameraShakeScale := clampQ scale 0 1.6 }

/-! ## Telegraph lifecycle characterization -/

/-- A telegraph after this tick's life decrement. -/
def decTel (dt : ℚ) (t : BossTelegraph) : BossTelegraph := { t with life := t.life - dt }

/-- The telegraphs a tick keeps pending: exactly the decremented ones whose
life is still positive. -/
def keptTelegraphs (dt : ℚ) (ts : List BossTelegraph) : List BossTelegraph :=
  (ts.map (decTel dt)).filter (fun t => decide (0 < t.life))

/-- The telegraphs due this tick: the decremented ones whose life reached
zero or below. -/
def dueTelegraphs (dt : ℚ) (ts : List BossTelegraph) : List BossTelegraph :=
  (ts.map (decTel dt)).filter (fun t => decide (t.life ≤ 0))

/-- The due telegraphs paired with their positions in the loop (the
positions select the random substreams of their resolutions). -/
def dueIdxOf (dt : ℚ) : List BossTelegraph → ℕ → List (ℕ × BossTelegraph)
  | [], _ => []
  | t :: rest, i =>
    let t' := decTel dt t
    if 0 < t'.life then dueIdxOf dt rest (i + 1)
    else (i, t') :: dueIdxOf dt rest (i + 1)

/-- Resolving a list of due telegraphs in order, once each. -/
def resolveFold (M : MathOracle) (rs : RS) : List (ℕ × BossTelegraph) → Engine → Engine
  | [], e => e
  | (i, t) :: rest, e => resolveFold M rs rest (e.resolveBossTelegraph M (rsub rs i) t)

/-! ## Invariants referenced by the theorems -/

/-- Monster population cap for a stage (line 549). -/
def monsterCap (idx : ℕ) : ℕ := MAX_MONSTERS_BASE + idx * MAX_MONSTERS_PER_STAGE

/-- All monsters carry non-negative attack damage. -/
def monstersDmgOk (e : Engine) : Prop := ∀ m ∈ e.monsters, 0 ≤ m.damage

/-- All active telegraphs carry non-negative damage. -/
def telsDmgOk (e : Engine) : Prop := ∀ t ∈ e.bossTelegraphs, 0 ≤ t.damage

/-- The player-hp safety invariant of C2, together with the armor bounds
that damage application relies on. -/
def hpOk (e : Engine) : Prop :=
  0 ≤ e.player.hp ∧ e.player.hp ≤ e.player.maxHp ∧
  (e.player.hp = 0 → e.gameOver = true) ∧
  0 ≤ e.player.armor ∧ e.player.armor ≤ 0.75

/-- The inductive invariant used for C2. -/
def invC2 (e : Engine) : Prop := hpOk e ∧ monstersDmgOk e ∧ telsDmgOk e

/-- The inductive invariant used for C3: below the cap while no boss has
spawned, and never more than one over the cap (the boss insertion). -/
def invC3 (e : Engine) : Prop :=
  (e.bossSpawned = false → e.monsters.length ≤ monsterCap e.stageIndex) ∧
  e.monsters.length ≤ monsterCap e.stageIndex + 1

/-- The total experience carried by a gem list. -/
def gemValueSum (gs : List Gem) : ℚ := (gs.map Gem.value).sum

/-! ## Concrete data used by witnesses and counterexamples -/

/-- The all-zero random stream (a valid `Math.random()` history). -/
def rs0 : RS := fun _ => 0

/-- A boss monster already reduced to 0 hp. -/
def deadBossM : Monster :=
  { id := 2, kind := .boss, pos := ⟨100, 100⟩, vel := ⟨0, 0⟩, radius := 58, hp := 0
    maxHp := 1000, speed := 92, damage := 24, expValue := 100, isBoss := true
    color := "#79e27e" }

/-- A telegraph still in its warning phase (life 1 > 0). -/
def pendingTel : BossTelegraph :=
  { id := 3, kind := .circle, pos := ⟨100, 100⟩, to_ := none, angle := 0, arcSpan := 0
    radius := 100, width := 0, life := 1, maxLife := 1.05, damage := 26 }

/-- A tick state in which the boss has just been reduced to 0 hp while a
telegraph is still pending. -/
def cexC1 : Engine :=
  { initEngine .warrior with
    monsters := [deadBossM], bossTelegraphs := [pendingTel]
    bossId := some 2, bossSpawned := true }

/-- A tick state whose only monster is the dead boss (used to exercise the
stage-clear path of the death sweep). -/
def cexC4 : Engine :=
  { initEngine .warrior with
    monsters := [deadBossM], bossId := some 2, bossSpawned := true }

/-- A stored gem used to fill the stash to its cap. -/
def fillerG : Gem := { id := 9, pos := ⟨10, 10⟩, value := 3, radius := 6 }

/-- A dead ordinary monster whose exp must merge once the stash is full. -/
def deadSlime : Monster :=
  { id := 11, kind := .slime, pos := ⟨60, 60⟩, vel := ⟨0, 0⟩, radius := 19, hp := 0
    maxHp := 28, speed := 95, damage := 8, expValue := 8, isBoss := false, color := "" }

/-- A session state whose gem stash is exactly at the cap. -/
def cexC6 : Engine :=
  { initEngine .warrior with gems := List.replicate 520 fillerG }

/-- An ordinary live monster used to fill the population. -/
def fillerM : Monster :=
  { id := 5, kind := .slime, pos := ⟨50, 50⟩, vel := ⟨0, 0⟩, radius := 19, hp := 28
    maxHp := 28, speed := 95, damage := 8, expValue := 8, isBoss := false, color := "" }

/-- Stage 1 at the monster cap with the boss timer about to expire. -/
def cexC3 : Engine :=
  { initEngine .warrior with
    monsters := List.replicate 180 fillerM, stageTimeLeft := 0.01, spawnTimer := 5 }

/-- A cosmetic particle used to fill the particle pool. -/
def fillerP : Particle :=
  { id := 7, pos := ⟨0, 0⟩, vel := ⟨0, 0⟩, life := 0.3, maxLife := 0.5, size := 3
    color := "x" }

/-- A state whose particle pool is exactly at the cap. -/
def cexC7 : Engine :=
  { initEngine .warrior with particles := List.replicate 900 fillerP }

/-! ## Theorems -/

/-- C10: update with a non-positive delta time is a no-op: the clamped
`dt` is 0, and the guard at lines 209–213 returns before any state is
touched. -/
theorem C10_update_nonpositive_dt_is_noop (M : MathOracle) (rs : RS) (e : Engine)
    (delta viewportWidth viewportHeight : ℚ) (h : delta ≤ 0) :
    Engine.update M rs e delta viewportWidth viewportHeight = e := by
  have hdt : clampQ delta 0 0.05 ≤ 0 := by
    unfold clampQ
    exact max_le le_rfl (le_trans (min_le_right _ _) h)
  unfold Engine.update
  simp [hdt]

/-- Witness for C10 at a concrete negative delta. -/
theorem C10_witness :
    (-1 : ℚ) ≤ 0 ∧
      Engine.update zeroOracle rs0 (initEngine .warrior) (-1) 800 600 = initEngine .warrior :=
  ⟨by norm_num, C10_update_nonpositive_dt_is_noop zeroOracle rs0 (initEngine .warrior) (-1) 800 600 (by norm_num)⟩

/-- C8: the audio-event drain returns the queued events and empties the
queue; an immediately repeated drain returns the empty list and changes
nothing. -/
theorem C8_consumeAudioEvents_drains_once (e : Engine) :
    e.consumeAudioEvents.1 = e.audioEvents ∧
    e.consumeAudioEvents.2.audioEvents = [] ∧
    e.consumeAudioEvents.2.consumeAudioEvents.1 = [] ∧
    e.consumeAudioEvents.2.consumeAudioEvents.2 = e.consumeAudioEvents.2 := by
  unfold Engine.consumeAudioEvents
  by_cases h : e.audioEvents.length ≤ 0
  · have : e.audioEvents = [] := List.length_eq_zero.mp (Nat.le_zero.mp h)
    simp [this]
  · simp [h]

/-- The telegraph countdown loop resolves exactly the due telegraphs, in
order, and keeps exactly the still-positive ones. -/
theorem telegraphLoop_eq (M : MathOracle) (rs : RS) (dt : ℚ) :
    ∀ (ts : List BossTelegraph) (i : ℕ) (e : Engine) (pend : List BossTelegraph),
    telegraphLoop M rs dt ts i e pend =
      (resolveFold M rs (dueIdxOf dt ts i) e, pend ++ keptTelegraphs dt ts)
  | [], i, e, pend => by
    simp [telegraphLoop, dueIdxOf, keptTelegraphs, resolveFold]
  | t :: rest, i, e, pend => by
    simp only [telegraphLoop, dueIdxOf, keptTelegraphs, decTel, List.map_cons,
      List.filter_cons]
    by_cases h : 0 < t.life - dt
    · rw [if_pos (show ({ t with life := t.life - dt } : BossTelegraph).life > 0 from h),
        if_pos (show 0 < ({ t with life := t.life - dt } : BossTelegraph).life from h)]
      rw [telegraphLoop_eq M rs dt rest (i + 1)]
      simp only [keptTelegraphs, decTel]
      rw [if_pos (show decide (0 < ({ t with life := t.life - dt } : BossTelegraph).life)
        = true from by simpa using h)]
      simp [List.append_assoc]
    · rw [if_neg (show ¬(({ t with life := t.life - dt } : BossTelegraph).life > 0) from h),
        if_neg (show ¬(0 < ({ t with life := t.life - dt } : BossTelegraph).life) from h)]
      rw [telegraphLoop_eq M rs dt rest (i + 1)]
      simp only [keptTelegraphs, decTel, resolveFold]
      rw [if_neg (show ¬(decide (0 < ({ t with life := t.life - dt } : BossTelegraph).life)
        = true) from by simpa using h)]

/-- The due-with-index list projects to the due list. -/
theorem dueIdxOf_map_snd (dt : ℚ) :
    ∀ (ts : List BossTelegraph) (i : ℕ),
    (dueIdxOf dt ts i).map Prod.snd = dueTelegraphs dt ts
  | [], i => by simp [dueIdxOf, dueTelegraphs]
  | t :: rest, i => by
    simp only [dueIdxOf, dueTelegraphs, decTel, List.map_cons, List.filter_cons]
    by_cases h : 0 < t.life - dt
    · rw [if_pos (show 0 < ({ t with life := t.life - dt } : BossTelegraph).life from h)]
      rw [dueIdxOf_map_snd dt rest (i + 1)]
      simp only [dueTelegraphs, decTel]
      rw [if_neg (show ¬(decide (({ t with life := t.life - dt } : BossTelegraph).life ≤ 0)
        = true) from by simpa using h)]
    · rw [if_neg (show ¬(0 < ({ t with life := t.life - dt } : BossTelegraph).life) from h)]
      simp only [List.map_cons]
      rw [dueIdxOf_map_snd dt rest (i + 1)]
      simp only [dueTelegraphs, decTel]
      rw [if_pos (show decide (({ t with life := t.life - dt } : BossTelegraph).life ≤ 0)
        = true from by simpa using not_lt.mp h)]

/-- C1 (amended): within `updateBossTelegraphs`, after the attack phase,
every active telegraph is decremented; the ones whose life stays positive
are kept (unresolved), and the due ones — exactly those whose life reached
≤ 0 this tick — are removed from the active set and resolved exactly once
each, in loop order.  (The original claim fails because a telegraph can
also leave the active set unresolved when the boss dies or a stage
transition clears the set; see the counterexample.) -/
theorem C1_telegraphs_resolved_once_when_due (M : MathOracle) (rs : RS)
    (e : Engine) (dt : ℚ) :
    (e.updateBossTelegraphs M rs dt).bossTelegraphs =
        keptTelegraphs dt (e.bossAttackPhase M (rsub rs 0) dt).bossTelegraphs
    ∧ (dueIdxOf dt (e.bossAttackPhase M (rsub rs 0) dt).bossTelegraphs 0).map Prod.snd =
        dueTelegraphs dt (e.bossAttackPhase M (rsub rs 0) dt).bossTelegraphs
    ∧ e.updateBossTelegraphs M rs dt =
        (if (e.bossAttackPhase M (rsub rs 0) dt).bossTelegraphs.length = 0 then
          e.bossAttackPhase M (rsub rs 0) dt
        else
          { resolveFold M (rsub rs 1)
              (dueIdxOf dt (e.bossAttackPhase M (rsub rs 0) dt).bossTelegraphs 0)
              (e.bossAttackPhase M (rsub rs 0) dt) with
            bossTelegraphs :=
              keptTelegraphs dt (e.bossAttackPhase M (rsub rs 0) dt).bossTelegraphs }) := by
  simp only [Engine.updateBossTelegraphs]
  rw [telegraphLoop_eq]
  by_cases h : (e.bossAttackPhase M (rsub rs 0) dt).bossTelegraphs.length = 0
  · have hnil : (e.bossAttackPhase M (rsub rs 0) dt).bossTelegraphs = [] :=
      List.length_eq_zero.mp h
    simp [h, hnil, keptTelegraphs, dueTelegraphs, dueIdxOf, dueIdxOf_map_snd]
  · have hle : ¬((e.bossAttackPhase M (rsub rs 0) dt).bossTelegraphs.length ≤ 0) := by
      omega
    simp [hle, h, dueIdxOf_map_snd]

/-- C1 counterexample: a telegraph whose life is still positive (it was
never due, so its resolution never ran) is removed from the active set by
the death-processing step of the tick in which the boss dies.  This
refutes the claim that no telegraph is removed without its resolution
having run. -/
theorem C1_counterexample :
    cexC1.bossTelegraphs = [pendingTel] ∧ 0 < pendingTel.life ∧
    (cexC1.processDeathsAndProgression zeroOracle rs0).bossTelegraphs = [] ∧
    (cexC1.processDeathsAndProgression zeroOracle rs0).player.hp = cexC1.player.hp := by
  refine ⟨rfl, by norm_num [pendingTel], ?_, ?_⟩
  · rfl
  · rfl

/-- Each step of the burst loop appends exactly one particle. -/
theorem emitBurstAux_particles_length (M : MathOracle) (rs : RS) (center : Vec2)
    (color : String) (speed : ℚ) :
    ∀ (n i : ℕ) (e : Engine),
    (emitBurstAux M rs center color speed i n e).particles.length =
      e.particles.length + n
  | 0, i, e => by simp [emitBurstAux]
  | n + 1, i, e => by
    simp only [emitBurstAux, Engine.nextId]
    rw [emitBurstAux_particles_length M rs center color speed n (i + 1)]
    simp
    omega

/-- C7 (amended): damage texts are capped by oldest-eviction — an
insertion at the cap removes the oldest entry and appends the new one, so
the count stays at the cap and the new record is never dropped.  Particle
bursts instead saturate by rejection: at the cap the whole burst is
dropped, and below the cap the burst is truncated to the remaining
allowance.  Neither collection ever grows past its cap. -/
theorem C7_caps_evict_texts_reject_particles (M : MathOracle) (rs : RS) (e : Engine)
    (pos center : Vec2) (value : ℤ) (crit : Bool) (count : ℕ) (color : String)
    (speed : ℚ) :
    (e.damageTexts.length = MAX_DAMAGE_TEXTS →
        (e.spawnDamageText pos value crit).damageTexts =
          e.damageTexts.tail ++
            [{ id := e.ids + 1, pos := pos, value := value, life := DAMAGE_TEXT_LIFE,
               maxLife := DAMAGE_TEXT_LIFE, crit := crit }] ∧
        (e.spawnDamageText pos value crit).damageTexts.length = MAX_DAMAGE_TEXTS)
    ∧ (e.damageTexts.length < MAX_DAMAGE_TEXTS →
        (e.spawnDamageText pos value crit).damageTexts =
          e.damageTexts ++
            [{ id := e.ids + 1, pos := pos, value := value, life := DAMAGE_TEXT_LIFE,
               maxLife := DAMAGE_TEXT_LIFE, crit := crit }])
    ∧ (e.damageTexts.length ≤ MAX_DAMAGE_TEXTS →
        (e.spawnDamageText pos value crit).damageTexts.length ≤ MAX_DAMAGE_TEXTS)
    ∧ (MAX_PARTICLES ≤ e.particles.length →
        e.emitBurst M rs center count color speed = e)
    ∧ (e.particles.length < MAX_PARTICLES →
        (e.emitBurst M rs center count color speed).particles.length =
          e.particles.length + min count (MAX_PARTICLES - e.particles.length))
    ∧ (e.particles.length ≤ MAX_PARTICLES →
        (e.emitBurst M rs center count color speed).particles.length ≤ MAX_PARTICLES) := by
  have htext_cap : e.damageTexts.length = MAX_DAMAGE_TEXTS →
      (e.spawnDamageText pos value crit).damageTexts =
        e.damageTexts.tail ++
          [{ id := e.ids + 1, pos := pos, value := value, life := DAMAGE_TEXT_LIFE,
             maxLife := DAMAGE_TEXT_LIFE, crit := crit }] ∧
      (e.spawnDamageText pos value crit).damageTexts.length = MAX_DAMAGE_TEXTS := by
    intro h
    simp only [MAX_DAMAGE_TEXTS] at h
    have hge : (180 : ℕ) ≤ e.damageTexts.length := le_of_eq h.symm
    constructor
    · simp [Engine.spawnDamageText, MAX_DAMAGE_TEXTS, hge, Engine.nextId]
    · simp [Engine.spawnDamageText, MAX_DAMAGE_TEXTS, hge, Engine.nextId,
        List.length_tail]
      omega
  have htext_lt : e.damageTexts.length < MAX_DAMAGE_TEXTS →
      (e.spawnDamageText pos value crit).damageTexts =
        e.damageTexts ++
          [{ id := e.ids + 1, pos := pos, value := value, life := DAMAGE_TEXT_LIFE,
             maxLife := DAMAGE_TEXT_LIFE, crit := crit }] := by
    intro h
    have hge : ¬(e.damageTexts.length ≥ MAX_DAMAGE_TEXTS) := by omega
    simp [Engine.spawnDamageText, hge, Engine.nextId]
  have hpart_cap : MAX_PARTICLES ≤ e.particles.length →
      e.emitBurst M rs center count color speed = e := by
    intro h
    simp [Engine.emitBurst, h]
  have hpart_lt : e.particles.length < MAX_PARTICLES →
      (e.emitBurst M rs center count color speed).particles.length =
        e.particles.length + min count (MAX_PARTICLES - e.particles.length) := by
    intro h
    have hge : ¬(e.particles.length ≥ MAX_PARTICLES) := by omega
    by_cases hz : min count (MAX_PARTICLES - e.particles.length) = 0
    · simp [Engine.emitBurst, hge, hz]
    · simp only [Engine.emitBurst, ge_iff_le]
      rw [if_neg hge, if_neg hz]
      exact emitBurstAux_particles_length M rs center color speed _ 0 e
  refine ⟨htext_cap, htext_lt, ?_, hpart_cap, hpart_lt, ?_⟩
  · intro h
    rcases lt_or_eq_of_le h with hlt | heq
    · rw [htext_lt hlt]
      simp
      omega
    · exact (htext_cap heq).2.le
  · intro h
    rcases lt_or_eq_of_le h with hlt | heq
    · rw [hpart_lt hlt]
      omega
    · rw [hpart_cap (le_of_eq heq.symm)]
      exact h

/-- C7 counterexample: at the particle cap, `emitBurst` leaves the state
unchanged — the new particles are silently dropped instead of evicting the
oldest entries. -/
theorem C7_counterexample :
    cexC7.particles.length = MAX_PARTICLES ∧
    cexC7.emitBurst zeroOracle rs0 ⟨0, 0⟩ 10 "#fff" 100 = cexC7 := by
  constructor
  · simp [cexC7, MAX_PARTICLES, List.length_replicate]
  · have h : MAX_PARTICLES ≤ cexC7.particles.length := by
      simp [cexC7, MAX_PARTICLES, List.length_replicate]
    simp [Engine.emitBurst, h]

/-- Witness for C7 at both a capped state (texts evict, particles reject)
and an empty state (plain insertions). -/
theorem C7_witness :
    ((initEngine .warrior).damageTexts.length < MAX_DAMAGE_TEXTS ∧
      ((initEngine .warrior).spawnDamageText ⟨0, 0⟩ 5 false).damageTexts =
        [{ id := 2, pos := ⟨0, 0⟩, value := 5, life := DAMAGE_TEXT_LIFE,
           maxLife := DAMAGE_TEXT_LIFE, crit := false }]) ∧
    (MAX_PARTICLES ≤ cexC7.particles.length ∧
      cexC7.emitBurst zeroOracle rs0 ⟨1, 1⟩ 4 "#fff" 50 = cexC7) := by
  constructor
  · constructor
    · decide
    · have h := (C7_caps_evict_texts_reject_particles zeroOracle rs0 (initEngine .warrior)
        ⟨0, 0⟩ ⟨0, 0⟩ 5 false 4 "#fff" 50).2.1 (by decide)
      simpa [initEngine] using h
  · constructor
    · decide
    · exact (C7_caps_evict_texts_reject_particles zeroOracle rs0 cexC7
        ⟨1, 1⟩ ⟨1, 1⟩ 5 false 4 "#fff" 50).2.2.2.1 (by decide)

/-! ## Field-preservation lemmas for the engine's helper functions -/

@[simp] theorem emitAudio_eq (e : Engine) (t : AudioEventType) (i : ℚ) :
    e.emitAudio t i =
      { e with ids := e.ids + 1,
               audioEvents := e.audioEvents ++
                 [{ id := e.ids + 1, type := t, intensity := clampQ i 0 1 }] } := by
  simp [Engine.emitAudio, Engine.nextId]

@[simp] theorem spawnDamageText_eq (e : Engine) (pos : Vec2) (v : ℤ) (crit : Bool) :
    e.spawnDamageText pos v crit =
      { e with ids := e.ids + 1,
               damageTexts :=
                 (if MAX_DAMAGE_TEXTS ≤ e.damageTexts.length then e.damageTexts.tail
                  else e.damageTexts) ++
                 [{ id := e.ids + 1, pos := pos, value := v, life := DAMAGE_TEXT_LIFE,
                    maxLife := DAMAGE_TEXT_LIFE, crit := crit }] } := by
  by_cases h : MAX_DAMAGE_TEXTS ≤ e.damageTexts.length
  · simp [Engine.spawnDamageText, Engine.nextId, h]
  · simp [Engine.spawnDamageText, Engine.nextId, h]

@[simp] theorem emitBurstAux_core (M : MathOracle) (rs : RS) (center : Vec2)
    (color : String) (speed : ℚ) :
    ∀ (n i : ℕ) (e : Engine),
    (emitBurstAux M rs center color speed i n e).player = e.player ∧
    (emitBurstAux M rs center color speed i n e).gameOver = e.gameOver ∧
    (emitBurstAux M rs center color speed i n e).victory = e.victory ∧
    (emitBurstAux M rs center color speed i n e).monsters = e.monsters ∧
    (emitBurstAux M rs center color speed i n e).gems = e.gems ∧
    (emitBurstAux M rs center color speed i n e).projectiles = e.projectiles ∧
    (emitBurstAux M rs center color speed i n e).bossTelegraphs = e.bossTelegraphs ∧
    (emitBurstAux M rs center color speed i n e).stageIndex = e.stageIndex ∧
    (emitBurstAux M rs center color speed i n e).stageTimeLeft = e.stageTimeLeft ∧
    (emitBurstAux M rs center color speed i n e).bossSpawned = e.bossSpawned ∧
    (emitBurstAux M rs center color speed i n e).bossId = e.bossId ∧
    (emitBurstAux M rs center color speed i n e).stageClearReady = e.stageClearReady ∧
    (emitBurstAux M rs center color speed i n e).stageClearDelay = e.stageClearDelay ∧
    (emitBurstAux M rs center color speed i n e).combo = e.combo ∧
    (emitBurstAux M rs center color speed i n e).kills = e.kills ∧
    (emitBurstAux M rs center color speed i n e).pendingLevelUps = e.pendingLevelUps ∧
    (emitBurstAux M rs center color speed i n e).awaitingUpgrade = e.awaitingUpgrade ∧
    (emitBurstAux M rs center color speed i n e).upgradeChoices = e.upgradeChoices ∧
    (emitBurstAux M rs center color speed i n e).damageTexts = e.damageTexts ∧
    (emitBurstAux M rs center color speed i n e).paused = e.paused ∧
    (emitBurstAux M rs center color speed i n e).audioEvents = e.audioEvents
  | 0, i, e => by simp [emitBurstAux]
  | n + 1, i, e => by
    have ih := emitBurstAux_core M rs center color speed n (i + 1)
    simp only [emitBurstAux, Engine.nextId]
    simp [ih]

@[simp] theorem emitBurst_core (M : MathOracle) (rs : RS) (e : Engine) (center : Vec2)
    (count : ℕ) (color : String) (speed : ℚ) :
    (e.emitBurst M rs center count color speed).player = e.player ∧
    (e.emitBurst M rs center count color speed).gameOver = e.gameOver ∧
    (e.emitBurst M rs center count color speed).victory = e.victory ∧
    (e.emitBurst M rs center count color speed).monsters = e.monsters ∧
    (e.emitBurst M rs center count color speed).gems = e.gems ∧
    (e.emitBurst M rs center count color speed).projectiles = e.projectiles ∧
    (e.emitBurst M rs center count color speed).bossTelegraphs = e.bossTelegraphs ∧
    (e.emitBurst M rs center count color speed).stageIndex = e.stageIndex ∧
    (e.emitBurst M rs center count color speed).stageTimeLeft = e.stageTimeLeft ∧
    (e.emitBurst M rs center count color speed).bossSpawned = e.bossSpawned ∧
    (e.emitBurst M rs center count color speed).bossId = e.bossId ∧
    (e.emitBurst M rs center count color speed).stageClearReady = e.stageClearReady ∧
    (e.emitBurst M rs center count color speed).stageClearDelay = e.stageClearDelay ∧
    (e.emitBurst M rs center count color speed).combo = e.combo ∧
    (e.emitBurst M rs center count color speed).kills = e.kills ∧
    (e.emitBurst M rs center count color speed).pendingLevelUps = e.pendingLevelUps ∧
    (e.emitBurst M rs center count color speed).awaitingUpgrade = e.awaitingUpgrade ∧
    (e.emitBurst M rs center count color speed).upgradeChoices = e.upgradeChoices ∧
    (e.emitBurst M rs center count color speed).damageTexts = e.damageTexts ∧
    (e.emitBurst M rs center count color speed).paused = e.paused ∧
    (e.emitBurst M rs center count color speed).audioEvents = e.audioEvents := by
  unfold Engine.emitBurst
  by_cases h : MAX_PARTICLES ≤ e.particles.length
  · simp [h]
  · simp only [ge_iff_le, h, if_false]
    by_cases hz : Min.min count (MAX_PARTICLES - e.particles.length) = 0
    · simp [hz]
    · simp [hz, emitBurstAux_core]

@[simp] theorem hitMonster_fields (M : MathOracle) (p : Vec2) (m : Monster)
    (a : ℚ) (c : Bool) :
    (hitMonster M p m a c).id = m.id ∧
    (hitMonster M p m a c).damage = m.damage ∧
    (hitMonster M p m a c).isBoss = m.isBoss ∧
    (hitMonster M p m a c).expValue = m.expValue ∧
    (hitMonster M p m a c).radius = m.radius ∧
    (hitMonster M p m a c).speed = m.speed ∧
    (hitMonster M p m a c).kind = m.kind ∧
    (hitMonster M p m a c).maxHp = m.maxHp ∧
    (hitMonster M p m a c).hp = m.hp - a := by
  simp [hitMonster]

theorem checkPlayerDeath_eq (e : Engine) :
    e.checkPlayerDeath =
      if e.player.hp ≤ 0 then
        { e with player := { e.player with hp := 0 }, gameOver := true,
                 ids := e.ids + 1,
                 audioEvents := e.audioEvents ++
                   [{ id := e.ids + 1, type := .game_over, intensity := clampQ 1 0 1 }] }
      else e := by
  unfold Engine.checkPlayerDeath
  by_cases h : e.player.hp ≤ 0 <;> simp [h]

theorem damageMonster_core (M : MathOracle) (rs : RS) (e : Engine) (mid : ℕ)
    (amount : ℚ) (crit : Bool) :
    (e.damageMonster M rs mid amount crit).player = e.player ∧
    (e.damageMonster M rs mid amount crit).gameOver = e.gameOver ∧
    (e.damageMonster M rs mid amount crit).victory = e.victory ∧
    (e.damageMonster M rs mid amount crit).gems = e.gems ∧
    (e.damageMonster M rs mid amount crit).projectiles = e.projectiles ∧
    (e.damageMonster M rs mid amount crit).bossTelegraphs = e.bossTelegraphs ∧
    (e.damageMonster M rs mid amount crit).stageIndex = e.stageIndex ∧
    (e.damageMonster M rs mid amount crit).stageTimeLeft = e.stageTimeLeft ∧
    (e.damageMonster M rs mid amount crit).bossSpawned = e.bossSpawned ∧
    (e.damageMonster M rs mid amount crit).bossId = e.bossId ∧
    (e.damageMonster M rs mid amount crit).stageClearReady = e.stageClearReady ∧
    (e.damageMonster M rs mid amount crit).stageClearDelay = e.stageClearDelay ∧
    (e.damageMonster M rs mid amount crit).combo = e.combo ∧
    (e.damageMonster M rs mid amount crit).kills = e.kills ∧
    (e.damageMonster M rs mid amount crit).pendingLevelUps = e.pendingLevelUps ∧
    (e.damageMonster M rs mid amount crit).awaitingUpgrade = e.awaitingUpgrade ∧
    (e.damageMonster M rs mid amount crit).upgradeChoices = e.upgradeChoices ∧
    (e.damageMonster M rs mid amount crit).paused = e.paused ∧
    (e.damageMonster M rs mid amount crit).monsters.length = e.monsters.length ∧
    (e.damageMonster M rs mid amount crit).monsters.map Monster.damage =
      e.monsters.map Monster.damage ∧
    (e.damageMonster M rs mid amount crit).monsters.map Monster.id =
      e.monsters.map Monster.id := by
  unfold Engine.damageMonster
  cases hf : e.monsters.find? (fun m => m.id == mid) with
  | none => simp
  | some m =>
    have hpt : ∀ (p : Vec2) (a : Monster),
        ((if a.id = mid then hitMonster M p a amount crit else a).damage = a.damage ∧
         (if a.id = mid then hitMonster M p a amount crit else a).id = a.id) := by
      intro p a
      by_cases hc : a.id = mid <;> simp [hc]
    by_cases hb : m.isBoss = true <;>
      · simp [hb, emitBurst_core]
        exact ⟨fun a _ => (hpt e.player.pos a).1, fun a _ => (hpt e.player.pos a).2⟩

@[simp] theorem checkPlayerDeath_core (e : Engine) :
    (e.checkPlayerDeath).gems = e.gems ∧
    (e.checkPlayerDeath).projectiles = e.projectiles ∧
    (e.checkPlayerDeath).monsters = e.monsters ∧
    (e.checkPlayerDeath).bossTelegraphs = e.bossTelegraphs ∧
    (e.checkPlayerDeath).stageIndex = e.stageIndex ∧
    (e.checkPlayerDeath).stageTimeLeft = e.stageTimeLeft ∧
    (e.checkPlayerDeath).bossSpawned = e.bossSpawned ∧
    (e.checkPlayerDeath).bossId = e.bossId ∧
    (e.checkPlayerDeath).stageClearReady = e.stageClearReady ∧
    (e.checkPlayerDeath).stageClearDelay = e.stageClearDelay ∧
    (e.checkPlayerDeath).victory = e.victory ∧
    (e.checkPlayerDeath).kills = e.kills ∧
    (e.checkPlayerDeath).combo = e.combo ∧
    (e.checkPlayerDeath).pendingLevelUps = e.pendingLevelUps ∧
    (e.checkPlayerDeath).awaitingUpgrade = e.awaitingUpgrade ∧
    (e.checkPlayerDeath).upgradeChoices = e.upgradeChoices ∧
    (e.checkPlayerDeath).paused = e.paused ∧
    (e.checkPlayerDeath).player.maxHp = e.player.maxHp ∧
    (e.checkPlayerDeath).player.armor = e.player.armor ∧
    (e.checkPlayerDeath).player.exp = e.player.exp ∧
    (e.checkPlayerDeath).player.expToNext = e.player.expToNext ∧
    (e.checkPlayerDeath).player.level = e.player.level := by
  rw [checkPlayerDeath_eq]
  by_cases h : e.player.hp ≤ 0 <;> simp [h]

@[simp] theorem updateVisuals_core (e : Engine) (dt : ℚ) :
    (e.updateVisuals dt).player = e.player ∧
    (e.updateVisuals dt).gameOver = e.gameOver ∧
    (e.updateVisuals dt).victory = e.victory ∧
    (e.updateVisuals dt).monsters = e.monsters ∧
    (e.updateVisuals dt).gems = e.gems ∧
    (e.updateVisuals dt).projectiles = e.projectiles ∧
    (e.updateVisuals dt).bossTelegraphs = e.bossTelegraphs ∧
    (e.updateVisuals dt).stageIndex = e.stageIndex ∧
    (e.updateVisuals dt).stageTimeLeft = e.stageTimeLeft ∧
    (e.updateVisuals dt).bossSpawned = e.bossSpawned ∧
    (e.updateVisuals dt).bossId = e.bossId ∧
    (e.updateVisuals dt).stageClearReady = e.stageClearReady ∧
    (e.updateVisuals dt).stageClearDelay = e.stageClearDelay ∧
    (e.updateVisuals dt).combo = e.combo ∧
    (e.updateVisuals dt).kills = e.kills ∧
    (e.updateVisuals dt).pendingLevelUps = e.pendingLevelUps ∧
    (e.updateVisuals dt).awaitingUpgrade = e.awaitingUpgrade ∧
    (e.updateVisuals dt).upgradeChoices = e.upgradeChoices ∧
    (e.updateVisuals dt).paused = e.paused := by
  simp [Engine.updateVisuals]

@[simp] theorem updateCamera_core (M : MathOracle) (rs : RS) (e : Engine)
    (vw vh dt : ℚ) :
    (e.updateCamera M rs vw vh dt).player = e.player ∧
    (e.updateCamera M rs vw vh dt).gameOver = e.gameOver ∧
    (e.updateCamera M rs vw vh dt).victory = e.victory ∧
    (e.updateCamera M rs vw vh dt).monsters = e.monsters ∧
    (e.updateCamera M rs vw vh dt).gems = e.gems ∧
    (e.updateCamera M rs vw vh dt).projectiles = e.projectiles ∧
    (e.updateCamera M rs vw vh dt).bossTelegraphs = e.bossTelegraphs ∧
    (e.updateCamera M rs vw vh dt).stageIndex = e.stageIndex ∧
    (e.updateCamera M rs vw vh dt).stageTimeLeft = e.stageTimeLeft ∧
    (e.updateCamera M rs vw vh dt).bossSpawned = e.bossSpawned ∧
    (e.updateCamera M rs vw vh dt).bossId = e.bossId ∧
    (e.updateCamera M rs vw vh dt).stageClearReady = e.stageClearReady ∧
    (e.updateCamera M rs vw vh dt).stageClearDelay = e.stageClearDelay ∧
    (e.updateCamera M rs vw vh dt).combo = e.combo ∧
    (e.updateCamera M rs vw vh dt).kills = e.kills ∧
    (e.updateCamera M rs vw vh dt).pendingLevelUps = e.pendingLevelUps ∧
    (e.updateCamera M rs vw vh dt).awaitingUpgrade = e.awaitingUpgrade ∧
    (e.updateCamera M rs vw vh dt).upgradeChoices = e.upgradeChoices ∧
    (e.updateCamera M rs vw vh dt).paused = e.paused := by
  unfold Engine.updateCamera
  by_cases h : e.screenShake > 0.01 <;> simp [h]

theorem gainExp_core (rs : RS) (e : Engine) (amount : ℚ) :
    (Engine.gainExp rs e amount).player.hp = e.player.hp ∧
    (Engine.gainExp rs e amount).player.maxHp = e.player.maxHp ∧
    (Engine.gainExp rs e amount).player.armor = e.player.armor ∧
    (Engine.gainExp rs e amount).gameOver = e.gameOver ∧
    (Engine.gainExp rs e amount).victory = e.victory ∧
    (Engine.gainExp rs e amount).monsters = e.monsters ∧
    (Engine.gainExp rs e amount).gems = e.gems ∧
    (Engine.gainExp rs e amount).projectiles = e.projectiles ∧
    (Engine.gainExp rs e amount).bossTelegraphs = e.bossTelegraphs ∧
    (Engine.gainExp rs e amount).stageIndex = e.stageIndex ∧
    (Engine.gainExp rs e amount).stageTimeLeft = e.stageTimeLeft ∧
    (Engine.gainExp rs e amount).bossSpawned = e.bossSpawned ∧
    (Engine.gainExp rs e amount).bossId = e.bossId ∧
    (Engine.gainExp rs e amount).stageClearReady = e.stageClearReady ∧
    (Engine.gainExp rs e amount).stageClearDelay = e.stageClearDelay ∧
    (Engine.gainExp rs e amount).combo = e.combo ∧
    (Engine.gainExp rs e amount).kills = e.kills ∧
    (Engine.gainExp rs e amount).paused = e.paused := by
  unfold Engine.gainExp
  by_cases h : amount ≤ 0
  · simp [h]
  · simp only [h, if_false]
    by_cases hl : (levelLoop 24 (e.player.exp + amount) e.player.expToNext e.player.level).2.2.2 = 0
    · simp [hl]
    · by_cases hw : e.awaitingUpgrade <;> simp [hl, hw]

theorem monsterLoop_core (M : MathOracle) (rs : RS) (dt : ℚ) :
    ∀ (ms : List Monster) (i : ℕ) (e : Engine) (out : List Monster),
    (monsterLoop M rs dt ms i e out).1.gems = e.gems ∧
    (monsterLoop M rs dt ms i e out).1.projectiles = e.projectiles ∧
    (monsterLoop M rs dt ms i e out).1.bossTelegraphs = e.bossTelegraphs ∧
    (monsterLoop M rs dt ms i e out).1.stageIndex = e.stageIndex ∧
    (monsterLoop M rs dt ms i e out).1.stageTimeLeft = e.stageTimeLeft ∧
    (monsterLoop M rs dt ms i e out).1.bossSpawned = e.bossSpawned ∧
    (monsterLoop M rs dt ms i e out).1.bossId = e.bossId ∧
    (monsterLoop M rs dt ms i e out).1.stageClearReady = e.stageClearReady ∧
    (monsterLoop M rs dt ms i e out).1.stageClearDelay = e.stageClearDelay ∧
    (monsterLoop M rs dt ms i e out).1.victory = e.victory ∧
    (monsterLoop M rs dt ms i e out).1.kills = e.kills ∧
    (monsterLoop M rs dt ms i e out).1.pendingLevelUps = e.pendingLevelUps ∧
    (monsterLoop M rs dt ms i e out).1.awaitingUpgrade = e.awaitingUpgrade ∧
    (monsterLoop M rs dt ms i e out).1.upgradeChoices = e.upgradeChoices ∧
    (monsterLoop M rs dt ms i e out).1.paused = e.paused ∧
    (monsterLoop M rs dt ms i e out).1.monsters = e.monsters ∧
    (monsterLoop M rs dt ms i e out).1.player.maxHp = e.player.maxHp ∧
    (monsterLoop M rs dt ms i e out).1.player.armor = e.player.armor ∧
    (monsterLoop M rs dt ms i e out).2.length = out.length + ms.length ∧
    (monsterLoop M rs dt ms i e out).2.map Monster.damage =
      out.map Monster.damage ++ ms.map Monster.damage
  | [], i, e, out => by simp [monsterLoop]
  | monster :: rest, i, e, out => by
    have ih := monsterLoop_core M rs dt rest (i + 1)
    simp only [monsterLoop]
    split
    · simp [ih, Nat.add_comm, Nat.add_assoc, Nat.add_left_comm]
    · split
      · simp [ih, Nat.add_comm, Nat.add_assoc, Nat.add_left_comm]
      · split
        · simp [ih, Nat.add_comm, Nat.add_assoc, Nat.add_left_comm]
        · simp [ih, Nat.add_comm, Nat.add_assoc, Nat.add_left_comm]

theorem gemLoop_core (M : MathOracle) (rs : RS) (dt : ℚ) :
    ∀ (gs : List Gem) (i : ℕ) (e : Engine) (kept : List Gem),
    (gemLoop M rs dt gs i e kept).1.player.hp = e.player.hp ∧
    (gemLoop M rs dt gs i e kept).1.player.maxHp = e.player.maxHp ∧
    (gemLoop M rs dt gs i e kept).1.player.armor = e.player.armor ∧
    (gemLoop M rs dt gs i e kept).1.gameOver = e.gameOver ∧
    (gemLoop M rs dt gs i e kept).1.victory = e.victory ∧
    (gemLoop M rs dt gs i e kept).1.monsters = e.monsters ∧
    (gemLoop M rs dt gs i e kept).1.projectiles = e.projectiles ∧
    (gemLoop M rs dt gs i e kept).1.bossTelegraphs = e.bossTelegraphs ∧
    (gemLoop M rs dt gs i e kept).1.stageIndex = e.stageIndex ∧
    (gemLoop M rs dt gs i e kept).1.stageTimeLeft = e.stageTimeLeft ∧
    (gemLoop M rs dt gs i e kept).1.bossSpawned = e.bossSpawned ∧
    (gemLoop M rs dt gs i e kept).1.bossId = e.bossId ∧
    (gemLoop M rs dt gs i e kept).1.stageClearReady = e.stageClearReady ∧
    (gemLoop M rs dt gs i e kept).1.stageClearDelay = e.stageClearDelay ∧
    (gemLoop M rs dt gs i e kept).1.combo = e.combo ∧
    (gemLoop M rs dt gs i e kept).1.kills = e.kills ∧
    (gemLoop M rs dt gs i e kept).1.paused = e.paused ∧
    (gemLoop M rs dt gs i e kept).1.gems = e.gems
  | [], i, e, kept => by simp [gemLoop]
  | gem :: rest, i, e, kept => by
    have ih := gemLoop_core M rs dt rest (i + 1)
    simp only [gemLoop]
    split
    · split
      · simp [ih, gainExp_core]
      · simp [ih, gainExp_core]
    · split
      · simp [ih, gainExp_core]
      · simp [ih, gainExp_core]

theorem gemLoop_len (M : MathOracle) (rs : RS) (dt : ℚ) :
    ∀ (gs : List Gem) (i : ℕ) (e : Engine) (kept : List Gem),
    (gemLoop M rs dt gs i e kept).2.length ≤ kept.length + gs.length
  | [], i, e, kept => by simp [gemLoop]
  | gem :: rest, i, e, kept => by
    have ih := gemLoop_len M rs dt rest (i + 1)
    simp only [gemLoop]
    split
    · split
      · exact le_trans (ih _ kept) (by simp only [List.length_cons]; omega)
      · exact le_trans (ih _ _)
          (by simp only [List.length_append, List.length_cons, List.length_nil]
              omega)
    · split
      · exact le_trans (ih _ kept) (by simp only [List.length_cons]; omega)
      · exact le_trans (ih _ _)
          (by simp only [List.length_append, List.length_cons, List.length_nil]
              omega)

theorem deathLoop_core (M : MathOracle) (rs : RS) :
    ∀ (ms : List Monster) (i : ℕ) (e : Engine) (surv : List Monster) (bd : Bool) (rk : ℕ),
    (deathLoop M rs ms i e surv bd rk).1.player = e.player ∧
    (deathLoop M rs ms i e surv bd rk).1.gameOver = e.gameOver ∧
    (deathLoop M rs ms i e surv bd rk).1.victory = e.victory ∧
    (deathLoop M rs ms i e surv bd rk).1.projectiles = e.projectiles ∧
    (deathLoop M rs ms i e surv bd rk).1.stageIndex = e.stageIndex ∧
    (deathLoop M rs ms i e surv bd rk).1.stageTimeLeft = e.stageTimeLeft ∧
    (deathLoop M rs ms i e surv bd rk).1.bossSpawned = e.bossSpawned ∧
    (deathLoop M rs ms i e surv bd rk).1.paused = e.paused ∧
    (deathLoop M rs ms i e surv bd rk).1.awaitingUpgrade = e.awaitingUpgrade ∧
    (deathLoop M rs ms i e surv bd rk).1.pendingLevelUps = e.pendingLevelUps ∧
    (deathLoop M rs ms i e surv bd rk).1.upgradeChoices = e.upgradeChoices ∧
    (deathLoop M rs ms i e surv bd rk).1.stageClearReady = e.stageClearReady ∧
    (deathLoop M rs ms i e surv bd rk).1.stageClearDelay = e.stageClearDelay ∧
    (deathLoop M rs ms i e surv bd rk).1.monsters = e.monsters ∧
    (deathLoop M rs ms i e surv bd rk).2.1 = surv ++ ms.filter (fun m => decide (m.hp > 0))
  | [], i, e, surv, bd, rk => by simp [deathLoop]
  | monster :: rest, i, e, surv, bd, rk => by
    have ih := deathLoop_core M rs rest (i + 1)
    simp only [deathLoop]
    split
    · rename_i halive
      simp [ih, List.filter_cons, halive]
    · rename_i hdead
      split
      · rename_i hboss
        simp [ih, List.filter_cons, hdead]
      · rename_i hnotboss
        split
        · split
          · simp [ih, List.filter_cons, hdead, Engine.nextId]
          · simp [ih, List.filter_cons, hdead, Engine.nextId]
        · simp [ih, List.filter_cons, hdead, Engine.nextId]

theorem aoeLoop_core (M : MathOracle) (rs : RS) (proj : Projectile) (hitId : ℕ) :
    ∀ (l : List ℕ) (k : ℕ) (e : Engine),
    (aoeLoop M rs proj hitId l k e).player = e.player ∧
    (aoeLoop M rs proj hitId l k e).gameOver = e.gameOver ∧
    (aoeLoop M rs proj hitId l k e).victory = e.victory ∧
    (aoeLoop M rs proj hitId l k e).gems = e.gems ∧
    (aoeLoop M rs proj hitId l k e).projectiles = e.projectiles ∧
    (aoeLoop M rs proj hitId l k e).bossTelegraphs = e.bossTelegraphs ∧
    (aoeLoop M rs proj hitId l k e).stageIndex = e.stageIndex ∧
    (aoeLoop M rs proj hitId l k e).stageTimeLeft = e.stageTimeLeft ∧
    (aoeLoop M rs proj hitId l k e).bossSpawned = e.bossSpawned ∧
    (aoeLoop M rs proj hitId l k e).bossId = e.bossId ∧
    (aoeLoop M rs proj hitId l k e).stageClearReady = e.stageClearReady ∧
    (aoeLoop M rs proj hitId l k e).stageClearDelay = e.stageClearDelay ∧
    (aoeLoop M rs proj hitId l k e).combo = e.combo ∧
    (aoeLoop M rs proj hitId l k e).kills = e.kills ∧
    (aoeLoop M rs proj hitId l k e).pendingLevelUps = e.pendingLevelUps ∧
    (aoeLoop M rs proj hitId l k e).awaitingUpgrade = e.awaitingUpgrade ∧
    (aoeLoop M rs proj hitId l k e).upgradeChoices = e.upgradeChoices ∧
    (aoeLoop M rs proj hitId l k e).paused = e.paused ∧
    (aoeLoop M rs proj hitId l k e).monsters.length = e.monsters.length ∧
    (aoeLoop M rs proj hitId l k e).monsters.map Monster.damage =
      e.monsters.map Monster.damage ∧
    (aoeLoop M rs proj hitId l k e).monsters.map Monster.id = e.monsters.map Monster.id
  | [], k, e => by simp [aoeLoop]
  | mid :: rest, k, e => by
    have ih := aoeLoop_core M rs proj hitId rest (k + 1)
    simp only [aoeLoop]
    split
    · simp [ih]
    · split
      · simp [ih]
      · split
        · simp [ih, damageMonster_core]
        · simp [ih]

theorem projHitLoop_core (M : MathOracle) (rs : RS) (livingIds : List ℕ) :
    ∀ (l : List ℕ) (i : ℕ) (e : Engine) (proj : Projectile),
    (projHitLoop M rs livingIds l i e proj).1.player = e.player ∧
    (projHitLoop M rs livingIds l i e proj).1.gameOver = e.gameOver ∧
    (projHitLoop M rs livingIds l i e proj).1.victory = e.victory ∧
    (projHitLoop M rs livingIds l i e proj).1.gems = e.gems ∧
    (projHitLoop M rs livingIds l i e proj).1.projectiles = e.projectiles ∧
    (projHitLoop M rs livingIds l i e proj).1.bossTelegraphs = e.bossTelegraphs ∧
    (projHitLoop M rs livingIds l i e proj).1.stageIndex = e.stageIndex ∧
    (projHitLoop M rs livingIds l i e proj).1.stageTimeLeft = e.stageTimeLeft ∧
    (projHitLoop M rs livingIds l i e proj).1.bossSpawned = e.bossSpawned ∧
    (projHitLoop M rs livingIds l i e proj).1.bossId = e.bossId ∧
    (projHitLoop M rs livingIds l i e proj).1.stageClearReady = e.stageClearReady ∧
    (projHitLoop M rs livingIds l i e proj).1.stageClearDelay = e.stageClearDelay ∧
    (projHitLoop M rs livingIds l i e proj).1.combo = e.combo ∧
    (projHitLoop M rs livingIds l i e proj).1.kills = e.kills ∧
    (projHitLoop M rs livingIds l i e proj).1.pendingLevelUps = e.pendingLevelUps ∧
    (projHitLoop M rs livingIds l i e proj).1.awaitingUpgrade = e.awaitingUpgrade ∧
    (projHitLoop M rs livingIds l i e proj).1.upgradeChoices = e.upgradeChoices ∧
    (projHitLoop M rs livingIds l i e proj).1.paused = e.paused ∧
    (projHitLoop M rs livingIds l i e proj).1.monsters.length = e.monsters.length ∧
    (projHitLoop M rs livingIds l i e proj).1.monsters.map Monster.damage =
      e.monsters.map Monster.damage ∧
    (projHitLoop M rs livingIds l i e proj).1.monsters.map Monster.id =
      e.monsters.map Monster.id ∧
    (projHitLoop M rs livingIds l i e proj).2.1.life = proj.life
  | [], i, e, proj => by simp [projHitLoop]
  | mid :: rest, i, e, proj => by
    have ih := projHitLoop_core M rs livingIds rest (i + 1)
    simp only [projHitLoop]
    split
    · simp [ih]
    · split
      · simp [ih]
      · split <;> split <;>
          simp [ih, damageMonster_core, aoeLoop_core, Engine.nextId, emitBurst_core]

theorem projLoop_core (M : MathOracle) (rs : RS) (dt : ℚ) (livingIds : List ℕ) :
    ∀ (ps : List Projectile) (i : ℕ) (e : Engine) (rem : List Projectile),
    (projLoop M rs dt livingIds ps i e rem).1.player = e.player ∧
    (projLoop M rs dt livingIds ps i e rem).1.gameOver = e.gameOver ∧
    (projLoop M rs dt livingIds ps i e rem).1.victory = e.victory ∧
    (projLoop M rs dt livingIds ps i e rem).1.gems = e.gems ∧
    (projLoop M rs dt livingIds ps i e rem).1.bossTelegraphs = e.bossTelegraphs ∧
    (projLoop M rs dt livingIds ps i e rem).1.stageIndex = e.stageIndex ∧
    (projLoop M rs dt livingIds ps i e rem).1.stageTimeLeft = e.stageTimeLeft ∧
    (projLoop M rs dt livingIds ps i e rem).1.bossSpawned = e.bossSpawned ∧
    (projLoop M rs dt livingIds ps i e rem).1.bossId = e.bossId ∧
    (projLoop M rs dt livingIds ps i e rem).1.stageClearReady = e.stageClearReady ∧
    (projLoop M rs dt livingIds ps i e rem).1.stageClearDelay = e.stageClearDelay ∧
    (projLoop M rs dt livingIds ps i e rem).1.combo = e.combo ∧
    (projLoop M rs dt livingIds ps i e rem).1.kills = e.kills ∧
    (projLoop M rs dt livingIds ps i e rem).1.pendingLevelUps = e.pendingLevelUps ∧
    (projLoop M rs dt livingIds ps i e rem).1.awaitingUpgrade = e.awaitingUpgrade ∧
    (projLoop M rs dt livingIds ps i e rem).1.upgradeChoices = e.upgradeChoices ∧
    (projLoop M rs dt livingIds ps i e rem).1.paused = e.paused ∧
    (projLoop M rs dt livingIds ps i e rem).1.monsters.length = e.monsters.length ∧
    (projLoop M rs dt livingIds ps i e rem).1.monsters.map Monster.damage =
      e.monsters.map Monster.damage ∧
    (projLoop M rs dt livingIds ps i e rem).1.monsters.map Monster.id =
      e.monsters.map Monster.id
  | [], i, e, rem => by simp [projLoop]
  | proj :: rest, i, e, rem => by
    have ih := projLoop_core M rs dt livingIds rest (i + 1)
    simp only [projLoop]
    split
    · simp [ih]
    · split
      · simp [ih, projHitLoop_core]
      · simp [ih, projHitLoop_core]

theorem projLoop_life (M : MathOracle) (rs : RS) (dt : ℚ) (livingIds : List ℕ) :
    ∀ (ps : List Projectile) (i : ℕ) (e : Engine) (rem : List Projectile),
    (∀ q ∈ rem, 0 < q.life) →
    ∀ q ∈ (projLoop M rs dt livingIds ps i e rem).2, 0 < q.life
  | [], i, e, rem => by
    intro h
    simpa [projLoop] using h
  | proj :: rest, i, e, rem => by
    intro hrem
    have ih := projLoop_life M rs dt livingIds rest (i + 1)
    simp only [projLoop]
    split
    · exact ih _ _ hrem
    · rename_i hkeep
      split
      · exact ih _ _ hrem
      · refine ih _ _ ?_
        intro q hq
        rcases List.mem_append.mp hq with hq | hq
        · exact hrem q hq
        · have hq' := List.mem_singleton.mp hq
          subst hq'
          have hlife := (projHitLoop_core M (rsub rs i) livingIds livingIds 0 e
            { proj with pos := ⟨proj.pos.x + proj.vel.x * dt, proj.pos.y + proj.vel.y * dt⟩,
                        life := proj.life - dt }).2.right.2.right.2.right.2.right.2.right.2.right.2.right.2.right.2.right.2.right.2
          rw [hlife]
          simp only [not_or, not_lt, not_le] at hkeep
          simpa using hkeep.1

theorem updateProjectiles_core (M : MathOracle) (rs : RS) (e : Engine) (dt : ℚ) :
    (e.updateProjectiles M rs dt).player = e.player ∧
    (e.updateProjectiles M rs dt).gameOver = e.gameOver ∧
    (e.updateProjectiles M rs dt).victory = e.victory ∧
    (e.updateProjectiles M rs dt).gems = e.gems ∧
    (e.updateProjectiles M rs dt).bossTelegraphs = e.bossTelegraphs ∧
    (e.updateProjectiles M rs dt).stageIndex = e.stageIndex ∧
    (e.updateProjectiles M rs dt).stageTimeLeft = e.stageTimeLeft ∧
    (e.updateProjectiles M rs dt).bossSpawned = e.bossSpawned ∧
    (e.updateProjectiles M rs dt).bossId = e.bossId ∧
    (e.updateProjectiles M rs dt).stageClearReady = e.stageClearReady ∧
    (e.updateProjectiles M rs dt).stageClearDelay = e.stageClearDelay ∧
    (e.updateProjectiles M rs dt).combo = e.combo ∧
    (e.updateProjectiles M rs dt).kills = e.kills ∧
    (e.updateProjectiles M rs dt).pendingLevelUps = e.pendingLevelUps ∧
    (e.updateProjectiles M rs dt).awaitingUpgrade = e.awaitingUpgrade ∧
    (e.updateProjectiles M rs dt).upgradeChoices = e.upgradeChoices ∧
    (e.updateProjectiles M rs dt).paused = e.paused ∧
    (e.updateProjectiles M rs dt).monsters.length = e.monsters.length ∧
    (e.updateProjectiles M rs dt).monsters.map Monster.damage =
      e.monsters.map Monster.damage ∧
    (e.updateProjectiles M rs dt).monsters.map Monster.id = e.monsters.map Monster.id ∧
    (∀ q ∈ (e.updateProjectiles M rs dt).projectiles, 0 < q.life) := by
  unfold Engine.updateProjectiles
  have hlife := projLoop_life M rs dt
    ((e.monsters.filter (fun m => decide (m.hp > 0))).map Monster.id)
    e.projectiles 0 e [] (by simp)
  simp [projLoop_core]
  intro q hq
  exact hlife q hq

theorem collectAllStageGems_core (M : MathOracle) (rs : RS) (e : Engine) :
    (e.collectAllStageGems M rs).player.hp = e.player.hp ∧
    (e.collectAllStageGems M rs).player.maxHp = e.player.maxHp ∧
    (e.collectAllStageGems M rs).player.armor = e.player.armor ∧
    (e.collectAllStageGems M rs).gameOver = e.gameOver ∧
    (e.collectAllStageGems M rs).victory = e.victory ∧
    (e.collectAllStageGems M rs).monsters = e.monsters ∧
    (e.collectAllStageGems M rs).projectiles = e.projectiles ∧
    (e.collectAllStageGems M rs).bossTelegraphs = e.bossTelegraphs ∧
    (e.collectAllStageGems M rs).stageIndex = e.stageIndex ∧
    (e.collectAllStageGems M rs).stageTimeLeft = e.stageTimeLeft ∧
    (e.collectAllStageGems M rs).bossSpawned = e.bossSpawned ∧
    (e.collectAllStageGems M rs).bossId = e.bossId ∧
    (e.collectAllStageGems M rs).stageClearReady = e.stageClearReady ∧
    (e.collectAllStageGems M rs).stageClearDelay = e.stageClearDelay ∧
    (e.collectAllStageGems M rs).combo = e.combo ∧
    (e.collectAllStageGems M rs).kills = e.kills ∧
    (e.collectAllStageGems M rs).paused = e.paused ∧
    (e.collectAllStageGems M rs).gems = [] := by
  unfold Engine.collectAllStageGems
  by_cases h : e.gems.length ≤ 0
  · have : e.gems = [] := List.length_eq_zero.mp (Nat.le_zero.mp h)
    simp [h, this]
  · simp [h, gainExp_core, emitBurst_core]

theorem processDeaths_core (M : MathOracle) (rs : RS) (e : Engine) :
    (e.processDeathsAndProgression M rs).player.hp = e.player.hp ∧
    (e.processDeathsAndProgression M rs).player.maxHp = e.player.maxHp ∧
    (e.processDeathsAndProgression M rs).player.armor = e.player.armor ∧
    (e.processDeathsAndProgression M rs).gameOver = e.gameOver ∧
    (e.processDeathsAndProgression M rs).stageIndex = e.stageIndex ∧
    (e.processDeathsAndProgression M rs).stageTimeLeft = e.stageTimeLeft ∧
    (e.processDeathsAndProgression M rs).paused = e.paused ∧
    (∀ q ∈ (e.processDeathsAndProgression M rs).projectiles, q ∈ e.projectiles) := by
  simp only [Engine.processDeathsAndProgression]
  have hdl := deathLoop_core M (rsub rs 0) e.monsters 0 e [] false 0
  split <;> split <;> (try split) <;>
    simp_all [collectAllStageGems_core, gainExp_core]

theorem updateMonsters_core (M : MathOracle) (rs : RS) (e : Engine) (dt : ℚ) :
    (e.updateMonsters M rs dt).gems = e.gems ∧
    (e.updateMonsters M rs dt).projectiles = e.projectiles ∧
    (e.updateMonsters M rs dt).bossTelegraphs = e.bossTelegraphs ∧
    (e.updateMonsters M rs dt).stageIndex = e.stageIndex ∧
    (e.updateMonsters M rs dt).stageTimeLeft = e.stageTimeLeft ∧
    (e.updateMonsters M rs dt).bossSpawned = e.bossSpawned ∧
    (e.updateMonsters M rs dt).bossId = e.bossId ∧
    (e.updateMonsters M rs dt).stageClearReady = e.stageClearReady ∧
    (e.updateMonsters M rs dt).stageClearDelay = e.stageClearDelay ∧
    (e.updateMonsters M rs dt).victory = e.victory ∧
    (e.updateMonsters M rs dt).kills = e.kills ∧
    (e.updateMonsters M rs dt).pendingLevelUps = e.pendingLevelUps ∧
    (e.updateMonsters M rs dt).awaitingUpgrade = e.awaitingUpgrade ∧
    (e.updateMonsters M rs dt).upgradeChoices = e.upgradeChoices ∧
    (e.updateMonsters M rs dt).paused = e.paused ∧
    (e.updateMonsters M rs dt).player.maxHp = e.player.maxHp ∧
    (e.updateMonsters M rs dt).player.armor = e.player.armor ∧
    (e.updateMonsters M rs dt).monsters.length = e.monsters.length ∧
    (e.updateMonsters M rs dt).monsters.map Monster.damage =
      e.monsters.map Monster.damage := by
  unfold Engine.updateMonsters
  simp [monsterLoop_core]

theorem updateGems_core (M : MathOracle) (rs : RS) (e : Engine) (dt : ℚ) :
    (e.updateGems M rs dt).player.hp = e.player.hp ∧
    (e.updateGems M rs dt).player.maxHp = e.player.maxHp ∧
    (e.updateGems M rs dt).player.armor = e.player.armor ∧
    (e.updateGems M rs dt).gameOver = e.gameOver ∧
    (e.updateGems M rs dt).victory = e.victory ∧
    (e.updateGems M rs dt).monsters = e.monsters ∧
    (e.updateGems M rs dt).projectiles = e.projectiles ∧
    (e.updateGems M rs dt).bossTelegraphs = e.bossTelegraphs ∧
    (e.updateGems M rs dt).stageIndex = e.stageIndex ∧
    (e.updateGems M rs dt).stageTimeLeft = e.stageTimeLeft ∧
    (e.updateGems M rs dt).bossSpawned = e.bossSpawned ∧
    (e.updateGems M rs dt).bossId = e.bossId ∧
    (e.updateGems M rs dt).stageClearReady = e.stageClearReady ∧
    (e.updateGems M rs dt).stageClearDelay = e.stageClearDelay ∧
    (e.updateGems M rs dt).combo = e.combo ∧
    (e.updateGems M rs dt).kills = e.kills ∧
    (e.updateGems M rs dt).paused = e.paused ∧
    (e.updateGems M rs dt).gems.length ≤ e.gems.length := by
  unfold Engine.updateGems
  have hlen := gemLoop_len M rs dt e.gems 0 e []
  simp [gemLoop_core]
  simpa using hlen

/-- C9: projectiles are culled inside the tick: immediately after
`updateProjectiles` every remaining projectile has positive life (a
projectile whose decremented life reached 0 or below was removed, not
kept), and the same holds at the end of a full gameplay tick, i.e. the
post-tick state never contains a projectile with life ≤ 0. -/
theorem C9_no_projectile_survives_at_zero_life (M : MathOracle) (rs : RS) (e : Engine)
    (delta viewportWidth viewportHeight dt : ℚ)
    (hdt : ¬(clampQ delta 0 0.05 ≤ 0)) (hpa : e.paused = false)
    (hhs : ¬(e.hitStopTimer > 0)) (hgo : e.gameOver = false) (hv : e.victory = false)
    (hau : e.awaitingUpgrade = false) (hscr : e.stageClearReady = false) :
    (∀ q ∈ (e.updateProjectiles M rs dt).projectiles, 0 < q.life) ∧
    (∀ q ∈ (e.update M rs delta viewportWidth viewportHeight).projectiles, 0 < q.life) := by
  constructor
  · exact (updateProjectiles_core M rs e dt).2.right.2.right.2.right.2.right.2.right.2.right.2.right.2.right.2.right.2.right
  · intro q hq
    simp only [Engine.update, hdt, if_false, hpa, Bool.false_eq_true, hhs, hgo, hv,
      or_self, hau, hscr] at hq
    simp only [updateCamera_core, updateVisuals_core] at hq
    have hq2 := (processDeaths_core M (rsub rs 7) _).2.right.2.right.2.right.2 q hq
    simp only [updateGems_core, updateMonsters_core] at hq2
    exact (updateProjectiles_core M (rsub rs 4) _ _).2.right.2.right.2.right.2.right.2.right.2.right.2.right.2.right.2.right.2.right
      q hq2

/-- Witness for C9 on the fresh warrior session with a full-length frame. -/
theorem C9_witness :
    (¬(clampQ 0.05 0 0.05 ≤ 0)) ∧
    ((initEngine .warrior).paused = false) ∧
    (∀ q ∈ ((initEngine .warrior).update zeroOracle rs0 0.05 800 600).projectiles,
      0 < q.life) := by
  refine ⟨by norm_num [clampQ], rfl, ?_⟩
  exact (C9_no_projectile_survives_at_zero_life zeroOracle rs0 (initEngine .warrior)
    0.05 800 600 0.05 (by norm_num [clampQ]) rfl (by norm_num [initEngine]) rfl rfl
    rfl rfl).2

theorem updatePlayer_core (M : MathOracle) (e : Engine) (dt : ℚ) :
    (e.updatePlayer M dt).player.hp = e.player.hp ∧
    (e.updatePlayer M dt).player.maxHp = e.player.maxHp ∧
    (e.updatePlayer M dt).player.armor = e.player.armor ∧
    (e.updatePlayer M dt).gameOver = e.gameOver ∧
    (e.updatePlayer M dt).victory = e.victory ∧
    (e.updatePlayer M dt).monsters = e.monsters ∧
    (e.updatePlayer M dt).gems = e.gems ∧
    (e.updatePlayer M dt).projectiles = e.projectiles ∧
    (e.updatePlayer M dt).bossTelegraphs = e.bossTelegraphs ∧
    (e.updatePlayer M dt).stageIndex = e.stageIndex ∧
    (e.updatePlayer M dt).stageTimeLeft = e.stageTimeLeft ∧
    (e.updatePlayer M dt).bossSpawned = e.bossSpawned ∧
    (e.updatePlayer M dt).bossId = e.bossId ∧
    (e.updatePlayer M dt).stageClearReady = e.stageClearReady ∧
    (e.updatePlayer M dt).stageClearDelay = e.stageClearDelay ∧
    (e.updatePlayer M dt).combo = e.combo ∧
    (e.updatePlayer M dt).kills = e.kills ∧
    (e.updatePlayer M dt).pendingLevelUps = e.pendingLevelUps ∧
    (e.updatePlayer M dt).awaitingUpgrade = e.awaitingUpgrade ∧
    (e.updatePlayer M dt).upgradeChoices = e.upgradeChoices ∧
    (e.updatePlayer M dt).paused = e.paused := by
  unfold Engine.updatePlayer
  simp

theorem spawnMonster_core (M : MathOracle) (rs : RS) (e : Engine) (stage : StageConfig) :
    (e.spawnMonster M rs stage).player = e.player ∧
    (e.spawnMonster M rs stage).gameOver = e.gameOver ∧
    (e.spawnMonster M rs stage).victory = e.victory ∧
    (e.spawnMonster M rs stage).gems = e.gems ∧
    (e.spawnMonster M rs stage).projectiles = e.projectiles ∧
    (e.spawnMonster M rs stage).bossTelegraphs = e.bossTelegraphs ∧
    (e.spawnMonster M rs stage).stageIndex = e.stageIndex ∧
    (e.spawnMonster M rs stage).bossSpawned = e.bossSpawned ∧
    (e.spawnMonster M rs stage).bossId = e.bossId ∧
    (e.spawnMonster M rs stage).stageClearReady = e.stageClearReady ∧
    (e.spawnMonster M rs stage).stageClearDelay = e.stageClearDelay ∧
    (e.spawnMonster M rs stage).combo = e.combo ∧
    (e.spawnMonster M rs stage).kills = e.kills ∧
    (e.spawnMonster M rs stage).pendingLevelUps = e.pendingLevelUps ∧
    (e.spawnMonster M rs stage).awaitingUpgrade = e.awaitingUpgrade ∧
    (e.spawnMonster M rs stage).upgradeChoices = e.upgradeChoices ∧
    (e.spawnMonster M rs stage).paused = e.paused ∧
    (e.spawnMonster M rs stage).monsters.length = e.monsters.length + 1 ∧
    (monstersDmgOk e → monstersDmgOk (e.spawnMonster M rs stage)) := by
  have hcfg : ∀ k : MonsterKind, 0 ≤ (MONSTER_CONFIGS k).damage := by
    intro k
    cases k <;> norm_num [MONSTER_CONFIGS]
  unfold Engine.spawnMonster
  simp only [Engine.nextId]
  repeat' apply And.intro
  any_goals (simp; done)
  intro h
  intro m hm
  simp only [monstersDmgOk] at h
  simp at hm
  rcases hm with hm | hm
  · exact h m hm
  · subst hm
    simp only []
    have : (0 : ℚ) ≤ 1 + (e.stageIndex : ℚ) * 0.23 := by positivity
    exact mul_nonneg (hcfg _) this

theorem currentStage_mem (e : Engine) : e.currentStage ∈ STAGES := by
  unfold Engine.currentStage
  by_cases h : e.stageIndex < STAGES.length
  · rw [List.getD_eq_getElem _ _ h]
    exact List.getElem_mem h
  · rw [List.getD_eq_default _ _ (le_of_not_lt h)]
    simp [STAGES]

theorem stages_boss_damage_nonneg : ∀ s ∈ STAGES, (0 : ℚ) ≤ s.boss.damage := by
  intro s hs
  simp only [STAGES, List.mem_cons, List.not_mem_nil, or_false] at hs
  rcases hs with h | h | h | h | h <;>
    (subst h; norm_num [stage1, stage2, stage3, stage4, stage5])

theorem spawnBoss_core (M : MathOracle) (rs : RS) (e : Engine) :
    (e.spawnBoss M rs).player = e.player ∧
    (e.spawnBoss M rs).gameOver = e.gameOver ∧
    (e.spawnBoss M rs).victory = e.victory ∧
    (e.spawnBoss M rs).gems = e.gems ∧
    (e.spawnBoss M rs).projectiles = e.projectiles ∧
    (e.spawnBoss M rs).bossTelegraphs = e.bossTelegraphs ∧
    (e.spawnBoss M rs).stageIndex = e.stageIndex ∧
    (e.spawnBoss M rs).bossSpawned = true ∧
    (e.spawnBoss M rs).stageClearReady = e.stageClearReady ∧
    (e.spawnBoss M rs).stageClearDelay = e.stageClearDelay ∧
    (e.spawnBoss M rs).combo = e.combo ∧
    (e.spawnBoss M rs).kills = e.kills ∧
    (e.spawnBoss M rs).pendingLevelUps = e.pendingLevelUps ∧
    (e.spawnBoss M rs).awaitingUpgrade = e.awaitingUpgrade ∧
    (e.spawnBoss M rs).upgradeChoices = e.upgradeChoices ∧
    (e.spawnBoss M rs).paused = e.paused ∧
    (e.spawnBoss M rs).monsters.length = e.monsters.length + 1 ∧
    (monstersDmgOk e → monstersDmgOk (e.spawnBoss M rs)) := by
  have hcur : (0 : ℚ) ≤ e.currentStage.boss.damage :=
    stages_boss_damage_nonneg _ (currentStage_mem e)
  unfold Engine.spawnBoss
  simp only [Engine.nextId, emitBurst_core, emitAudio_eq]
  refine ⟨by simp [emitBurst_core], by simp [emitBurst_core], by simp [emitBurst_core],
    by simp [emitBurst_core], by simp [emitBurst_core], by simp [emitBurst_core],
    by simp [emitBurst_core], by simp [emitBurst_core], by simp [emitBurst_core],
    by simp [emitBurst_core], by simp [emitBurst_core], by simp [emitBurst_core],
    by simp [emitBurst_core], by simp [emitBurst_core], by simp [emitBurst_core],
    by simp [emitBurst_core], by simp [emitBurst_core], ?_⟩
  intro h
  intro m hm
  simp only [monstersDmgOk] at h
  simp [emitBurst_core] at hm
  rcases hm with hm | hm
  · exact h m hm
  · subst hm
    exact hcur

theorem spawnMonster_mem (M : MathOracle) (rs : RS) (e : Engine) (stage : StageConfig) :
    ∀ m ∈ (e.spawnMonster M rs stage).monsters, m ∈ e.monsters ∨ 0 ≤ m.damage := by
  have hcfg : ∀ k : MonsterKind, 0 ≤ (MONSTER_CONFIGS k).damage := by
    intro k
    cases k <;> norm_num [MONSTER_CONFIGS]
  intro m hm
  unfold Engine.spawnMonster at hm
  simp only [Engine.nextId] at hm
  simp at hm
  rcases hm with hm | hm
  · exact Or.inl hm
  · right
    subst hm
    have hsf : (0 : ℚ) ≤ 1 + (e.stageIndex : ℚ) * 0.23 := by positivity
    exact mul_nonneg (hcfg _) hsf

theorem spawnBoss_mem (M : MathOracle) (rs : RS) (e : Engine) :
    ∀ m ∈ (e.spawnBoss M rs).monsters, m ∈ e.monsters ∨ 0 ≤ m.damage := by
  have hcur : (0 : ℚ) ≤ e.currentStage.boss.damage :=
    stages_boss_damage_nonneg _ (currentStage_mem e)
  intro m hm
  unfold Engine.spawnBoss at hm
  simp only [Engine.nextId] at hm
  simp [emitBurst_core] at hm
  rcases hm with hm | hm
  · exact Or.inl hm
  · right
    subst hm
    exact hcur

theorem updateStage_core (M : MathOracle) (rs : RS) (e : Engine) (dt : ℚ) :
    (e.updateStage M rs dt).player = e.player ∧
    (e.updateStage M rs dt).gameOver = e.gameOver ∧
    (e.updateStage M rs dt).victory = e.victory ∧
    (e.updateStage M rs dt).gems = e.gems ∧
    (e.updateStage M rs dt).projectiles = e.projectiles ∧
    (e.updateStage M rs dt).bossTelegraphs = e.bossTelegraphs ∧
    (e.updateStage M rs dt).stageIndex = e.stageIndex ∧
    (e.updateStage M rs dt).stageClearReady = e.stageClearReady ∧
    (e.updateStage M rs dt).stageClearDelay = e.stageClearDelay ∧
    (e.updateStage M rs dt).combo = e.combo ∧
    (e.updateStage M rs dt).kills = e.kills ∧
    (e.updateStage M rs dt).pendingLevelUps = e.pendingLevelUps ∧
    (e.updateStage M rs dt).awaitingUpgrade = e.awaitingUpgrade ∧
    (e.updateStage M rs dt).upgradeChoices = e.upgradeChoices ∧
    (e.updateStage M rs dt).paused = e.paused ∧
    (monstersDmgOk e → monstersDmgOk (e.updateStage M rs dt)) := by
  simp only [Engine.updateStage]
  repeat' split
  all_goals
    (repeat' apply And.intro) <;>
      first
        | (simp [spawnBoss_core, spawnMonster_core]
           done)
        | (simp_all [spawnBoss_core, spawnMonster_core]
           done)
        | (intro h m hm
           first
             | exact h m hm
             | exact (spawnBoss_mem M (rsub rs 0) _ m hm).elim (fun h2 => h m h2) id
             | exact (spawnMonster_mem M (rsub rs 1) _ _ m hm).elim (fun h2 => h m h2) id
             | exact (spawnMonster_mem M (rsub rs 1) _ _ m hm).elim
                 (fun h2 => (spawnBoss_mem M (rsub rs 0) _ m h2).elim (fun h3 => h m h3) id)
                 id)

theorem performSlash_core (M : MathOracle) (e : Engine) :
    (e.performSlashProjectile M).2.player.hp = e.player.hp ∧
    (e.performSlashProjectile M).2.player.maxHp = e.player.maxHp ∧
    (e.performSlashProjectile M).2.player.armor = e.player.armor ∧
    (e.performSlashProjectile M).2.player.attackCooldown = e.player.attackCooldown ∧
    (e.performSlashProjectile M).2.player.attackInterval = e.player.attackInterval ∧
    (e.performSlashProjectile M).2.gameOver = e.gameOver ∧
    (e.performSlashProjectile M).2.victory = e.victory ∧
    (e.performSlashProjectile M).2.monsters = e.monsters ∧
    (e.performSlashProjectile M).2.gems = e.gems ∧
    (e.performSlashProjectile M).2.bossTelegraphs = e.bossTelegraphs ∧
    (e.performSlashProjectile M).2.stageIndex = e.stageIndex ∧
    (e.performSlashProjectile M).2.stageTimeLeft = e.stageTimeLeft ∧
    (e.performSlashProjectile M).2.bossSpawned = e.bossSpawned ∧
    (e.performSlashProjectile M).2.bossId = e.bossId ∧
    (e.performSlashProjectile M).2.stageClearReady = e.stageClearReady ∧
    (e.performSlashProjectile M).2.stageClearDelay = e.stageClearDelay ∧
    (e.performSlashProjectile M).2.combo = e.combo ∧
    (e.performSlashProjectile M).2.kills = e.kills ∧
    (e.performSlashProjectile M).2.pendingLevelUps = e.pendingLevelUps ∧
    (e.performSlashProjectile M).2.awaitingUpgrade = e.awaitingUpgrade ∧
    (e.performSlashProjectile M).2.upgradeChoices = e.upgradeChoices ∧
    (e.performSlashProjectile M).2.paused = e.paused := by
  unfold Engine.performSlashProjectile
  cases e.collectNearestLivingMonsters e.player.pos none 1 with
  | nil => simp
  | cons main rest => simp [Engine.nextId]

theorem arrowLoop_core (M : MathOracle) (rs : RS) (targets : List Monster) :
    ∀ (i n : ℕ) (e : Engine),
    (arrowLoop M rs targets i n e).player.hp = e.player.hp ∧
    (arrowLoop M rs targets i n e).player.maxHp = e.player.maxHp ∧
    (arrowLoop M rs targets i n e).player.armor = e.player.armor ∧
    (arrowLoop M rs targets i n e).player.attackCooldown = e.player.attackCooldown ∧
    (arrowLoop M rs targets i n e).player.attackInterval = e.player.attackInterval ∧
    (arrowLoop M rs targets i n e).gameOver = e.gameOver ∧
    (arrowLoop M rs targets i n e).victory = e.victory ∧
    (arrowLoop M rs targets i n e).monsters = e.monsters ∧
    (arrowLoop M rs targets i n e).gems = e.gems ∧
    (arrowLoop M rs targets i n e).bossTelegraphs = e.bossTelegraphs ∧
    (arrowLoop M rs targets i n e).stageIndex = e.stageIndex ∧
    (arrowLoop M rs targets i n e).stageTimeLeft = e.stageTimeLeft ∧
    (arrowLoop M rs targets i n e).bossSpawned = e.bossSpawned ∧
    (arrowLoop M rs targets i n e).bossId = e.bossId ∧
    (arrowLoop M rs targets i n e).stageClearReady = e.stageClearReady ∧
    (arrowLoop M rs targets i n e).stageClearDelay = e.stageClearDelay ∧
    (arrowLoop M rs targets i n e).combo = e.combo ∧
    (arrowLoop M rs targets i n e).kills = e.kills ∧
    (arrowLoop M rs targets i n e).pendingLevelUps = e.pendingLevelUps ∧
    (arrowLoop M rs targets i n e).awaitingUpgrade = e.awaitingUpgrade ∧
    (arrowLoop M rs targets i n e).upgradeChoices = e.upgradeChoices ∧
    (arrowLoop M rs targets i n e).paused = e.paused
  | i, 0, e => by simp [arrowLoop]
  | i, n + 1, e => by
    have ih := arrowLoop_core M rs targets (i + 1) n
    simp only [arrowLoop]
    split <;> simp [ih, Engine.nextId]

theorem magicLoop_core (M : MathOracle) (rs : RS) (targets : List Monster) :
    ∀ (i n : ℕ) (e : Engine),
    (magicLoop M rs targets i n e).player.hp = e.player.hp ∧
    (magicLoop M rs targets i n e).player.maxHp = e.player.maxHp ∧
    (magicLoop M rs targets i n e).player.armor = e.player.armor ∧
    (magicLoop M rs targets i n e).player.attackCooldown = e.player.attackCooldown ∧
    (magicLoop M rs targets i n e).player.attackInterval = e.player.attackInterval ∧
    (magicLoop M rs targets i n e).gameOver = e.gameOver ∧
    (magicLoop M rs targets i n e).victory = e.victory ∧
    (magicLoop M rs targets i n e).monsters = e.monsters ∧
    (magicLoop M rs targets i n e).gems = e.gems ∧
    (magicLoop M rs targets i n e).bossTelegraphs = e.bossTelegraphs ∧
    (magicLoop M rs targets i n e).stageIndex = e.stageIndex ∧
    (magicLoop M rs targets i n e).stageTimeLeft = e.stageTimeLeft ∧
    (magicLoop M rs targets i n e).bossSpawned = e.bossSpawned ∧
    (magicLoop M rs targets i n e).bossId = e.bossId ∧
    (magicLoop M rs targets i n e).stageClearReady = e.stageClearReady ∧
    (magicLoop M rs targets i n e).stageClearDelay = e.stageClearDelay ∧
    (magicLoop M rs targets i n e).combo = e.combo ∧
    (magicLoop M rs targets i n e).kills = e.kills ∧
    (magicLoop M rs targets i n e).pendingLevelUps = e.pendingLevelUps ∧
    (magicLoop M rs targets i n e).awaitingUpgrade = e.awaitingUpgrade ∧
    (magicLoop M rs targets i n e).upgradeChoices = e.upgradeChoices ∧
    (magicLoop M rs targets i n e).paused = e.paused
  | i, 0, e => by simp [magicLoop]
  | i, n + 1, e => by
    have ih := magicLoop_core M rs targets (i + 1) n
    simp only [magicLoop]
    split <;> simp [ih, Engine.nextId]

theorem performArrow_core (M : MathOracle) (rs : RS) (e : Engine) :
    (e.performArrowAttack M rs).2.player.hp = e.player.hp ∧
    (e.performArrowAttack M rs).2.player.maxHp = e.player.maxHp ∧
    (e.performArrowAttack M rs).2.player.armor = e.player.armor ∧
    (e.performArrowAttack M rs).2.player.attackCooldown = e.player.attackCooldown ∧
    (e.performArrowAttack M rs).2.player.attackInterval = e.player.attackInterval ∧
    (e.performArrowAttack M rs).2.gameOver = e.gameOver ∧
    (e.performArrowAttack M rs).2.victory = e.victory ∧
    (e.performArrowAttack M rs).2.monsters = e.monsters ∧
    (e.performArrowAttack M rs).2.gems = e.gems ∧
    (e.performArrowAttack M rs).2.bossTelegraphs = e.bossTelegraphs ∧
    (e.performArrowAttack M rs).2.stageIndex = e.stageIndex ∧
    (e.performArrowAttack M rs).2.stageTimeLeft = e.stageTimeLeft ∧
    (e.performArrowAttack M rs).2.bossSpawned = e.bossSpawned ∧
    (e.performArrowAttack M rs).2.bossId = e.bossId ∧
    (e.performArrowAttack M rs).2.stageClearReady = e.stageClearReady ∧
    (e.performArrowAttack M rs).2.stageClearDelay = e.stageClearDelay ∧
    (e.performArrowAttack M rs).2.combo = e.combo ∧
    (e.performArrowAttack M rs).2.kills = e.kills ∧
    (e.performArrowAttack M rs).2.pendingLevelUps = e.pendingLevelUps ∧
    (e.performArrowAttack M rs).2.awaitingUpgrade = e.awaitingUpgrade ∧
    (e.performArrowAttack M rs).2.upgradeChoices = e.upgradeChoices ∧
    (e.performArrowAttack M rs).2.paused = e.paused := by
  simp only [Engine.performArrowAttack]
  split
  · simp
  · simp [arrowLoop_core]

theorem performMagic_core (M : MathOracle) (rs : RS) (e : Engine) :
    (e.performMagicAoeAttack M rs).2.player.hp = e.player.hp ∧
    (e.performMagicAoeAttack M rs).2.player.maxHp = e.player.maxHp ∧
    (e.performMagicAoeAttack M rs).2.player.armor = e.player.armor ∧
    (e.performMagicAoeAttack M rs).2.player.attackCooldown = e.player.attackCooldown ∧
    (e.performMagicAoeAttack M rs).2.player.attackInterval = e.player.attackInterval ∧
    (e.performMagicAoeAttack M rs).2.gameOver = e.gameOver ∧
    (e.performMagicAoeAttack M rs).2.victory = e.victory ∧
    (e.performMagicAoeAttack M rs).2.monsters = e.monsters ∧
    (e.performMagicAoeAttack M rs).2.gems = e.gems ∧
    (e.performMagicAoeAttack M rs).2.bossTelegraphs = e.bossTelegraphs ∧
    (e.performMagicAoeAttack M rs).2.stageIndex = e.stageIndex ∧
    (e.performMagicAoeAttack M rs).2.stageTimeLeft = e.stageTimeLeft ∧
    (e.performMagicAoeAttack M rs).2.bossSpawned = e.bossSpawned ∧
    (e.performMagicAoeAttack M rs).2.bossId = e.bossId ∧
    (e.performMagicAoeAttack M rs).2.stageClearReady = e.stageClearReady ∧
    (e.performMagicAoeAttack M rs).2.stageClearDelay = e.stageClearDelay ∧
    (e.performMagicAoeAttack M rs).2.combo = e.combo ∧
    (e.performMagicAoeAttack M rs).2.kills = e.kills ∧
    (e.performMagicAoeAttack M rs).2.pendingLevelUps = e.pendingLevelUps ∧
    (e.performMagicAoeAttack M rs).2.awaitingUpgrade = e.awaitingUpgrade ∧
    (e.performMagicAoeAttack M rs).2.upgradeChoices = e.upgradeChoices ∧
    (e.performMagicAoeAttack M rs).2.paused = e.paused := by
  simp only [Engine.performMagicAoeAttack]
  split
  · simp
  · simp [magicLoop_core]

theorem updateAttacks_core (M : MathOracle) (rs : RS) (e : Engine) (dt : ℚ) :
    (e.updateAttacks M rs dt).player.hp = e.player.hp ∧
    (e.updateAttacks M rs dt).player.maxHp = e.player.maxHp ∧
    (e.updateAttacks M rs dt).player.armor = e.player.armor ∧
    (e.updateAttacks M rs dt).gameOver = e.gameOver ∧
    (e.updateAttacks M rs dt).victory = e.victory ∧
    (e.updateAttacks M rs dt).monsters = e.monsters ∧
    (e.updateAttacks M rs dt).gems = e.gems ∧
    (e.updateAttacks M rs dt).bossTelegraphs = e.bossTelegraphs ∧
    (e.updateAttacks M rs dt).stageIndex = e.stageIndex ∧
    (e.updateAttacks M rs dt).stageTimeLeft = e.stageTimeLeft ∧
    (e.updateAttacks M rs dt).bossSpawned = e.bossSpawned ∧
    (e.updateAttacks M rs dt).bossId = e.bossId ∧
    (e.updateAttacks M rs dt).stageClearReady = e.stageClearReady ∧
    (e.updateAttacks M rs dt).stageClearDelay = e.stageClearDelay ∧
    (e.updateAttacks M rs dt).combo = e.combo ∧
    (e.updateAttacks M rs dt).kills = e.kills ∧
    (e.updateAttacks M rs dt).pendingLevelUps = e.pendingLevelUps ∧
    (e.updateAttacks M rs dt).awaitingUpgrade = e.awaitingUpgrade ∧
    (e.updateAttacks M rs dt).upgradeChoices = e.upgradeChoices ∧
    (e.updateAttacks M rs dt).paused = e.paused := by
  simp only [Engine.updateAttacks]
  repeat' split
  all_goals
    simp [performSlash_core, performArrow_core, performMagic_core]

theorem bladeHitLoop_core (M : MathOracle) (rs : RS) (bladePos : Vec2)
    (hitRadius baseDamage : ℚ) :
    ∀ (ids : List ℕ) (k : ℕ) (e : Engine) (hitAny : Bool),
    (bladeHitLoop M rs bladePos hitRadius baseDamage ids k e hitAny).1.player = e.player ∧
    (bladeHitLoop M rs bladePos hitRadius baseDamage ids k e hitAny).1.gameOver = e.gameOver ∧
    (bladeHitLoop M rs bladePos hitRadius baseDamage ids k e hitAny).1.victory = e.victory ∧
    (bladeHitLoop M rs bladePos hitRadius baseDamage ids k e hitAny).1.gems = e.gems ∧
    (bladeHitLoop M rs bladePos hitRadius baseDamage ids k e hitAny).1.projectiles = e.projectiles ∧
    (bladeHitLoop M rs bladePos hitRadius baseDamage ids k e hitAny).1.bossTelegraphs = e.bossTelegraphs ∧
    (bladeHitLoop M rs bladePos hitRadius baseDamage ids k e hitAny).1.stageIndex = e.stageIndex ∧
    (bladeHitLoop M rs bladePos hitRadius baseDamage ids k e hitAny).1.stageTimeLeft = e.stageTimeLeft ∧
    (bladeHitLoop M rs bladePos hitRadius baseDamage ids k e hitAny).1.bossSpawned = e.bossSpawned ∧
    (bladeHitLoop M rs bladePos hitRadius baseDamage ids k e hitAny).1.bossId = e.bossId ∧
    (bladeHitLoop M rs bladePos hitRadius baseDamage ids k e hitAny).1.stageClearReady = e.stageClearReady ∧
    (bladeHitLoop M rs bladePos hitRadius baseDamage ids k e hitAny).1.stageClearDelay = e.stageClearDelay ∧
    (bladeHitLoop M rs bladePos hitRadius baseDamage ids k e hitAny).1.combo = e.combo ∧
    (bladeHitLoop M rs bladePos hitRadius baseDamage ids k e hitAny).1.kills = e.kills ∧
    (bladeHitLoop M rs bladePos hitRadius baseDamage ids k e hitAny).1.pendingLevelUps = e.pendingLevelUps ∧
    (bladeHitLoop M rs bladePos hitRadius baseDamage ids k e hitAny).1.awaitingUpgrade = e.awaitingUpgrade ∧
    (bladeHitLoop M rs bladePos hitRadius baseDamage ids k e hitAny).1.upgradeChoices = e.upgradeChoices ∧
    (bladeHitLoop M rs bladePos hitRadius baseDamage ids k e hitAny).1.paused = e.paused ∧
    (bladeHitLoop M rs bladePos hitRadius baseDamage ids k e hitAny).1.monsters.length = e.monsters.length ∧
    (bladeHitLoop M rs bladePos hitRadius baseDamage ids k e hitAny).1.monsters.map Monster.damage =
      e.monsters.map Monster.damage
  | [], k, e, hitAny => by simp [bladeHitLoop]
  | mid :: rest, k, e, hitAny => by
    have ih := bladeHitLoop_core M rs bladePos hitRadius baseDamage rest (k + 1)
    simp only [bladeHitLoop]
    split <;> ((try split) <;> (try split)) <;> simp [ih, damageMonster_core]

theorem bladeLoop_core (M : MathOracle) (rs : RS) (bladeCount : ℕ)
    (radius hitRadius baseDamage : ℚ) :
    ∀ (i n : ℕ) (e : Engine) (hitAny : Bool),
    (bladeLoop M rs bladeCount radius hitRadius baseDamage i n e hitAny).1.player = e.player ∧
    (bladeLoop M rs bladeCount radius hitRadius baseDamage i n e hitAny).1.gameOver = e.gameOver ∧
    (bladeLoop M rs bladeCount radius hitRadius baseDamage i n e hitAny).1.victory = e.victory ∧
    (bladeLoop M rs bladeCount radius hitRadius baseDamage i n e hitAny).1.gems = e.gems ∧
    (bladeLoop M rs bladeCount radius hitRadius baseDamage i n e hitAny).1.projectiles = e.projectiles ∧
    (bladeLoop M rs bladeCount radius hitRadius baseDamage i n e hitAny).1.bossTelegraphs = e.bossTelegraphs ∧
    (bladeLoop M rs bladeCount radius hitRadius baseDamage i n e hitAny).1.stageIndex = e.stageIndex ∧
    (bladeLoop M rs bladeCount radius hitRadius baseDamage i n e hitAny).1.stageTimeLeft = e.stageTimeLeft ∧
    (bladeLoop M rs bladeCount radius hitRadius baseDamage i n e hitAny).1.bossSpawned = e.bossSpawned ∧
    (bladeLoop M rs bladeCount radius hitRadius baseDamage i n e hitAny).1.bossId = e.bossId ∧
    (bladeLoop M rs bladeCount radius hitRadius baseDamage i n e hitAny).1.stageClearReady = e.stageClearReady ∧
    (bladeLoop M rs bladeCount radius hitRadius baseDamage i n e hitAny).1.stageClearDelay = e.stageClearDelay ∧
    (bladeLoop M rs bladeCount radius hitRadius baseDamage i n e hitAny).1.combo = e.combo ∧
    (bladeLoop M rs bladeCount radius hitRadius baseDamage i n e hitAny).1.kills = e.kills ∧
    (bladeLoop M rs bladeCount radius hitRadius baseDamage i n e hitAny).1.pendingLevelUps = e.pendingLevelUps ∧
    (bladeLoop M rs bladeCount radius hitRadius baseDamage i n e hitAny).1.awaitingUpgrade = e.awaitingUpgrade ∧
    (bladeLoop M rs bladeCount radius hitRadius baseDamage i n e hitAny).1.upgradeChoices = e.upgradeChoices ∧
    (bladeLoop M rs bladeCount radius hitRadius baseDamage i n e hitAny).1.paused = e.paused ∧
    (bladeLoop M rs bladeCount radius hitRadius baseDamage i n e hitAny).1.monsters.length = e.monsters.length ∧
    (bladeLoop M rs bladeCount radius hitRadius baseDamage i n e hitAny).1.monsters.map Monster.damage =
      e.monsters.map Monster.damage
  | i, 0, e, hitAny => by simp [bladeLoop]
  | i, n + 1, e, hitAny => by
    have ih := bladeLoop_core M rs bladeCount radius hitRadius baseDamage (i + 1) n
    simp only [bladeLoop]
    simp [ih, bladeHitLoop_core]

theorem updateBladeSkill_core (M : MathOracle) (rs : RS) (e : Engine) (dt : ℚ) :
    (e.updateBladeSkill M rs dt).player = e.player ∧
    (e.updateBladeSkill M rs dt).gameOver = e.gameOver ∧
    (e.updateBladeSkill M rs dt).victory = e.victory ∧
    (e.updateBladeSkill M rs dt).gems = e.gems ∧
    (e.updateBladeSkill M rs dt).projectiles = e.projectiles ∧
    (e.updateBladeSkill M rs dt).bossTelegraphs = e.bossTelegraphs ∧
    (e.updateBladeSkill M rs dt).stageIndex = e.stageIndex ∧
    (e.updateBladeSkill M rs dt).stageTimeLeft = e.stageTimeLeft ∧
    (e.updateBladeSkill M rs dt).bossSpawned = e.bossSpawned ∧
    (e.updateBladeSkill M rs dt).bossId = e.bossId ∧
    (e.updateBladeSkill M rs dt).stageClearReady = e.stageClearReady ∧
    (e.updateBladeSkill M rs dt).stageClearDelay = e.stageClearDelay ∧
    (e.updateBladeSkill M rs dt).combo = e.combo ∧
    (e.updateBladeSkill M rs dt).kills = e.kills ∧
    (e.updateBladeSkill M rs dt).pendingLevelUps = e.pendingLevelUps ∧
    (e.updateBladeSkill M rs dt).awaitingUpgrade = e.awaitingUpgrade ∧
    (e.updateBladeSkill M rs dt).upgradeChoices = e.upgradeChoices ∧
    (e.updateBladeSkill M rs dt).paused = e.paused ∧
    (e.updateBladeSkill M rs dt).monsters.length = e.monsters.length ∧
    (e.updateBladeSkill M rs dt).monsters.map Monster.damage =
      e.monsters.map Monster.damage := by
  simp only [Engine.updateBladeSkill]
  repeat' split
  all_goals simp [bladeLoop_core]

theorem lightningTargets_core (M : MathOracle) (rs : RS) (level : ℕ) :
    ∀ (targets : List Monster) (j : ℕ) (e : Engine),
    (lightningTargets M rs level targets j e).player = e.player ∧
    (lightningTargets M rs level targets j e).gameOver = e.gameOver ∧
    (lightningTargets M rs level targets j e).victory = e.victory ∧
    (lightningTargets M rs level targets j e).gems = e.gems ∧
    (lightningTargets M rs level targets j e).projectiles = e.projectiles ∧
    (lightningTargets M rs level targets j e).bossTelegraphs = e.bossTelegraphs ∧
    (lightningTargets M rs level targets j e).stageIndex = e.stageIndex ∧
    (lightningTargets M rs level targets j e).stageTimeLeft = e.stageTimeLeft ∧
    (lightningTargets M rs level targets j e).bossSpawned = e.bossSpawned ∧
    (lightningTargets M rs level targets j e).bossId = e.bossId ∧
    (lightningTargets M rs level targets j e).stageClearReady = e.stageClearReady ∧
    (lightningTargets M rs level targets j e).stageClearDelay = e.stageClearDelay ∧
    (lightningTargets M rs level targets j e).combo = e.combo ∧
    (lightningTargets M rs level targets j e).kills = e.kills ∧
    (lightningTargets M rs level targets j e).pendingLevelUps = e.pendingLevelUps ∧
    (lightningTargets M rs level targets j e).awaitingUpgrade = e.awaitingUpgrade ∧
    (lightningTargets M rs level targets j e).upgradeChoices = e.upgradeChoices ∧
    (lightningTargets M rs level targets j e).paused = e.paused ∧
    (lightningTargets M rs level targets j e).monsters.length = e.monsters.length ∧
    (lightningTargets M rs level targets j e).monsters.map Monster.damage =
      e.monsters.map Monster.damage
  | [], j, e => by simp [lightningTargets]
  | target :: rest, j, e => by
    have ih := lightningTargets_core M rs level rest (j + 1)
    simp only [lightningTargets]
    simp [ih, damageMonster_core, Engine.nextId, emitBurst_core]

theorem castLightning_core (M : MathOracle) (rs : RS) (e : Engine) :
    (e.castLightning M rs).player = e.player ∧
    (e.castLightning M rs).gameOver = e.gameOver ∧
    (e.castLightning M rs).victory = e.victory ∧
    (e.castLightning M rs).gems = e.gems ∧
    (e.castLightning M rs).projectiles = e.projectiles ∧
    (e.castLightning M rs).bossTelegraphs = e.bossTelegraphs ∧
    (e.castLightning M rs).stageIndex = e.stageIndex ∧
    (e.castLightning M rs).stageTimeLeft = e.stageTimeLeft ∧
    (e.castLightning M rs).bossSpawned = e.bossSpawned ∧
    (e.castLightning M rs).bossId = e.bossId ∧
    (e.castLightning M rs).stageClearReady = e.stageClearReady ∧
    (e.castLightning M rs).stageClearDelay = e.stageClearDelay ∧
    (e.castLightning M rs).combo = e.combo ∧
    (e.castLightning M rs).kills = e.kills ∧
    (e.castLightning M rs).pendingLevelUps = e.pendingLevelUps ∧
    (e.castLightning M rs).awaitingUpgrade = e.awaitingUpgrade ∧
    (e.castLightning M rs).upgradeChoices = e.upgradeChoices ∧
    (e.castLightning M rs).paused = e.paused ∧
    (e.castLightning M rs).monsters.length = e.monsters.length ∧
    (e.castLightning M rs).monsters.map Monster.damage =
      e.monsters.map Monster.damage := by
  simp only [Engine.castLightning]
  repeat' split
  all_goals simp [lightningTargets_core]

theorem laserHitLoop_core (M : MathOracle) (rs : RS) (beamStart beamEnd : Vec2)
    (baseDamage : ℚ) :
    ∀ (ids : List ℕ) (k : ℕ) (e : Engine),
    (laserHitLoop M rs beamStart beamEnd baseDamage ids k e).player = e.player ∧
    (laserHitLoop M rs beamStart beamEnd baseDamage ids k e).gameOver = e.gameOver ∧
    (laserHitLoop M rs beamStart beamEnd baseDamage ids k e).victory = e.victory ∧
    (laserHitLoop M rs beamStart beamEnd baseDamage ids k e).gems = e.gems ∧
    (laserHitLoop M rs beamStart beamEnd baseDamage ids k e).projectiles = e.projectiles ∧
    (laserHitLoop M rs beamStart beamEnd baseDamage ids k e).bossTelegraphs = e.bossTelegraphs ∧
    (laserHitLoop M rs beamStart beamEnd baseDamage ids k e).stageIndex = e.stageIndex ∧
    (laserHitLoop M rs beamStart beamEnd baseDamage ids k e).stageTimeLeft = e.stageTimeLeft ∧
    (laserHitLoop M rs beamStart beamEnd baseDamage ids k e).bossSpawned = e.bossSpawned ∧
    (laserHitLoop M rs beamStart beamEnd baseDamage ids k e).bossId = e.bossId ∧
    (laserHitLoop M rs beamStart beamEnd baseDamage ids k e).stageClearReady = e.stageClearReady ∧
    (laserHitLoop M rs beamStart beamEnd baseDamage ids k e).stageClearDelay = e.stageClearDelay ∧
    (laserHitLoop M rs beamStart beamEnd baseDamage ids k e).combo = e.combo ∧
    (laserHitLoop M rs beamStart beamEnd baseDamage ids k e).kills = e.kills ∧
    (laserHitLoop M rs beamStart beamEnd baseDamage ids k e).pendingLevelUps = e.pendingLevelUps ∧
    (laserHitLoop M rs beamStart beamEnd baseDamage ids k e).awaitingUpgrade = e.awaitingUpgrade ∧
    (laserHitLoop M rs beamStart beamEnd baseDamage ids k e).upgradeChoices = e.upgradeChoices ∧
    (laserHitLoop M rs beamStart beamEnd baseDamage ids k e).paused = e.paused ∧
    (laserHitLoop M rs beamStart beamEnd baseDamage ids k e).monsters.length = e.monsters.length ∧
    (laserHitLoop M rs beamStart beamEnd baseDamage ids k e).monsters.map Monster.damage =
      e.monsters.map Monster.damage
  | [], k, e => by simp [laserHitLoop]
  | mid :: rest, k, e => by
    have ih := laserHitLoop_core M rs beamStart beamEnd baseDamage rest (k + 1)
    simp only [laserHitLoop]
    split <;> ((try split) <;> (try split)) <;> simp [ih, damageMonster_core]

theorem castLaser_core (M : MathOracle) (rs : RS) (e : Engine) :
    (e.castLaser M rs).player = e.player ∧
    (e.castLaser M rs).gameOver = e.gameOver ∧
    (e.castLaser M rs).victory = e.victory ∧
    (e.castLaser M rs).gems = e.gems ∧
    (e.castLaser M rs).projectiles = e.projectiles ∧
    (e.castLaser M rs).bossTelegraphs = e.bossTelegraphs ∧
    (e.castLaser M rs).stageIndex = e.stageIndex ∧
    (e.castLaser M rs).stageTimeLeft = e.stageTimeLeft ∧
    (e.castLaser M rs).bossSpawned = e.bossSpawned ∧
    (e.castLaser M rs).bossId = e.bossId ∧
    (e.castLaser M rs).stageClearReady = e.stageClearReady ∧
    (e.castLaser M rs).stageClearDelay = e.stageClearDelay ∧
    (e.castLaser M rs).combo = e.combo ∧
    (e.castLaser M rs).kills = e.kills ∧
    (e.castLaser M rs).pendingLevelUps = e.pendingLevelUps ∧
    (e.castLaser M rs).awaitingUpgrade = e.awaitingUpgrade ∧
    (e.castLaser M rs).upgradeChoices = e.upgradeChoices ∧
    (e.castLaser M rs).paused = e.paused ∧
    (e.castLaser M rs).monsters.length = e.monsters.length ∧
    (e.castLaser M rs).monsters.map Monster.damage =
      e.monsters.map Monster.damage := by
  simp only [Engine.castLaser]
  repeat' split
  all_goals simp [laserHitLoop_core, Engine.nextId, emitBurst_core]

theorem tickLightningGate_core (M : MathOracle) (rs : RS) (e : Engine) :
    (e.tickLightningGate M rs).player = e.player ∧
    (e.tickLightningGate M rs).gameOver = e.gameOver ∧
    (e.tickLightningGate M rs).victory = e.victory ∧
    (e.tickLightningGate M rs).gems = e.gems ∧
    (e.tickLightningGate M rs).projectiles = e.projectiles ∧
    (e.tickLightningGate M rs).bossTelegraphs = e.bossTelegraphs ∧
    (e.tickLightningGate M rs).stageIndex = e.stageIndex ∧
    (e.tickLightningGate M rs).stageTimeLeft = e.stageTimeLeft ∧
    (e.tickLightningGate M rs).bossSpawned = e.bossSpawned ∧
    (e.tickLightningGate M rs).bossId = e.bossId ∧
    (e.tickLightningGate M rs).stageClearReady = e.stageClearReady ∧
    (e.tickLightningGate M rs).stageClearDelay = e.stageClearDelay ∧
    (e.tickLightningGate M rs).combo = e.combo ∧
    (e.tickLightningGate M rs).kills = e.kills ∧
    (e.tickLightningGate M rs).pendingLevelUps = e.pendingLevelUps ∧
    (e.tickLightningGate M rs).awaitingUpgrade = e.awaitingUpgrade ∧
    (e.tickLightningGate M rs).upgradeChoices = e.upgradeChoices ∧
    (e.tickLightningGate M rs).paused = e.paused ∧
    (e.tickLightningGate M rs).monsters.length = e.monsters.length ∧
    (e.tickLightningGate M rs).monsters.map Monster.damage =
      e.monsters.map Monster.damage := by
  simp only [Engine.tickLightningGate]
  split <;> simp [castLightning_core]

theorem tickLaserGate_core (M : MathOracle) (rs : RS) (e : Engine) :
    (e.tickLaserGate M rs).player = e.player ∧
    (e.tickLaserGate M rs).gameOver = e.gameOver ∧
    (e.tickLaserGate M rs).victory = e.victory ∧
    (e.tickLaserGate M rs).gems = e.gems ∧
    (e.tickLaserGate M rs).projectiles = e.projectiles ∧
    (e.tickLaserGate M rs).bossTelegraphs = e.bossTelegraphs ∧
    (e.tickLaserGate M rs).stageIndex = e.stageIndex ∧
    (e.tickLaserGate M rs).stageTimeLeft = e.stageTimeLeft ∧
    (e.tickLaserGate M rs).bossSpawned = e.bossSpawned ∧
    (e.tickLaserGate M rs).bossId = e.bossId ∧
    (e.tickLaserGate M rs).stageClearReady = e.stageClearReady ∧
    (e.tickLaserGate M rs).stageClearDelay = e.stageClearDelay ∧
    (e.tickLaserGate M rs).combo = e.combo ∧
    (e.tickLaserGate M rs).kills = e.kills ∧
    (e.tickLaserGate M rs).pendingLevelUps = e.pendingLevelUps ∧
    (e.tickLaserGate M rs).awaitingUpgrade = e.awaitingUpgrade ∧
    (e.tickLaserGate M rs).upgradeChoices = e.upgradeChoices ∧
    (e.tickLaserGate M rs).paused = e.paused ∧
    (e.tickLaserGate M rs).monsters.length = e.monsters.length ∧
    (e.tickLaserGate M rs).monsters.map Monster.damage =
      e.monsters.map Monster.damage := by
  simp only [Engine.tickLaserGate]
  split <;> simp [castLaser_core]

theorem updateSkills_core (M : MathOracle) (rs : RS) (e : Engine) (dt : ℚ) :
    (e.updateSkills M rs dt).player = e.player ∧
    (e.updateSkills M rs dt).gameOver = e.gameOver ∧
    (e.updateSkills M rs dt).victory = e.victory ∧
    (e.updateSkills M rs dt).gems = e.gems ∧
    (e.updateSkills M rs dt).projectiles = e.projectiles ∧
    (e.updateSkills M rs dt).bossTelegraphs = e.bossTelegraphs ∧
    (e.updateSkills M rs dt).stageIndex = e.stageIndex ∧
    (e.updateSkills M rs dt).stageTimeLeft = e.stageTimeLeft ∧
    (e.updateSkills M rs dt).bossSpawned = e.bossSpawned ∧
    (e.updateSkills M rs dt).bossId = e.bossId ∧
    (e.updateSkills M rs dt).stageClearReady = e.stageClearReady ∧
    (e.updateSkills M rs dt).stageClearDelay = e.stageClearDelay ∧
    (e.updateSkills M rs dt).combo = e.combo ∧
    (e.updateSkills M rs dt).kills = e.kills ∧
    (e.updateSkills M rs dt).pendingLevelUps = e.pendingLevelUps ∧
    (e.updateSkills M rs dt).awaitingUpgrade = e.awaitingUpgrade ∧
    (e.updateSkills M rs dt).upgradeChoices = e.upgradeChoices ∧
    (e.updateSkills M rs dt).paused = e.paused ∧
    (e.updateSkills M rs dt).monsters.length = e.monsters.length ∧
    (e.updateSkills M rs dt).monsters.map Monster.damage =
      e.monsters.map Monster.damage := by
  simp only [Engine.updateSkills]
  repeat' split
  all_goals
    simp [tickLaserGate_core, tickLightningGate_core, updateBladeSkill_core]

theorem applyTelegraphDamage_core (M : MathOracle) (rs : RS) (e : Engine)
    (incoming armorFactor : ℚ) :
    (e.applyTelegraphDamageToPlayer M rs incoming armorFactor).player.maxHp = e.player.maxHp ∧
    (e.applyTelegraphDamageToPlayer M rs incoming armorFactor).player.armor = e.player.armor ∧
    (e.applyTelegraphDamageToPlayer M rs incoming armorFactor).victory = e.victory ∧
    (e.applyTelegraphDamageToPlayer M rs incoming armorFactor).monsters = e.monsters ∧
    (e.applyTelegraphDamageToPlayer M rs incoming armorFactor).gems = e.gems ∧
    (e.applyTelegraphDamageToPlayer M rs incoming armorFactor).projectiles = e.projectiles ∧
    (e.applyTelegraphDamageToPlayer M rs incoming armorFactor).bossTelegraphs = e.bossTelegraphs ∧
    (e.applyTelegraphDamageToPlayer M rs incoming armorFactor).stageIndex = e.stageIndex ∧
    (e.applyTelegraphDamageToPlayer M rs incoming armorFactor).stageTimeLeft = e.stageTimeLeft ∧
    (e.applyTelegraphDamageToPlayer M rs incoming armorFactor).bossSpawned = e.bossSpawned ∧
    (e.applyTelegraphDamageToPlayer M rs incoming armorFactor).bossId = e.bossId ∧
    (e.applyTelegraphDamageToPlayer M rs incoming armorFactor).stageClearReady = e.stageClearReady ∧
    (e.applyTelegraphDamageToPlayer M rs incoming armorFactor).stageClearDelay = e.stageClearDelay ∧
    (e.applyTelegraphDamageToPlayer M rs incoming armorFactor).kills = e.kills ∧
    (e.applyTelegraphDamageToPlayer M rs incoming armorFactor).pendingLevelUps = e.pendingLevelUps ∧
    (e.applyTelegraphDamageToPlayer M rs incoming armorFactor).awaitingUpgrade = e.awaitingUpgrade ∧
    (e.applyTelegraphDamageToPlayer M rs incoming armorFactor).upgradeChoices = e.upgradeChoices ∧
    (e.applyTelegraphDamageToPlayer M rs incoming armorFactor).paused = e.paused := by
  simp only [Engine.applyTelegraphDamageToPlayer]
  simp [emitBurst_core]

theorem resolveCircle_core (M : MathOracle) (rs : RS) (e : Engine) (t : BossTelegraph) :
    (e.resolveCircleTelegraphHit M rs t).player.maxHp = e.player.maxHp ∧
    (e.resolveCircleTelegraphHit M rs t).player.armor = e.player.armor ∧
    (e.resolveCircleTelegraphHit M rs t).victory = e.victory ∧
    (e.resolveCircleTelegraphHit M rs t).monsters = e.monsters ∧
    (e.resolveCircleTelegraphHit M rs t).gems = e.gems ∧
    (e.resolveCircleTelegraphHit M rs t).projectiles = e.projectiles ∧
    (e.resolveCircleTelegraphHit M rs t).bossTelegraphs = e.bossTelegraphs ∧
    (e.resolveCircleTelegraphHit M rs t).stageIndex = e.stageIndex ∧
    (e.resolveCircleTelegraphHit M rs t).stageTimeLeft = e.stageTimeLeft ∧
    (e.resolveCircleTelegraphHit M rs t).bossSpawned = e.bossSpawned ∧
    (e.resolveCircleTelegraphHit M rs t).bossId = e.bossId ∧
    (e.resolveCircleTelegraphHit M rs t).stageClearReady = e.stageClearReady ∧
    (e.resolveCircleTelegraphHit M rs t).stageClearDelay = e.stageClearDelay ∧
    (e.resolveCircleTelegraphHit M rs t).kills = e.kills ∧
    (e.resolveCircleTelegraphHit M rs t).pendingLevelUps = e.pendingLevelUps ∧
    (e.resolveCircleTelegraphHit M rs t).awaitingUpgrade = e.awaitingUpgrade ∧
    (e.resolveCircleTelegraphHit M rs t).upgradeChoices = e.upgradeChoices ∧
    (e.resolveCircleTelegraphHit M rs t).paused = e.paused := by
  simp only [Engine.resolveCircleTelegraphHit]
  split
  · simp
  · simp [applyTelegraphDamage_core]

theorem resolveCone_core (M : MathOracle) (rs : RS) (e : Engine) (t : BossTelegraph) :
    (e.resolveConeTelegraphHit M rs t).player.maxHp = e.player.maxHp ∧
    (e.resolveConeTelegraphHit M rs t).player.armor = e.player.armor ∧
    (e.resolveConeTelegraphHit M rs t).victory = e.victory ∧
    (e.resolveConeTelegraphHit M rs t).monsters = e.monsters ∧
    (e.resolveConeTelegraphHit M rs t).gems = e.gems ∧
    (e.resolveConeTelegraphHit M rs t).projectiles = e.projectiles ∧
    (e.resolveConeTelegraphHit M rs t).bossTelegraphs = e.bossTelegraphs ∧
    (e.resolveConeTelegraphHit M rs t).stageIndex = e.stageIndex ∧
    (e.resolveConeTelegraphHit M rs t).stageTimeLeft = e.stageTimeLeft ∧
    (e.resolveConeTelegraphHit M rs t).bossSpawned = e.bossSpawned ∧
    (e.resolveConeTelegraphHit M rs t).bossId = e.bossId ∧
    (e.resolveConeTelegraphHit M rs t).stageClearReady = e.stageClearReady ∧
    (e.resolveConeTelegraphHit M rs t).stageClearDelay = e.stageClearDelay ∧
    (e.resolveConeTelegraphHit M rs t).kills = e.kills ∧
    (e.resolveConeTelegraphHit M rs t).pendingLevelUps = e.pendingLevelUps ∧
    (e.resolveConeTelegraphHit M rs t).awaitingUpgrade = e.awaitingUpgrade ∧
    (e.resolveConeTelegraphHit M rs t).upgradeChoices = e.upgradeChoices ∧
    (e.resolveConeTelegraphHit M rs t).paused = e.paused := by
  simp only [Engine.resolveConeTelegraphHit]
  split
  · simp
  · split
    · simp
    · simp [applyTelegraphDamage_core]

theorem resolveLine_core (M : MathOracle) (rs : RS) (e : Engine) (t : BossTelegraph) :
    (e.resolveLineTelegraphHit M rs t).player.maxHp = e.player.maxHp ∧
    (e.resolveLineTelegraphHit M rs t).player.armor = e.player.armor ∧
    (e.resolveLineTelegraphHit M rs t).victory = e.victory ∧
    (e.resolveLineTelegraphHit M rs t).monsters = e.monsters ∧
    (e.resolveLineTelegraphHit M rs t).gems = e.gems ∧
    (e.resolveLineTelegraphHit M rs t).projectiles = e.projectiles ∧
    (e.resolveLineTelegraphHit M rs t).bossTelegraphs = e.bossTelegraphs ∧
    (e.resolveLineTelegraphHit M rs t).stageIndex = e.stageIndex ∧
    (e.resolveLineTelegraphHit M rs t).stageTimeLeft = e.stageTimeLeft ∧
    (e.resolveLineTelegraphHit M rs t).bossSpawned = e.bossSpawned ∧
    (e.resolveLineTelegraphHit M rs t).bossId = e.bossId ∧
    (e.resolveLineTelegraphHit M rs t).stageClearReady = e.stageClearReady ∧
    (e.resolveLineTelegraphHit M rs t).stageClearDelay = e.stageClearDelay ∧
    (e.resolveLineTelegraphHit M rs t).kills = e.kills ∧
    (e.resolveLineTelegraphHit M rs t).pendingLevelUps = e.pendingLevelUps ∧
    (e.resolveLineTelegraphHit M rs t).awaitingUpgrade = e.awaitingUpgrade ∧
    (e.resolveLineTelegraphHit M rs t).upgradeChoices = e.upgradeChoices ∧
    (e.resolveLineTelegraphHit M rs t).paused = e.paused := by
  simp only [Engine.resolveLineTelegraphHit]
  split
  · simp
  · split
    · simp
    · simp [applyTelegraphDamage_core]

theorem resolveBossTelegraph_core (M : MathOracle) (rs : RS) (e : Engine)
    (t : BossTelegraph) :
    (e.resolveBossTelegraph M rs t).player.maxHp = e.player.maxHp ∧
    (e.resolveBossTelegraph M rs t).player.armor = e.player.armor ∧
    (e.resolveBossTelegraph M rs t).victory = e.victory ∧
    (e.resolveBossTelegraph M rs t).monsters = e.monsters ∧
    (e.resolveBossTelegraph M rs t).gems = e.gems ∧
    (e.resolveBossTelegraph M rs t).projectiles = e.projectiles ∧
    (e.resolveBossTelegraph M rs t).bossTelegraphs = e.bossTelegraphs ∧
    (e.resolveBossTelegraph M rs t).stageIndex = e.stageIndex ∧
    (e.resolveBossTelegraph M rs t).stageTimeLeft = e.stageTimeLeft ∧
    (e.resolveBossTelegraph M rs t).bossSpawned = e.bossSpawned ∧
    (e.resolveBossTelegraph M rs t).bossId = e.bossId ∧
    (e.resolveBossTelegraph M rs t).stageClearReady = e.stageClearReady ∧
    (e.resolveBossTelegraph M rs t).stageClearDelay = e.stageClearDelay ∧
    (e.resolveBossTelegraph M rs t).kills = e.kills ∧
    (e.resolveBossTelegraph M rs t).pendingLevelUps = e.pendingLevelUps ∧
    (e.resolveBossTelegraph M rs t).awaitingUpgrade = e.awaitingUpgrade ∧
    (e.resolveBossTelegraph M rs t).upgradeChoices = e.upgradeChoices ∧
    (e.resolveBossTelegraph M rs t).paused = e.paused := by
  simp only [Engine.resolveBossTelegraph]
  repeat' split
  all_goals
    simp [resolveCircle_core, resolveCone_core, resolveLine_core, Engine.nextId,
      emitBurst_core]

theorem spawnBossTelegraph_core (M : MathOracle) (rs : RS) (e : Engine) (boss : Monster) :
    (e.spawnBossTelegraph M rs boss).player = e.player ∧
    (e.spawnBossTelegraph M rs boss).gameOver = e.gameOver ∧
    (e.spawnBossTelegraph M rs boss).victory = e.victory ∧
    (e.spawnBossTelegraph M rs boss).monsters = e.monsters ∧
    (e.spawnBossTelegraph M rs boss).gems = e.gems ∧
    (e.spawnBossTelegraph M rs boss).projectiles = e.projectiles ∧
    (e.spawnBossTelegraph M rs boss).stageIndex = e.stageIndex ∧
    (e.spawnBossTelegraph M rs boss).stageTimeLeft = e.stageTimeLeft ∧
    (e.spawnBossTelegraph M rs boss).bossSpawned = e.bossSpawned ∧
    (e.spawnBossTelegraph M rs boss).bossId = e.bossId ∧
    (e.spawnBossTelegraph M rs boss).stageClearReady = e.stageClearReady ∧
    (e.spawnBossTelegraph M rs boss).stageClearDelay = e.stageClearDelay ∧
    (e.spawnBossTelegraph M rs boss).combo = e.combo ∧
    (e.spawnBossTelegraph M rs boss).kills = e.kills ∧
    (e.spawnBossTelegraph M rs boss).pendingLevelUps = e.pendingLevelUps ∧
    (e.spawnBossTelegraph M rs boss).awaitingUpgrade = e.awaitingUpgrade ∧
    (e.spawnBossTelegraph M rs boss).upgradeChoices = e.upgradeChoices ∧
    (e.spawnBossTelegraph M rs boss).paused = e.paused := by
  simp only [Engine.spawnBossTelegraph]
  repeat' split
  all_goals simp [Engine.nextId]

theorem spawnBossTelegraph_tels (M : MathOracle) (rs : RS) (e : Engine) (boss : Monster)
    (hb : 0 ≤ boss.damage) :
    ∀ t ∈ (e.spawnBossTelegraph M rs boss).bossTelegraphs,
      t ∈ e.bossTelegraphs ∨ 0 ≤ t.damage := by
  have hsi : (0 : ℚ) ≤ (e.stageIndex : ℚ) := by positivity
  intro t ht
  simp only [Engine.spawnBossTelegraph] at ht
  split at ht <;>
    [skip; split at ht] <;>
    · simp [Engine.nextId] at ht
      rcases ht with ht | ht
      · exact Or.inl ht
      · right
        subst ht
        refine mul_nonneg hb (by positivity)

theorem bossAttackPhase_core (M : MathOracle) (rs : RS) (e : Engine) (dt : ℚ) :
    (e.bossAttackPhase M rs dt).player = e.player ∧
    (e.bossAttackPhase M rs dt).gameOver = e.gameOver ∧
    (e.bossAttackPhase M rs dt).victory = e.victory ∧
    (e.bossAttackPhase M rs dt).monsters = e.monsters ∧
    (e.bossAttackPhase M rs dt).gems = e.gems ∧
    (e.bossAttackPhase M rs dt).projectiles = e.projectiles ∧
    (e.bossAttackPhase M rs dt).stageIndex = e.stageIndex ∧
    (e.bossAttackPhase M rs dt).stageTimeLeft = e.stageTimeLeft ∧
    (e.bossAttackPhase M rs dt).bossSpawned = e.bossSpawned ∧
    (e.bossAttackPhase M rs dt).bossId = e.bossId ∧
    (e.bossAttackPhase M rs dt).stageClearReady = e.stageClearReady ∧
    (e.bossAttackPhase M rs dt).stageClearDelay = e.stageClearDelay ∧
    (e.bossAttackPhase M rs dt).combo = e.combo ∧
    (e.bossAttackPhase M rs dt).kills = e.kills ∧
    (e.bossAttackPhase M rs dt).pendingLevelUps = e.pendingLevelUps ∧
    (e.bossAttackPhase M rs dt).awaitingUpgrade = e.awaitingUpgrade ∧
    (e.bossAttackPhase M rs dt).upgradeChoices = e.upgradeChoices ∧
    (e.bossAttackPhase M rs dt).paused = e.paused := by
  simp only [Engine.bossAttackPhase]
  repeat' split
  all_goals simp [spawnBossTelegraph_core]

theorem bossAttackPhase_tels (M : MathOracle) (rs : RS) (e : Engine) (dt : ℚ)
    (hm : monstersDmgOk e) (ht : telsDmgOk e) :
    telsDmgOk (e.bossAttackPhase M rs dt) := by
  simp only [Engine.bossAttackPhase]
  cases hb : e.bossId with
  | none => simpa using ht
  | some bid =>
    simp only []
    cases hf : e.monsters.find? (fun m => m.id == bid && decide (m.hp > 0)) with
    | none => simpa using ht
    | some boss =>
      simp only []
      have hboss : boss ∈ e.monsters := List.mem_of_find?_eq_some hf
      have hdmg : 0 ≤ boss.damage := hm boss hboss
      split
      · intro t htm
        rcases spawnBossTelegraph_tels M rs _ boss hdmg t htm with h | h
        · exact ht t h
        · exact h
      · exact fun t htm => ht t htm

theorem telegraphLoop_fields (M : MathOracle) (rs : RS) (dt : ℚ) :
    ∀ (ts : List BossTelegraph) (i : ℕ) (e : Engine) (pending : List BossTelegraph),
    (telegraphLoop M rs dt ts i e pending).1.player.maxHp = e.player.maxHp ∧
    (telegraphLoop M rs dt ts i e pending).1.player.armor = e.player.armor ∧
    (telegraphLoop M rs dt ts i e pending).1.victory = e.victory ∧
    (telegraphLoop M rs dt ts i e pending).1.monsters = e.monsters ∧
    (telegraphLoop M rs dt ts i e pending).1.gems = e.gems ∧
    (telegraphLoop M rs dt ts i e pending).1.projectiles = e.projectiles ∧
    (telegraphLoop M rs dt ts i e pending).1.bossTelegraphs = e.bossTelegraphs ∧
    (telegraphLoop M rs dt ts i e pending).1.stageIndex = e.stageIndex ∧
    (telegraphLoop M rs dt ts i e pending).1.stageTimeLeft = e.stageTimeLeft ∧
    (telegraphLoop M rs dt ts i e pending).1.bossSpawned = e.bossSpawned ∧
    (telegraphLoop M rs dt ts i e pending).1.bossId = e.bossId ∧
    (telegraphLoop M rs dt ts i e pending).1.stageClearReady = e.stageClearReady ∧
    (telegraphLoop M rs dt ts i e pending).1.stageClearDelay = e.stageClearDelay ∧
    (telegraphLoop M rs dt ts i e pending).1.kills = e.kills ∧
    (telegraphLoop M rs dt ts i e pending).1.pendingLevelUps = e.pendingLevelUps ∧
    (telegraphLoop M rs dt ts i e pending).1.awaitingUpgrade = e.awaitingUpgrade ∧
    (telegraphLoop M rs dt ts i e pending).1.upgradeChoices = e.upgradeChoices ∧
    (telegraphLoop M rs dt ts i e pending).1.paused = e.paused
  | [], i, e, pending => by simp [telegraphLoop]
  | t :: rest, i, e, pending => by
    have ih := telegraphLoop_fields M rs dt rest (i + 1)
    simp only [telegraphLoop]
    split
    · simp [ih]
    · simp [ih, resolveBossTelegraph_core]

theorem telegraphLoop_telsOk (M : MathOracle) (rs : RS) (dt : ℚ) :
    ∀ (ts : List BossTelegraph) (i : ℕ) (e : Engine) (pending : List BossTelegraph),
    (∀ t ∈ pending, 0 ≤ t.damage) → (∀ t ∈ ts, 0 ≤ t.damage) →
    ∀ t ∈ (telegraphLoop M rs dt ts i e pending).2, 0 ≤ t.damage
  | [], i, e, pending => by
    intro hp ht
    simpa [telegraphLoop] using hp
  | t :: rest, i, e, pending => by
    intro hp ht
    have ih := telegraphLoop_telsOk M rs dt rest (i + 1)
    simp only [telegraphLoop]
    split
    · refine ih _ _ ?_ ?_
      · intro u hu
        simp at hu
        rcases hu with hu | hu
        · exact hp u hu
        · subst hu
          exact ht t (by simp)
      · intro u hu
        exact ht u (by simp [hu])
    · refine ih _ _ hp ?_
      intro u hu
      exact ht u (by simp [hu])

theorem updateBossTelegraphs_core (M : MathOracle) (rs : RS) (e : Engine) (dt : ℚ) :
    (e.updateBossTelegraphs M rs dt).player.maxHp = e.player.maxHp ∧
    (e.updateBossTelegraphs M rs dt).player.armor = e.player.armor ∧
    (e.updateBossTelegraphs M rs dt).victory = e.victory ∧
    (e.updateBossTelegraphs M rs dt).monsters = e.monsters ∧
    (e.updateBossTelegraphs M rs dt).gems = e.gems ∧
    (e.updateBossTelegraphs M rs dt).projectiles = e.projectiles ∧
    (e.updateBossTelegraphs M rs dt).stageIndex = e.stageIndex ∧
    (e.updateBossTelegraphs M rs dt).stageTimeLeft = e.stageTimeLeft ∧
    (e.updateBossTelegraphs M rs dt).bossSpawned = e.bossSpawned ∧
    (e.updateBossTelegraphs M rs dt).bossId = e.bossId ∧
    (e.updateBossTelegraphs M rs dt).stageClearReady = e.stageClearReady ∧
    (e.updateBossTelegraphs M rs dt).stageClearDelay = e.stageClearDelay ∧
    (e.updateBossTelegraphs M rs dt).kills = e.kills ∧
    (e.updateBossTelegraphs M rs dt).pendingLevelUps = e.pendingLevelUps ∧
    (e.updateBossTelegraphs M rs dt).awaitingUpgrade = e.awaitingUpgrade ∧
    (e.updateBossTelegraphs M rs dt).upgradeChoices = e.upgradeChoices ∧
    (e.updateBossTelegraphs M rs dt).paused = e.paused := by
  simp only [Engine.updateBossTelegraphs]
  split
  · simp [bossAttackPhase_core]
  · simp [telegraphLoop_fields, bossAttackPhase_core]

theorem updateBossTelegraphs_tels (M : MathOracle) (rs : RS) (e : Engine) (dt : ℚ)
    (hm : monstersDmgOk e) (ht : telsDmgOk e) :
    telsDmgOk (e.updateBossTelegraphs M rs dt) := by
  have hm2 : monstersDmgOk (e.bossAttackPhase M (rsub rs 0) dt) := by
    intro m hmem
    rw [(bossAttackPhase_core M (rsub rs 0) e dt).2.2.2.1] at hmem
    exact hm m hmem
  have ht2 : telsDmgOk (e.bossAttackPhase M (rsub rs 0) dt) :=
    bossAttackPhase_tels M (rsub rs 0) e dt hm ht
  simp only [Engine.updateBossTelegraphs]
  split
  · exact ht2
  · intro t htm
    simp only [] at htm
    exact telegraphLoop_telsOk M (rsub rs 1) dt _ 0 _ [] (by simp) ht2 t htm

theorem randomRange_nonneg {u mn mx : ℚ} (hu : 0 ≤ u) (hmn : 0 ≤ mn) (h : mn ≤ mx) :
    0 ≤ randomRange u mn mx := by
  unfold randomRange
  nlinarith

theorem RSok_rsub {rs : RS} (h : RSok rs) (i : ℕ) : RSok (rsub rs i) :=
  fun k => h (Nat.pair i k)

theorem hpOk_transfer {e1 e2 : Engine} (hp : e1.player = e2.player)
    (hg : e1.gameOver = e2.gameOver) (h : hpOk e2) : hpOk e1 := by
  unfold hpOk at h ⊢
  rw [hp, hg]
  exact h

theorem checkPlayerDeath_hpOk (e : Engine)
    (hle : e.player.hp ≤ e.player.maxHp) (hmax : 0 ≤ e.player.maxHp)
    (ha0 : 0 ≤ e.player.armor) (ha1 : e.player.armor ≤ 0.75) :
    hpOk e.checkPlayerDeath := by
  unfold hpOk
  rw [checkPlayerDeath_eq]
  by_cases h : e.player.hp ≤ 0
  · rw [if_pos h]
    exact ⟨le_refl 0, hmax, fun _ => rfl, ha0, ha1⟩
  · rw [if_neg h]
    have hpos : 0 < e.player.hp := lt_of_not_le h
    exact ⟨le_of_lt hpos, hle, fun h0 => absurd h0 (ne_of_gt hpos), ha0, ha1⟩

theorem applyTelegraphDamage_hpOk (M : MathOracle) (rs : RS) (e : Engine)
    (incoming armorFactor : ℚ) (hinc : 0 ≤ incoming)
    (h0 : 0 ≤ armorFactor) (h1 : armorFactor ≤ 1) (h : hpOk e) :
    hpOk (e.applyTelegraphDamageToPlayer M rs incoming armorFactor) := by
  obtain ⟨hhp0, hple, hg, ha0, ha1⟩ := h
  have hpr : e.player.armor * armorFactor ≤ e.player.armor := by nlinarith
  have hred : 0 ≤ incoming * (1 - e.player.armor * armorFactor) :=
    mul_nonneg hinc (by linarith)
  simp only [Engine.applyTelegraphDamageToPlayer]
  refine checkPlayerDeath_hpOk _ ?_ ?_ ?_ ?_ <;>
    simp [emitBurst_core] <;> linarith

theorem resolveCircle_hpOk (M : MathOracle) (rs : RS) (e : Engine) (t : BossTelegraph)
    (hrs : RSok rs) (htd : 0 ≤ t.damage) (h : hpOk e) :
    hpOk (e.resolveCircleTelegraphHit M rs t) := by
  simp only [Engine.resolveCircleTelegraphHit]
  split
  · exact h
  · refine applyTelegraphDamage_hpOk M (rsub rs 1) e _ _ ?_ (by norm_num) (by norm_num) h
    exact mul_nonneg htd (randomRange_nonneg (hrs 0).1 (by norm_num) (by norm_num))

theorem resolveCone_hpOk (M : MathOracle) (rs : RS) (e : Engine) (t : BossTelegraph)
    (hrs : RSok rs) (htd : 0 ≤ t.damage) (h : hpOk e) :
    hpOk (e.resolveConeTelegraphHit M rs t) := by
  simp only [Engine.resolveConeTelegraphHit]
  split
  · exact h
  · split
    · exact h
    · refine applyTelegraphDamage_hpOk M (rsub rs 1) e _ _ ?_ (by norm_num) (by norm_num) h
      exact mul_nonneg htd (randomRange_nonneg (hrs 0).1 (by norm_num) (by norm_num))

theorem resolveLine_hpOk (M : MathOracle) (rs : RS) (e : Engine) (t : BossTelegraph)
    (hrs : RSok rs) (htd : 0 ≤ t.damage) (h : hpOk e) :
    hpOk (e.resolveLineTelegraphHit M rs t) := by
  simp only [Engine.resolveLineTelegraphHit]
  split
  · exact h
  · split
    · exact h
    · refine applyTelegraphDamage_hpOk M (rsub rs 1) e _ _ ?_ (by norm_num) (by norm_num) h
      exact mul_nonneg htd (randomRange_nonneg (hrs 0).1 (by norm_num) (by norm_num))

set_option maxHeartbeats 1000000 in
theorem resolveBossTelegraph_hpOk (M : MathOracle) (rs : RS) (e : Engine)
    (t : BossTelegraph) (hrs : RSok rs) (htd : 0 ≤ t.damage) (h : hpOk e) :
    hpOk (e.resolveBossTelegraph M rs t) := by
  simp only [Engine.resolveBossTelegraph]
  split
  · split
    · exact h
    · exact resolveLine_hpOk M (rsub rs 2) _ t (RSok_rsub hrs 2) htd
        (hpOk_transfer (by simp [Engine.nextId, emitBurst_core])
          (by simp [Engine.nextId, emitBurst_core]) h)
  · split
    · exact resolveCone_hpOk M (rsub rs 2) _ t (RSok_rsub hrs 2) htd
        (hpOk_transfer (by simp [Engine.nextId, emitBurst_core])
          (by simp [Engine.nextId, emitBurst_core]) h)
    · exact resolveCircle_hpOk M (rsub rs 2) _ t (RSok_rsub hrs 2) htd
        (hpOk_transfer (by simp [Engine.nextId, emitBurst_core])
          (by simp [Engine.nextId, emitBurst_core]) h)

theorem telegraphLoop_hpOk (M : MathOracle) (rs : RS) (dt : ℚ) :
    ∀ (ts : List BossTelegraph) (i : ℕ) (e : Engine) (pending : List BossTelegraph),
    RSok rs → (∀ t ∈ ts, 0 ≤ t.damage) → hpOk e →
    hpOk (telegraphLoop M rs dt ts i e pending).1
  | [], i, e, pending => by
    intro _ _ h
    simpa [telegraphLoop] using h
  | t :: rest, i, e, pending => by
    intro hrs hts h
    have ih := telegraphLoop_hpOk M rs dt rest (i + 1)
    simp only [telegraphLoop]
    split
    · exact ih _ _ hrs (fun u hu => hts u (by simp [hu])) h
    · exact ih _ _ hrs (fun u hu => hts u (by simp [hu]))
        (resolveBossTelegraph_hpOk M (rsub rs i) e _ (RSok_rsub hrs i) (hts t (by simp)) h)

theorem updateBossTelegraphs_hpOk (M : MathOracle) (rs : RS) (e : Engine) (dt : ℚ)
    (hrs : RSok rs) (h : hpOk e) (hm : monstersDmgOk e) (ht : telsDmgOk e) :
    hpOk (e.updateBossTelegraphs M rs dt) := by
  have hc := bossAttackPhase_core M (rsub rs 0) e dt
  have h2 : hpOk (e.bossAttackPhase M (rsub rs 0) dt) := hpOk_transfer hc.1 hc.2.1 h
  have ht2 : telsDmgOk (e.bossAttackPhase M (rsub rs 0) dt) :=
    bossAttackPhase_tels M (rsub rs 0) e dt hm ht
  simp only [Engine.updateBossTelegraphs]
  split
  · exact h2
  · exact hpOk_transfer rfl rfl
      (telegraphLoop_hpOk M (rsub rs 1) dt _ 0 _ [] (RSok_rsub hrs 1) ht2 h2)

theorem monsterLoop_hpOk (M : MathOracle) (rs : RS) (dt : ℚ) :
    ∀ (ms : List Monster) (i : ℕ) (e : Engine) (out : List Monster),
    RSok rs → (∀ m ∈ ms, 0 ≤ m.damage) → hpOk e →
    hpOk (monsterLoop M rs dt ms i e out).1
  | [], i, e, out => by
    intro _ _ h
    simpa [monsterLoop] using h
  | monster :: rest, i, e, out => by
    intro hrs hms h
    have ih := monsterLoop_hpOk M rs dt rest (i + 1)
    simp only [monsterLoop]
    split
    · exact ih _ _ hrs (fun m hm => hms m (by simp [hm])) h
    · split
      · exact ih _ _ hrs (fun m hm => hms m (by simp [hm])) h
      · split
        · exact ih _ _ hrs (fun m hm => hms m (by simp [hm])) h
        · refine ih _ _ hrs (fun m hm => hms m (by simp [hm])) ?_
          obtain ⟨hhp0, hple, hg, ha0, ha1⟩ := h
          have hmd : 0 ≤ monster.damage := hms monster (by simp)
          have hu : (0 : ℚ) ≤ rsub rs i 0 := (hrs (Nat.pair i 0)).1
          have hinc : 0 ≤ monster.damage * randomRange (rsub rs i 0) 0.9 1.08 :=
            mul_nonneg hmd (randomRange_nonneg hu (by norm_num) (by norm_num))
          have hred :
              0 ≤ monster.damage * randomRange (rsub rs i 0) 0.9 1.08 *
                (1 - e.player.armor) :=
            mul_nonneg hinc (by linarith)
          refine checkPlayerDeath_hpOk _ ?_ ?_ ?_ ?_ <;>
            simp [emitBurst_core] <;> linarith

theorem updateMonsters_hpOk (M : MathOracle) (rs : RS) (e : Engine) (dt : ℚ)
    (hrs : RSok rs) (h : hpOk e) (hm : monstersDmgOk e) :
    hpOk (e.updateMonsters M rs dt) := by
  unfold Engine.updateMonsters
  exact hpOk_transfer rfl rfl (monsterLoop_hpOk M rs dt e.monsters 0 e [] hrs hm h)

theorem hpOk_fields {e1 e2 : Engine} (h1 : e1.player.hp = e2.player.hp)
    (h2 : e1.player.maxHp = e2.player.maxHp) (h3 : e1.player.armor = e2.player.armor)
    (hg : e1.gameOver = e2.gameOver) (h : hpOk e2) : hpOk e1 := by
  unfold hpOk at h ⊢
  rw [h1, h2, h3, hg]
  exact h

theorem monstersDmgOk_fields {e1 e2 : Engine}
    (h : e1.monsters.map Monster.damage = e2.monsters.map Monster.damage)
    (hd : monstersDmgOk e2) : monstersDmgOk e1 := by
  have hd2 : ∀ d ∈ e2.monsters.map Monster.damage, 0 ≤ d := by
    simpa [List.forall_mem_map] using hd
  have hd1 : ∀ d ∈ e1.monsters.map Monster.damage, 0 ≤ d := h ▸ hd2
  simpa [List.forall_mem_map] using hd1

theorem telsDmgOk_fields {e1 e2 : Engine}
    (h : ∀ t ∈ e1.bossTelegraphs, t ∈ e2.bossTelegraphs)
    (hd : telsDmgOk e2) : telsDmgOk e1 :=
  fun t ht => hd t (h t ht)

theorem invC3_fields {e1 e2 : Engine} (hm : e1.monsters.length ≤ e2.monsters.length)
    (hs : e1.stageIndex = e2.stageIndex)
    (hb : e1.bossSpawned = false → e2.bossSpawned = false)
    (h : invC3 e2) : invC3 e1 := by
  obtain ⟨h1, h2⟩ := h
  refine ⟨?_, ?_⟩
  · intro hb1
    rw [hs]
    exact le_trans hm (h1 (hb hb1))
  · rw [hs]
    exact le_trans hm h2

theorem minHeal_hpOk (hp maxHp : ℚ) (h0 : 0 ≤ hp) (hle : hp ≤ maxHp) :
    0 ≤ min maxHp (hp + maxHp * 0.24) ∧ min maxHp (hp + maxHp * 0.24) ≤ maxHp ∧
    (min maxHp (hp + maxHp * 0.24) = 0 → hp = 0) := by
  have hmax : 0 ≤ maxHp := le_trans h0 hle
  refine ⟨le_min hmax (by linarith), min_le_left _ _, ?_⟩
  intro h
  rcases min_choice maxHp (hp + maxHp * 0.24) with hc | hc <;> rw [hc] at h <;> linarith

theorem advance_core (M : MathOracle) (rs : RS) (e : Engine) :
    (e.advanceToNextStage M rs).2 = e ∨
    ((e.advanceToNextStage M rs).2.player.maxHp = e.player.maxHp ∧
     (e.advanceToNextStage M rs).2.player.armor = e.player.armor ∧
     (e.advanceToNextStage M rs).2.player.hp =
       min e.player.maxHp (e.player.hp + e.player.maxHp * 0.24) ∧
     (e.advanceToNextStage M rs).2.gameOver = e.gameOver ∧
     (e.advanceToNextStage M rs).2.monsters = [] ∧
     (e.advanceToNextStage M rs).2.bossTelegraphs = [] ∧
     (e.advanceToNextStage M rs).2.gems = [] ∧
     (e.advanceToNextStage M rs).2.bossSpawned = false) := by
  simp only [Engine.advanceToNextStage]
  split
  · exact Or.inl rfl
  · right
    simp [emitBurst_core]

theorem advance_inv (M : MathOracle) (rs : RS) (e : Engine)
    (h2 : invC2 e) (h3 : invC3 e) :
    invC2 (e.advanceToNextStage M rs).2 ∧ invC3 (e.advanceToNextStage M rs).2 := by
  obtain ⟨⟨hhp0, hple, hg, ha0, ha1⟩, hm, ht⟩ := h2
  have hmh := minHeal_hpOk e.player.hp e.player.maxHp hhp0 hple
  rcases advance_core M rs e with h | ⟨hmax, harm, hhp, hgo, hmon, htel, -, hbs⟩
  · rw [h]
    exact ⟨⟨⟨hhp0, hple, hg, ha0, ha1⟩, hm, ht⟩, h3⟩
  · constructor
    · refine ⟨⟨?v1, ?v2, ?v3, ?v4, ?v5⟩, ?v6, ?v7⟩
      · rw [hhp]
        exact hmh.1
      · rw [hhp, hmax]
        exact hmh.2.1
      · intro h0
        rw [hhp] at h0
        rw [hgo]
        exact hg (hmh.2.2 h0)
      · rw [harm]
        exact ha0
      · rw [harm]
        exact ha1
      · intro m hmem
        rw [hmon] at hmem
        cases hmem
      · intro t htm
        rw [htel] at htm
        cases htm
    · refine ⟨?_, ?_⟩ <;> rw [hmon] <;> simp

theorem stageClearTransition_inv (M : MathOracle) (rs : RS) (e : Engine) (dt : ℚ)
    (h2 : invC2 e) (h3 : invC3 e) :
    invC2 (e.updateStageClearTransition M rs dt) ∧
    invC3 (e.updateStageClearTransition M rs dt) := by
  simp only [Engine.updateStageClearTransition]
  split
  · exact ⟨h2, h3⟩
  · have h2b : invC2 { e with stageClearDelay := max 0 (e.stageClearDelay - dt) } := by
      obtain ⟨hhp, hm, ht⟩ := h2
      exact ⟨hpOk_fields rfl rfl rfl rfl hhp,
        monstersDmgOk_fields rfl hm, telsDmgOk_fields (fun t htm => htm) ht⟩
    have h3b : invC3 { e with stageClearDelay := max 0 (e.stageClearDelay - dt) } :=
      invC3_fields (le_refl _) rfl (fun hb => hb) h3
    split
    · exact ⟨h2b, h3b⟩
    · exact advance_inv M rs _ h2b h3b

theorem applyStatUpgrade_facts (e : Engine) (t : UpgradeType) :
    e.player.hp ≤ (e.applyStatUpgrade t).player.hp ∧
    e.player.maxHp ≤ (e.applyStatUpgrade t).player.maxHp ∧
    (0 ≤ e.player.armor → 0 ≤ (e.applyStatUpgrade t).player.armor) ∧
    (0 ≤ e.player.armor → e.player.armor ≤ 0.75 →
      (e.applyStatUpgrade t).player.armor ≤ 0.75) ∧
    (e.applyStatUpgrade t).gameOver = e.gameOver ∧
    (e.applyStatUpgrade t).monsters = e.monsters ∧
    (e.applyStatUpgrade t).bossTelegraphs = e.bossTelegraphs ∧
    (e.applyStatUpgrade t).stageIndex = e.stageIndex ∧
    (e.applyStatUpgrade t).bossSpawned = e.bossSpawned := by
  cases t <;>
    ((repeat' apply And.intro) <;>
      simp only [Engine.applyStatUpgrade] <;>
      (try split) <;>
      simp <;>
      (try intro h1) <;>
      (try intro h2) <;>
      first
        | linarith
        | (constructor <;> linarith)
        | exact inf_le_left)

theorem applySkillUpgrade_core (e : Engine) (s : SkillId) :
    (e.applySkillUpgrade s).player = e.player ∧
    (e.applySkillUpgrade s).gameOver = e.gameOver ∧
    (e.applySkillUpgrade s).monsters = e.monsters ∧
    (e.applySkillUpgrade s).bossTelegraphs = e.bossTelegraphs ∧
    (e.applySkillUpgrade s).stageIndex = e.stageIndex ∧
    (e.applySkillUpgrade s).bossSpawned = e.bossSpawned := by
  cases s <;> simp [Engine.applySkillUpgrade]

theorem clampHp_ok (hp hp2 maxHp maxHp2 : ℚ) (h0 : 0 ≤ hp) (hle : hp ≤ maxHp)
    (hhp : hp ≤ hp2) (hmx : maxHp ≤ maxHp2) :
    0 ≤ clampQ hp2 0 maxHp2 ∧ clampQ hp2 0 maxHp2 ≤ maxHp2 ∧
    (clampQ hp2 0 maxHp2 = 0 → hp = 0) := by
  have hmax2 : 0 ≤ maxHp2 := le_trans (le_trans h0 hle) hmx
  unfold clampQ
  refine ⟨le_max_left _ _, max_le hmax2 (min_le_left _ _), ?_⟩
  intro h
  have hminle : Min.min maxHp2 hp2 ≤ 0 := by
    by_contra hc
    push_neg at hc
    rw [max_eq_right (le_of_lt hc)] at h
    linarith
  rcases min_choice maxHp2 hp2 with hc | hc <;> rw [hc] at hminle <;> linarith

theorem applyUpgrade_inv (e : Engine) (t : UpgradeType) (rs : RS)
    (h2 : invC2 e) (h3 : invC3 e) :
    invC2 (e.applyUpgrade t rs) ∧ invC3 (e.applyUpgrade t rs) := by
  obtain ⟨⟨hhp0, hple, hg, ha0, ha1⟩, hm, ht⟩ := h2
  simp only [Engine.applyUpgrade]
  split
  · exact ⟨⟨⟨hhp0, hple, hg, ha0, ha1⟩, hm, ht⟩, h3⟩
  · cases hmap : SKILL_UPGRADE_MAP t with
    | some skill =>
      obtain ⟨hpl, hgo, hmon, htel, hsi, hbs⟩ := applySkillUpgrade_core e skill
      have hc := clampHp_ok e.player.hp (e.applySkillUpgrade skill).player.hp
        e.player.maxHp (e.applySkillUpgrade skill).player.maxHp hhp0 hple
        (le_of_eq (by rw [hpl])) (le_of_eq (by rw [hpl]))
      split <;>
        exact ⟨⟨⟨hc.1, hc.2.1,
          fun h0 => show (e.applySkillUpgrade skill).gameOver = true by
            rw [hgo]
            exact hg (hc.2.2 h0),
          show (0 : ℚ) ≤ (e.applySkillUpgrade skill).player.armor by
            rw [hpl]
            exact ha0,
          show (e.applySkillUpgrade skill).player.armor ≤ 0.75 by
            rw [hpl]
            exact ha1⟩,
          fun m hmem => hm m (show m ∈ e.monsters by rw [← hmon]; exact hmem),
          fun u hu => ht u (show u ∈ e.bossTelegraphs by rw [← htel]; exact hu)⟩,
          fun hb => show (e.applySkillUpgrade skill).monsters.length ≤
              monsterCap (e.applySkillUpgrade skill).stageIndex by
            rw [hmon, hsi]
            exact h3.1 (show e.bossSpawned = false by rw [← hbs]; exact hb),
          show (e.applySkillUpgrade skill).monsters.length ≤
              monsterCap (e.applySkillUpgrade skill).stageIndex + 1 by
            rw [hmon, hsi]
            exact h3.2⟩
    | none =>
      obtain ⟨hhp2, hmx2, harm0, harm1, hgo, hmon, htel, hsi, hbs⟩ :=
        applyStatUpgrade_facts e t
      have hc := clampHp_ok e.player.hp (e.applyStatUpgrade t).player.hp
        e.player.maxHp (e.applyStatUpgrade t).player.maxHp hhp0 hple hhp2 hmx2
      split <;>
        exact ⟨⟨⟨hc.1, hc.2.1,
          fun h0 => show (e.applyStatUpgrade t).gameOver = true by
            rw [hgo]
            exact hg (hc.2.2 h0),
          harm0 ha0,
          harm1 ha0 ha1⟩,
          fun m hmem => hm m (show m ∈ e.monsters by rw [← hmon]; exact hmem),
          fun u hu => ht u (show u ∈ e.bossTelegraphs by rw [← htel]; exact hu)⟩,
          fun hb => show (e.applyStatUpgrade t).monsters.length ≤
              monsterCap (e.applyStatUpgrade t).stageIndex by
            rw [hmon, hsi]
            exact h3.1 (show e.bossSpawned = false by rw [← hbs]; exact hb),
          show (e.applyStatUpgrade t).monsters.length ≤
              monsterCap (e.applyStatUpgrade t).stageIndex + 1 by
            rw [hmon, hsi]
            exact h3.2⟩

theorem updateStage_invC3 (M : MathOracle) (rs : RS) (e : Engine) (dt : ℚ)
    (h3 : invC3 e) : invC3 (e.updateStage M rs dt) := by
  obtain ⟨h1, h2⟩ := h3
  simp only [Engine.updateStage]
  split
  · rename_i hbs
    have hbs' : e.bossSpawned = false := by simpa using hbs
    have h1' := h1 hbs'
    split
    · split
      · rename_i hc
        exact absurd hc.2 (by simp [spawnBoss_core])
      · constructor
        · intro habs
          exact absurd habs (by simp [spawnBoss_core])
        · simp only [spawnBoss_core, monsterCap] at h1' ⊢
          simp [spawnBoss_core]
          omega
    · split
      · rename_i hc
        split
        · rename_i hlt
          constructor
          · intro _
            simp [spawnMonster_core, monsterCap] at hlt ⊢
            omega
          · simp [spawnMonster_core, monsterCap] at hlt ⊢
            omega
        · constructor
          · intro _
            exact h1'
          · exact h2
      · constructor
        · intro _
          exact h1'
        · exact h2
  · rename_i hbs
    have hbs' : e.bossSpawned = true := by simpa using hbs
    split
    · rename_i hc
      exact absurd hc.2 (by simp [hbs'])
    · constructor
      · intro habs
        exact h1 habs
      · exact h2

theorem deathLoop_tels (M : MathOracle) (rs : RS) :
    ∀ (ms : List Monster) (i : ℕ) (e : Engine) (surv : List Monster) (bd : Bool) (rk : ℕ),
    ∀ t ∈ (deathLoop M rs ms i e surv bd rk).1.bossTelegraphs, t ∈ e.bossTelegraphs
  | [], i, e, surv, bd, rk => by simp [deathLoop]
  | monster :: rest, i, e, surv, bd, rk => by
    have ih := deathLoop_tels M rs rest (i + 1)
    simp only [deathLoop]
    split
    · intro t htm
      exact ih _ _ _ _ t htm
    · split
      · intro t htm
        have h0 := ih _ _ _ _ t htm
        simp [emitBurst_core] at h0
      · split
        · split
          · intro t htm
            have h0 := ih _ _ _ _ t htm
            exact h0
          · intro t htm
            have h0 := ih _ _ _ _ t htm
            exact h0
        · intro t htm
          have h0 := ih _ _ _ _ t htm
          exact h0

theorem processDeaths_fields (M : MathOracle) (rs : RS) (e : Engine) :
    (∀ m ∈ (e.processDeathsAndProgression M rs).monsters, m ∈ e.monsters) ∧
    (e.processDeathsAndProgression M rs).monsters.length ≤ e.monsters.length ∧
    (∀ t ∈ (e.processDeathsAndProgression M rs).bossTelegraphs, t ∈ e.bossTelegraphs) ∧
    ((e.processDeathsAndProgression M rs).bossSpawned = false → e.bossSpawned = false) := by
  have hdl := deathLoop_core M (rsub rs 0) e.monsters 0 e [] false 0
  have htl := deathLoop_tels M (rsub rs 0) e.monsters 0 e [] false 0
  obtain ⟨-, _, -, _, -, _, hbsd, -, _, -, _, -, _, -, hsu⟩ := hdl
  simp only [Engine.processDeathsAndProgression]
  split <;> split <;> (try split) <;> (repeat' apply And.intro) <;>
    first
      | (intro m hm
         simp only [hsu] at hm
         simp [collectAllStageGems_core, List.mem_filter] at hm
         first
           | exact hm.1
           | exact hm
         )
      | (simp only [hsu]
         simp [collectAllStageGems_core]
         first
           | exact List.length_filter_le _ _
           | exact Nat.zero_le _
         )
      | (intro t htm
         refine htl t ?_
         simp [collectAllStageGems_core] at htm ⊢
         exact htm
         )
      | (intro hb
         simp [collectAllStageGems_core, hbsd] at hb
         exact hb
         )
      | (intro t htm
         simp [collectAllStageGems_core] at htm
         )
      | (intro hb
         simp [collectAllStageGems_core] at hb
         )
      | (simp [collectAllStageGems_core]
         done)

theorem invC2_transfer {e1 e2 : Engine} (hp : e1.player = e2.player)
    (hg : e1.gameOver = e2.gameOver) (hmm : e1.monsters = e2.monsters)
    (htt : e1.bossTelegraphs = e2.bossTelegraphs) (h : invC2 e2) : invC2 e1 := by
  obtain ⟨hhp, hm, ht⟩ := h
  refine ⟨hpOk_transfer hp hg hhp, ?_, ?_⟩
  · intro m hm2
    exact hm m (hmm ▸ hm2)
  · intro t ht2
    exact ht t (htt ▸ ht2)

theorem invC3_transfer {e1 e2 : Engine} (hmm : e1.monsters = e2.monsters)
    (hs : e1.stageIndex = e2.stageIndex) (hb : e1.bossSpawned = e2.bossSpawned)
    (h : invC3 e2) : invC3 e1 :=
  invC3_fields (le_of_eq (congrArg List.length hmm)) hs (fun h0 => hb ▸ h0) h

theorem processDeaths_inv (M : MathOracle) (rs : RS) (e : Engine)
    (h2 : invC2 e) (h3 : invC3 e) :
    invC2 (e.processDeathsAndProgression M rs) ∧
    invC3 (e.processDeathsAndProgression M rs) := by
  obtain ⟨hhp, hm, ht⟩ := h2
  obtain ⟨hmem, hlen, htels, hbs⟩ := processDeaths_fields M rs e
  have hc := processDeaths_core M rs e
  refine ⟨⟨?q1, ?q2, ?q3⟩, ?q4⟩
  · exact hpOk_fields hc.1 hc.2.1 hc.2.2.1 hc.2.2.2.1 hhp
  · exact fun m hmm => hm m (hmem m hmm)
  · exact fun t htm => ht t (htels t htm)
  · exact invC3_fields hlen hc.2.2.2.2.1 hbs h3

theorem updatePlayer_inv (M : MathOracle) (e : Engine) (dt : ℚ)
    (h2 : invC2 e) (h3 : invC3 e) :
    invC2 (e.updatePlayer M dt) ∧ invC3 (e.updatePlayer M dt) := by
  obtain ⟨h1, hmx, har, hgo, -, h6, -, -, h9, h10, -, h12, -, _, -, _, -, _, -, _, -⟩ :=
    updatePlayer_core M e dt
  obtain ⟨hhp, hm, ht⟩ := h2
  refine ⟨⟨hpOk_fields h1 hmx har hgo hhp, ?_, ?_⟩, invC3_transfer h6 h10 h12 h3⟩
  · exact fun m hm2 => hm m (h6 ▸ hm2)
  · exact fun t ht2 => ht t (h9 ▸ ht2)

theorem updateStage_inv (M : MathOracle) (rs : RS) (e : Engine) (dt : ℚ)
    (h2 : invC2 e) (h3 : invC3 e) :
    invC2 (e.updateStage M rs dt) ∧ invC3 (e.updateStage M rs dt) := by
  obtain ⟨h1, hgo, -, _, -, h6, -, _, -, _, -, _, -, _, -, hdmg⟩ :=
    updateStage_core M rs e dt
  obtain ⟨hhp, hm, ht⟩ := h2
  refine ⟨⟨hpOk_transfer h1 hgo hhp, hdmg hm, ?_⟩, updateStage_invC3 M rs e dt h3⟩
  · exact fun t ht2 => ht t (h6 ▸ ht2)

theorem updateAttacks_inv (M : MathOracle) (rs : RS) (e : Engine) (dt : ℚ)
    (h2 : invC2 e) (h3 : invC3 e) :
    invC2 (e.updateAttacks M rs dt) ∧ invC3 (e.updateAttacks M rs dt) := by
  obtain ⟨h1, hmx, har, hgo, -, h6, -, h8, h9, -, h11, -, _, -, _, -, _, -, _, -⟩ :=
    updateAttacks_core M rs e dt
  obtain ⟨hhp, hm, ht⟩ := h2
  refine ⟨⟨hpOk_fields h1 hmx har hgo hhp, ?_, ?_⟩, invC3_transfer h6 h9 h11 h3⟩
  · exact fun m hm2 => hm m (h6 ▸ hm2)
  · exact fun t ht2 => ht t (h8 ▸ ht2)

theorem updateSkills_inv (M : MathOracle) (rs : RS) (e : Engine) (dt : ℚ)
    (h2 : invC2 e) (h3 : invC3 e) :
    invC2 (e.updateSkills M rs dt) ∧ invC3 (e.updateSkills M rs dt) := by
  obtain ⟨h1, hgo, -, _, -, h6, h7, -, h9, -, _, -, _, -, _, -, _, -, h19, h20⟩ :=
    updateSkills_core M rs e dt
  obtain ⟨hhp, hm, ht⟩ := h2
  refine ⟨⟨hpOk_transfer h1 hgo hhp, monstersDmgOk_fields h20 hm, ?_⟩,
    invC3_fields (le_of_eq h19) h7 (fun h0 => h9 ▸ h0) h3⟩
  · exact fun t ht2 => ht t (h6 ▸ ht2)

theorem updateBossTelegraphs_inv (M : MathOracle) (rs : RS) (e : Engine) (dt : ℚ)
    (hrs : RSok rs) (h2 : invC2 e) (h3 : invC3 e) :
    invC2 (e.updateBossTelegraphs M rs dt) ∧ invC3 (e.updateBossTelegraphs M rs dt) := by
  obtain ⟨hhp, hm, ht⟩ := h2
  obtain ⟨-, _, -, h4, -, -, h7, -, h9, -, _, -, _, -, _, -, _⟩ :=
    updateBossTelegraphs_core M rs e dt
  refine ⟨⟨updateBossTelegraphs_hpOk M rs e dt hrs hhp hm ht, ?_,
    updateBossTelegraphs_tels M rs e dt hm ht⟩,
    invC3_transfer h4 h7 h9 h3⟩
  · exact fun m hm2 => hm m (h4 ▸ hm2)

theorem updateProjectiles_inv (M : MathOracle) (rs : RS) (e : Engine) (dt : ℚ)
    (h2 : invC2 e) (h3 : invC3 e) :
    invC2 (e.updateProjectiles M rs dt) ∧ invC3 (e.updateProjectiles M rs dt) := by
  obtain ⟨h1, hgo, -, -, h5, h6, -, h8, -, _, -, _, -, _, -, _, -, hlen, hmap, -, -⟩ :=
    updateProjectiles_core M rs e dt
  obtain ⟨hhp, hm, ht⟩ := h2
  refine ⟨⟨hpOk_transfer h1 hgo hhp, monstersDmgOk_fields hmap hm, ?_⟩,
    invC3_fields (le_of_eq hlen) h6 (fun h0 => h8 ▸ h0) h3⟩
  · exact fun t ht2 => ht t (h5 ▸ ht2)

theorem updateMonsters_inv (M : MathOracle) (rs : RS) (e : Engine) (dt : ℚ)
    (hrs : RSok rs) (h2 : invC2 e) (h3 : invC3 e) :
    invC2 (e.updateMonsters M rs dt) ∧ invC3 (e.updateMonsters M rs dt) := by
  obtain ⟨hhp, hm, ht⟩ := h2
  obtain ⟨-, -, h3t, h4, -, h6, -, _, -, _, -, _, -, _, -, _, -, h18, h19⟩ :=
    updateMonsters_core M rs e dt
  refine ⟨⟨updateMonsters_hpOk M rs e dt hrs hhp hm, monstersDmgOk_fields h19 hm, ?_⟩,
    invC3_fields (le_of_eq h18) h4 (fun h0 => h6 ▸ h0) h3⟩
  · exact fun t ht2 => ht t (h3t ▸ ht2)

theorem updateGems_inv (M : MathOracle) (rs : RS) (e : Engine) (dt : ℚ)
    (h2 : invC2 e) (h3 : invC3 e) :
    invC2 (e.updateGems M rs dt) ∧ invC3 (e.updateGems M rs dt) := by
  obtain ⟨h1, hmx, har, hgo, -, h6, -, h8, h9, -, h11, -, _, -, _, -, _, -⟩ :=
    updateGems_core M rs e dt
  obtain ⟨hhp, hm, ht⟩ := h2
  refine ⟨⟨hpOk_fields h1 hmx har hgo hhp, ?_, ?_⟩, invC3_transfer h6 h9 h11 h3⟩
  · exact fun m hm2 => hm m (h6 ▸ hm2)
  · exact fun t ht2 => ht t (h8 ▸ ht2)

set_option maxHeartbeats 1000000 in
theorem update_inv (M : MathOracle) (rs : RS) (e : Engine)
    (delta vw vh : ℚ) (hrs : RSok rs) (h2 : invC2 e) (h3 : invC3 e) :
    invC2 (e.update M rs delta vw vh) ∧ invC3 (e.update M rs delta vw vh) := by
  simp only [Engine.update]
  split
  · exact ⟨h2, h3⟩
  · split
    · exact ⟨invC2_transfer (by simp) (by simp) (by simp) (by simp) h2,
        invC3_transfer (by simp) (by simp) (by simp) h3⟩
    · split
      · exact ⟨invC2_transfer (by simp) (by simp) (by simp) (by simp) h2,
          invC3_transfer (by simp) (by simp) (by simp) h3⟩
      · split
        · exact ⟨invC2_transfer (by simp) (by simp) (by simp) (by simp) h2,
            invC3_transfer (by simp) (by simp) (by simp) h3⟩
        · split
          · exact ⟨invC2_transfer (by simp) (by simp) (by simp) (by simp) h2,
              invC3_transfer (by simp) (by simp) (by simp) h3⟩
          · split
            · obtain ⟨h2a, h3a⟩ := stageClearTransition_inv M (rsub rs 9) e
                (clampQ delta 0 0.05) h2 h3
              exact ⟨invC2_transfer (by simp) (by simp) (by simp) (by simp) h2a,
                invC3_transfer (by simp) (by simp) (by simp) h3a⟩
            · obtain ⟨h2a, h3a⟩ := updatePlayer_inv M e (clampQ delta 0 0.05) h2 h3
              obtain ⟨h2b, h3b⟩ := updateStage_inv M (rsub rs 0) _
                (clampQ delta 0 0.05) h2a h3a
              obtain ⟨h2c, h3c⟩ := updateAttacks_inv M (rsub rs 1) _
                (clampQ delta 0 0.05) h2b h3b
              obtain ⟨h2d, h3d⟩ := updateSkills_inv M (rsub rs 2) _
                (clampQ delta 0 0.05) h2c h3c
              obtain ⟨h2e, h3e⟩ := updateBossTelegraphs_inv M (rsub rs 3) _
                (clampQ delta 0 0.05) (RSok_rsub hrs 3) h2d h3d
              obtain ⟨h2f, h3f⟩ := updateProjectiles_inv M (rsub rs 4) _
                (clampQ delta 0 0.05) h2e h3e
              obtain ⟨h2g, h3g⟩ := updateMonsters_inv M (rsub rs 5) _
                (clampQ delta 0 0.05) (RSok_rsub hrs 5) h2f h3f
              obtain ⟨h2h, h3h⟩ := updateGems_inv M (rsub rs 6) _
                (clampQ delta 0 0.05) h2g h3g
              obtain ⟨h2i, h3i⟩ := processDeaths_inv M (rsub rs 7) _ h2h h3h
              exact ⟨invC2_transfer (by simp) (by simp) (by simp) (by simp) h2i,
                invC3_transfer (by simp) (by simp) (by simp) h3i⟩

theorem togglePause_core (e : Engine) :
    (e.togglePause).2.player = e.player ∧
    (e.togglePause).2.gameOver = e.gameOver ∧
    (e.togglePause).2.monsters = e.monsters ∧
    (e.togglePause).2.bossTelegraphs = e.bossTelegraphs ∧
    (e.togglePause).2.stageIndex = e.stageIndex ∧
    (e.togglePause).2.bossSpawned = e.bossSpawned := by
  simp only [Engine.togglePause]
  repeat' split
  all_goals simp [Engine.clearInputs]

theorem setInputKey_core (e : Engine) (k : String) (b : Bool) :
    (e.setInputKey k b).player = e.player ∧
    (e.setInputKey k b).gameOver = e.gameOver ∧
    (e.setInputKey k b).monsters = e.monsters ∧
    (e.setInputKey k b).bossTelegraphs = e.bossTelegraphs ∧
    (e.setInputKey k b).stageIndex = e.stageIndex ∧
    (e.setInputKey k b).bossSpawned = e.bossSpawned := by
  simp only [Engine.setInputKey]
  repeat' split
  all_goals simp

theorem initEngine_inv (c : CharacterId) : invC2 (initEngine c) ∧ invC3 (initEngine c) := by
  cases c <;>
    (repeat' apply And.intro) <;>
      norm_num [initEngine, hpOk, monstersDmgOk, telsDmgOk, monsterCap,
        CHARACTER_CONFIGS, warriorConfig, mageConfig, archerConfig]

/-- The public operations of the engine: a tick with a valid random
history, an upgrade pick, the manual stage advance, the pause toggle, the
input setters and the audio drain. -/
inductive Step : Engine → Engine → Prop where
  | tick (M : MathOracle) (rs : RS) (delta vw vh : ℚ) {e : Engine} (h : RSok rs) :
      Step e (e.update M rs delta vw vh)
  | upgrade (t : UpgradeType) (rs : RS) {e : Engine} :
      Step e (e.applyUpgrade t rs)
  | advance (M : MathOracle) (rs : RS) {e : Engine} :
      Step e (e.advanceToNextStage M rs).2
  | pauseToggle {e : Engine} : Step e (e.togglePause).2
  | keyInput (k : String) (b : Bool) {e : Engine} : Step e (e.setInputKey k b)
  | touchInput (v : Option Vec2) {e : Engine} : Step e (e.setTouchVector v)
  | shakeScale (s : ℚ) {e : Engine} : Step e (e.setCameraShakeScale s)
  | audioDrain {e : Engine} : Step e e.consumeAudioEvents.2

/-- States reachable from a fresh session through the public interface. -/
def SessionReachable (c : CharacterId) (e : Engine) : Prop :=
  Relation.ReflTransGen Step (initEngine c) e

theorem step_inv {e1 e2 : Engine} (h : Step e1 e2) (h2 : invC2 e1) (h3 : invC3 e1) :
    invC2 e2 ∧ invC3 e2 := by
  cases h with
  | tick M rs delta vw vh hrs => exact update_inv M rs e1 delta vw vh hrs h2 h3
  | upgrade t rs => exact applyUpgrade_inv e1 t rs h2 h3
  | advance M rs => exact advance_inv M rs e1 h2 h3
  | pauseToggle =>
    obtain ⟨hp, hg, hm, ht, hs, hb⟩ := togglePause_core e1
    exact ⟨invC2_transfer hp hg hm ht h2, invC3_transfer hm hs hb h3⟩
  | keyInput k b =>
    obtain ⟨hp, hg, hm, ht, hs, hb⟩ := setInputKey_core e1 k b
    exact ⟨invC2_transfer hp hg hm ht h2, invC3_transfer hm hs hb h3⟩
  | touchInput v =>
    exact ⟨invC2_transfer rfl rfl rfl rfl h2, invC3_transfer rfl rfl rfl h3⟩
  | shakeScale s =>
    exact ⟨invC2_transfer rfl rfl rfl rfl h2, invC3_transfer rfl rfl rfl h3⟩
  | audioDrain =>
    simp only [Engine.consumeAudioEvents]
    split
    · exact ⟨h2, h3⟩
    · exact ⟨invC2_transfer rfl rfl rfl rfl h2, invC3_transfer rfl rfl rfl h3⟩

theorem reachable_inv {c : CharacterId} {e : Engine} (h : SessionReachable c e) :
    invC2 e ∧ invC3 e := by
  unfold SessionReachable at h
  induction h with
  | refl => exact initEngine_inv c
  | tail hr hs ih => exact step_inv hs ih.1 ih.2

theorem rs0_ok : RSok rs0 := by
  intro n
  refine ⟨le_refl 0, by norm_num [rs0]⟩

/-- C2: in every session state reachable through the public operations
(ticks with a valid Math.random history, upgrade picks, manual stage
advance, pause toggling, input setters, audio drain), the player hp
satisfies 0 ≤ hp ≤ maxHp, and hp = 0 forces the game-over flag. -/
theorem C2_player_hp_bounds {c : CharacterId} {e : Engine}
    (h : SessionReachable c e) :
    0 ≤ e.player.hp ∧ e.player.hp ≤ e.player.maxHp ∧
    (e.player.hp = 0 → e.gameOver = true) := by
  obtain ⟨⟨⟨h1, h2, h3, -, -⟩, -, -⟩, -⟩ := reachable_inv h
  exact ⟨h1, h2, h3⟩

/-- Witness for C2: the state after one full tick of a fresh warrior
session is reachable, and the theorem yields its hp bounds. -/
theorem C2_witness :
    SessionReachable .warrior
      ((initEngine .warrior).update zeroOracle rs0 0.05 800 600) ∧
    0 ≤ ((initEngine .warrior).update zeroOracle rs0 0.05 800 600).player.hp := by
  have hreach : SessionReachable .warrior
      ((initEngine .warrior).update zeroOracle rs0 0.05 800 600) :=
    Relation.ReflTransGen.single (Step.tick zeroOracle rs0 0.05 800 600 rs0_ok)
  exact ⟨hreach, (C2_player_hp_bounds hreach).1⟩

/-- C3 (amended): in every reachable session state the monster population
is at most the cap plus one, and while the boss has not been spawned it
respects the cap itself; the boss insertion ignores the cap check and is
the only way to exceed it. -/
theorem C3_monster_cap_amended {c : CharacterId} {e : Engine}
    (h : SessionReachable c e) :
    e.monsters.length ≤ monsterCap e.stageIndex + 1 ∧
    (e.bossSpawned = false → e.monsters.length ≤ monsterCap e.stageIndex) := by
  obtain ⟨-, hc, hlen⟩ := reachable_inv h
  exact ⟨hlen, hc⟩

/-- Witness for C3: the fresh warrior session is reachable and satisfies
the amended bound. -/
theorem C3_witness :
    SessionReachable .warrior (initEngine .warrior) ∧
    (initEngine .warrior).monsters.length ≤
      monsterCap (initEngine .warrior).stageIndex + 1 := by
  have hreach : SessionReachable .warrior (initEngine .warrior) :=
    Relation.ReflTransGen.refl
  exact ⟨hreach, (C3_monster_cap_amended hreach).1⟩

/-- Counterexample for C3 as stated: with the population exactly at the
stage-0 cap (180) and the stage timer expiring, the tick's stage update
spawns the boss without any cap check and leaves 181 monsters — the
insertion pushes the population past the bound. -/
theorem C3_counterexample :
    cexC3.monsters.length = monsterCap cexC3.stageIndex ∧
    (cexC3.updateStage zeroOracle rs0 0.05).monsters.length =
      monsterCap cexC3.stageIndex + 1 := by
  constructor
  · simp [cexC3, initEngine, monsterCap, MAX_MONSTERS_BASE, MAX_MONSTERS_PER_STAGE]
  · have hbs : (!cexC3.bossSpawned) = true := by simp [cexC3, initEngine]
    have htl : (0 : ℚ) ⊔ (cexC3.stageTimeLeft - 0.05) ≤ 0 := by
      simp [cexC3, initEngine]
      norm_num
    simp only [Engine.updateStage, hbs, if_true]
    norm_num [cexC3, initEngine, spawnBoss_core, monsterCap,
      MAX_MONSTERS_BASE, MAX_MONSTERS_PER_STAGE]

theorem gainExp_player (rs : RS) (e : Engine) (a : ℚ) :
    (Engine.gainExp rs e a).player =
      if a ≤ 0 then e.player
      else
        { e.player with
          exp := (levelLoop 24 (e.player.exp + a) e.player.expToNext e.player.level).1,
          expToNext :=
            (levelLoop 24 (e.player.exp + a) e.player.expToNext e.player.level).2.1,
          level :=
            (levelLoop 24 (e.player.exp + a) e.player.expToNext e.player.level).2.2.1 } := by
  unfold Engine.gainExp
  by_cases h : a ≤ 0
  · simp [h]
  · simp only [h, if_false]
    by_cases hl : (levelLoop 24 (e.player.exp + a) e.player.expToNext e.player.level).2.2.2 = 0
    · simp [hl]
    · by_cases hw : e.awaitingUpgrade <;> simp [hl, hw]

theorem deathLoop_bd (M : MathOracle) (rs : RS) :
    ∀ (ms : List Monster) (i : ℕ) (e : Engine) (surv : List Monster) (bd : Bool) (rk : ℕ),
    (deathLoop M rs ms i e surv bd rk).2.2.1 =
      (bd || ms.any (fun m => decide (m.hp ≤ 0) && m.isBoss))
  | [], i, e, surv, bd, rk => by simp [deathLoop]
  | monster :: rest, i, e, surv, bd, rk => by
    have ih := deathLoop_bd M rs rest (i + 1)
    simp only [deathLoop]
    split
    · rename_i halive
      have : decide (monster.hp ≤ 0) = false := by
        simp
        linarith
      simp [ih, this]
    · rename_i hdead
      have hd : decide (monster.hp ≤ 0) = true := by
        simp
        linarith
      split
      · rename_i hboss
        simp [ih, hd, hboss]
      · rename_i hnb
        have : monster.isBoss = false := by
          simpa using hnb
        split
        · split
          · simp [ih, hd, this]
          · simp [ih, hd, this]
        · simp [ih, hd, this]

theorem deathLoop_only_boss_gems (M : MathOracle) (rs : RS) :
    ∀ (ms : List Monster) (i : ℕ) (e : Engine) (surv : List Monster) (bd : Bool) (rk : ℕ),
    (∀ m ∈ ms, m.isBoss = false → m.hp > 0) →
    (deathLoop M rs ms i e surv bd rk).1.gems = e.gems
  | [], i, e, surv, bd, rk => by
    intro _
    simp [deathLoop]
  | monster :: rest, i, e, surv, bd, rk => by
    intro honly
    have ih := deathLoop_only_boss_gems M rs rest (i + 1)
    simp only [deathLoop]
    split
    · exact ih _ _ _ _ (fun m hm hb => honly m (by simp [hm]) hb)
    · rename_i hdead
      split
      · rename_i hboss
        rw [ih _ _ _ _ (fun m hm hb => honly m (by simp [hm]) hb)]
        simp [emitBurst_core]
      · rename_i hnb
        exfalso
        have hb : monster.isBoss = false := by simpa using hnb
        exact absurd (honly monster (by simp) hb) hdead

set_option maxHeartbeats 1000000 in
/-- C4: when the boss (and only the boss) is reduced to hp ≤ 0, the same
call to processDeathsAndProgression enters stage-clear-wait on a
non-final stage — stageClearReady set, the 2.8s grace delay armed, the
monster, projectile and telegraph collections emptied, the gem stash
collected into experience through the level pipeline, combo reset — while
on the final stage it sets victory directly and leaves stageClearReady
untouched; and once stageClearReady holds and the grace delay has run
out, updateStageClearTransition advances the stage index by one. -/
theorem C4_boss_death_progression (M : MathOracle) (rs : RS) (e : Engine)
    (hdead : ∃ m ∈ e.monsters, m.hp ≤ 0 ∧ m.isBoss = true)
    (honly : ∀ m ∈ e.monsters, m.isBoss = false → m.hp > 0) :
    (e.stageIndex < STAGES.length - 1 →
      (e.processDeathsAndProgression M rs).stageClearReady = true ∧
      (e.processDeathsAndProgression M rs).stageClearDelay = 2.8 ∧
      (e.processDeathsAndProgression M rs).monsters = [] ∧
      (e.processDeathsAndProgression M rs).projectiles = [] ∧
      (e.processDeathsAndProgression M rs).bossTelegraphs = [] ∧
      (e.processDeathsAndProgression M rs).gems = [] ∧
      (e.processDeathsAndProgression M rs).combo = 0 ∧
      (e.processDeathsAndProgression M rs).victory = e.victory ∧
      (e.processDeathsAndProgression M rs).stageIndex = e.stageIndex ∧
      (e.processDeathsAndProgression M rs).player =
        (if gemValueSum e.gems ≤ 0 then e.player
         else
           { e.player with
             exp := (levelLoop 24 (e.player.exp + gemValueSum e.gems)
               e.player.expToNext e.player.level).1,
             expToNext := (levelLoop 24 (e.player.exp + gemValueSum e.gems)
               e.player.expToNext e.player.level).2.1,
             level := (levelLoop 24 (e.player.exp + gemValueSum e.gems)
               e.player.expToNext e.player.level).2.2.1 })) ∧
    (STAGES.length - 1 ≤ e.stageIndex →
      (e.processDeathsAndProgression M rs).victory = true ∧
      (e.processDeathsAndProgression M rs).stageClearReady = e.stageClearReady ∧
      (e.processDeathsAndProgression M rs).gems = []) ∧
    (∀ (M2 : MathOracle) (rs2 : RS) (e2 : Engine) (dt : ℚ),
      e2.stageClearReady = true → e2.awaitingUpgrade = false →
      e2.pendingLevelUps = 0 → e2.gameOver = false → e2.victory = false →
      e2.stageIndex < STAGES.length - 1 → e2.stageClearDelay ≤ dt →
      (e2.updateStageClearTransition M2 rs2 dt).stageIndex = e2.stageIndex + 1) := by
  have hbd : (deathLoop M (rsub rs 0) e.monsters 0 e [] false 0).2.2.1 = true := by
    rw [deathLoop_bd]
    obtain ⟨m, hm, hhp, hb⟩ := hdead
    simp [List.any_eq_true]
    exact ⟨m, hm, hhp, hb⟩
  have hgems := deathLoop_only_boss_gems M (rsub rs 0) e.monsters 0 e [] false 0 honly
  have hdl := deathLoop_core M (rsub rs 0) e.monsters 0 e [] false 0
  obtain ⟨hpl, -, hvic, hprj, hsi, -, _, -, _, -, _, hscr, -, _, -⟩ := hdl
  refine ⟨?_, ?_, ?_⟩
  · intro hidx
    simp only [Engine.processDeathsAndProgression]
    rw [if_neg (by rw [hbd]; simp)]
    by_cases hrk : (deathLoop M (rsub rs 0) e.monsters 0 e [] false 0).2.2.2 > 0
    · rw [if_pos hrk]
      rw [if_neg (by simp [hsi]; omega)]
      refine ⟨by simp, by simp, by simp, ?_, by simp, ?_, by simp, ?_, ?_, ?_⟩ <;>
        simp only [Engine.collectAllStageGems] <;>
        split <;>
        simp_all [gainExp_player, gainExp_core, gemValueSum, emitBurst_core, List.length_eq_zero]
    · rw [if_neg hrk]
      rw [if_neg (by simp [hsi]; omega)]
      refine ⟨by simp, by simp, by simp, ?_, by simp, ?_, by simp, ?_, ?_, ?_⟩ <;>
        simp only [Engine.collectAllStageGems] <;>
        split <;>
        simp_all [gainExp_player, gainExp_core, gemValueSum, emitBurst_core, List.length_eq_zero]
  · intro hfin
    simp only [Engine.processDeathsAndProgression]
    rw [if_neg (by rw [hbd]; simp)]
    by_cases hrk : (deathLoop M (rsub rs 0) e.monsters 0 e [] false 0).2.2.2 > 0
    · rw [if_pos hrk]
      rw [if_pos (by simp [hsi]; omega)]
      refine ⟨by simp, ?_, ?_⟩ <;>
        simp only [Engine.collectAllStageGems] <;>
        split <;>
        simp_all [gainExp_player, gainExp_core, gemValueSum, emitBurst_core, List.length_eq_zero]
    · rw [if_neg hrk]
      rw [if_pos (by simp [hsi]; omega)]
      refine ⟨by simp, ?_, ?_⟩ <;>
        simp only [Engine.collectAllStageGems] <;>
        split <;>
        simp_all [gainExp_player, gainExp_core, gemValueSum, emitBurst_core, List.length_eq_zero]
  · intro M2 rs2 e2 dt h1 h2 h3 h4 h5 h6 h7
    have hlt : ¬(STAGES.length - 1 ≤ e2.stageIndex) := by omega
    have hd0 : (0 : ℚ) ⊔ (e2.stageClearDelay - dt) = 0 :=
      sup_eq_left.mpr (by linarith)
    simp only [Engine.updateStageClearTransition]
    rw [if_neg (by simp [h2, h4, h5, hlt])]
    rw [if_neg (by simp [hd0])]
    simp only [Engine.advanceToNextStage]
    rw [if_neg (by simp [h1, h2, h3, hlt])]
    simp [emitBurst_core]

/-- Witness for C4 on the dead-boss stage-0 state: the hypotheses hold and
the tick enters stage-clear-wait with the monsters swept. -/
theorem C4_witness :
    (∃ m ∈ cexC4.monsters, m.hp ≤ 0 ∧ m.isBoss = true) ∧
    (cexC4.processDeathsAndProgression zeroOracle rs0).stageClearReady = true ∧
    (cexC4.processDeathsAndProgression zeroOracle rs0).monsters = [] := by
  have hdead : ∃ m ∈ cexC4.monsters, m.hp ≤ 0 ∧ m.isBoss = true :=
    ⟨deadBossM, by simp [cexC4], by norm_num [deadBossM], rfl⟩
  have honly : ∀ m ∈ cexC4.monsters, m.isBoss = false → m.hp > 0 := by
    intro m hm hb
    simp [cexC4] at hm
    subst hm
    simp [deadBossM] at hb
  have h := (C4_boss_death_progression zeroOracle rs0 cexC4 hdead honly).1
    (by simp [cexC4, initEngine, STAGES])
  exact ⟨hdead, h.1, h.2.2.1⟩

theorem randIdx_lt (u : ℚ) {n : ℕ} (h : n ≠ 0) : randIdx u n < n := by
  unfold randIdx
  rw [if_neg h]
  exact Nat.mod_lt _ (Nat.pos_of_ne_zero h)

theorem list_set_getElem_self {α : Type} (l : List α) (n : ℕ) (h : n < l.length) :
    l.set n l[n] = l := by
  apply List.ext_getElem
  · simp
  · intro i h1 h2
    by_cases hi : i = n
    · subst hi
      simp [List.getElem_set]
    · simp [List.getElem_set, Ne.symm hi]

theorem list_sum_set (l : List ℚ) (i : ℕ) (a : ℚ) (h : i < l.length) :
    (l.set i a).sum = l.sum - l[i] + a := by
  induction l generalizing i with
  | nil => exact absurd h (by simp)
  | cons y ys ih =>
    rcases i with _ | n
    · simp [List.set]
      ring
    · simp only [List.set, List.sum_cons]
      rw [ih n (by simpa using h)]
      simp
      ring

theorem deathLoop_gems_bound (M : MathOracle) (rs : RS) :
    ∀ (ms : List Monster) (i : ℕ) (e : Engine) (surv : List Monster) (bd : Bool) (rk : ℕ),
    e.gems.length ≤ MAX_GEMS →
    (deathLoop M rs ms i e surv bd rk).1.gems.length ≤ MAX_GEMS
  | [], i, e, surv, bd, rk => by
    intro h
    simpa [deathLoop] using h
  | monster :: rest, i, e, surv, bd, rk => by
    intro h
    have ih := deathLoop_gems_bound M rs rest (i + 1)
    simp only [deathLoop]
    split
    · exact ih _ _ _ _ h
    · split
      · refine ih _ _ _ _ ?_
        simpa [emitBurst_core] using h
      · split
        · split
          · refine ih _ _ _ _ ?_
            simpa using h
          · exact ih _ _ _ _ h
        · rename_i hlt
          refine ih _ _ _ _ ?_
          simp only [Engine.nextId]
          simp
          simp at hlt
          omega

theorem processDeaths_gems (M : MathOracle) (rs : RS) (e : Engine)
    (h : e.gems.length ≤ MAX_GEMS) :
    (e.processDeathsAndProgression M rs).gems.length ≤ MAX_GEMS := by
  have hdb := deathLoop_gems_bound M (rsub rs 0) e.monsters 0 e [] false 0 h
  simp only [Engine.processDeathsAndProgression]
  split <;> split <;> (try split) <;>
    simp_all [collectAllStageGems_core]

theorem sct_gems (M : MathOracle) (rs : RS) (e : Engine) (dt : ℚ) :
    (e.updateStageClearTransition M rs dt).gems.length ≤ e.gems.length := by
  simp only [Engine.updateStageClearTransition]
  split
  · exact le_refl _
  · split
    · exact le_refl _
    · rcases advance_core M rs _ with hadv | ⟨-, _, -, _, -, _, hg, -⟩
      · rw [hadv]
      · rw [hg]
        simp

theorem applyStatUpgrade_gems (e : Engine) (t : UpgradeType) :
    (e.applyStatUpgrade t).gems = e.gems := by
  cases t <;> simp only [Engine.applyStatUpgrade] <;> (try split) <;> simp

theorem applyUpgrade_gems (e : Engine) (t : UpgradeType) (rs : RS) :
    (e.applyUpgrade t rs).gems = e.gems := by
  simp only [Engine.applyUpgrade]
  split
  · rfl
  · cases SKILL_UPGRADE_MAP t with
    | some skill =>
      split <;>
        simp [Engine.applySkillUpgrade] <;>
        (cases skill <;> simp [SkillLevels.set] <;> (repeat' split) <;> simp)
    | none =>
      split <;> simp [applyStatUpgrade_gems]

theorem togglePause_gems (e : Engine) : (e.togglePause).2.gems = e.gems := by
  simp only [Engine.togglePause]
  repeat' split
  all_goals simp [Engine.clearInputs]

theorem setInputKey_gems (e : Engine) (k : String) (b : Bool) :
    (e.setInputKey k b).gems = e.gems := by
  simp only [Engine.setInputKey]
  repeat' split
  all_goals simp

set_option maxHeartbeats 1000000 in
theorem update_gems_bound (M : MathOracle) (rs : RS) (e : Engine)
    (delta vw vh : ℚ) (h : e.gems.length ≤ MAX_GEMS) :
    (e.update M rs delta vw vh).gems.length ≤ MAX_GEMS := by
  simp only [Engine.update]
  split
  · exact h
  · split
    · simpa using h
    · split
      · simpa using h
      · split
        · simpa using h
        · split
          · simpa using h
          · split
            · refine le_trans ?_ (le_trans (sct_gems M (rsub rs 9) e
                (clampQ delta 0 0.05)) h)
              simp
            · have key : ∀ (X : Engine), X.gems.length ≤ MAX_GEMS →
                  (((X.processDeathsAndProgression M (rsub rs 7)).updateVisuals
                      (clampQ delta 0 0.05)).updateCamera M (rsub rs 10) vw vh
                      (clampQ delta 0 0.05)).gems.length ≤ MAX_GEMS := by
                intro X hX
                have h1 := processDeaths_gems M (rsub rs 7) X hX
                simpa using h1
              refine key _ ?_
              refine le_trans
                ((updateGems_core M (rsub rs 6) _ (clampQ delta 0 0.05)).2.right.2.right.2.right.2.right.2.right.2.right.2.right.2.right.2) ?_
              simp [updatePlayer_core, updateStage_core, updateAttacks_core,
                updateSkills_core, updateBossTelegraphs_core,
                updateProjectiles_core, updateMonsters_core]
              exact h

theorem reachable_gems {c : CharacterId} {e : Engine} (h : SessionReachable c e) :
    e.gems.length ≤ MAX_GEMS := by
  unfold SessionReachable at h
  induction h with
  | refl => simp [initEngine]
  | tail hr hs ih =>
    rename_i e1 e2
    cases hs with
    | tick M rs delta vw vh hrs => exact update_gems_bound M rs e1 delta vw vh ih
    | upgrade t rs =>
      rw [applyUpgrade_gems]
      exact ih
    | advance M rs =>
      rcases advance_core M rs e1 with hadv | ⟨-, _, -, _, -, _, hg, -⟩
      · rw [hadv]
        exact ih
      · rw [hg]
        simp
    | pauseToggle =>
      rw [togglePause_gems]
      exact ih
    | keyInput k b =>
      rw [setInputKey_gems]
      exact ih
    | touchInput v => exact ih
    | shakeScale s => exact ih
    | audioDrain =>
      simp only [Engine.consumeAudioEvents]
      split
      · exact ih
      · simpa using ih

set_option maxHeartbeats 1000000 in
/-- C6: the gem stash never exceeds MAX_GEMS in any reachable session
state, and a monster death processed while the stash is at (or beyond)
the cap creates no new gem entity: the gem count and the id list are
unchanged, and the dead monster's exp value is merged into one of the
existing gems, growing the total stash value by exactly expValue. -/
theorem C6_gem_cap_merge (M : MathOracle) (rs : RS) (e : Engine) (m : Monster)
    (i : ℕ) (surv : List Monster) (bd : Bool) (rk : ℕ)
    (hm : ¬m.hp > 0) (hb : m.isBoss = false) (hcap : e.gems.length ≥ MAX_GEMS) :
    (deathLoop M rs [m] i e surv bd rk).1.gems.length = e.gems.length ∧
    (deathLoop M rs [m] i e surv bd rk).1.gems.map Gem.id = e.gems.map Gem.id ∧
    gemValueSum (deathLoop M rs [m] i e surv bd rk).1.gems =
      gemValueSum e.gems + m.expValue ∧
    (∀ (c : CharacterId) (e2 : Engine), SessionReachable c e2 →
      e2.gems.length ≤ MAX_GEMS) := by
  have hne : e.gems.length ≠ 0 := by
    simp only [MAX_GEMS] at hcap
    omega
  have hlt : randIdx (rsub rs i 1) e.gems.length < e.gems.length := randIdx_lt _ hne
  simp only [deathLoop]
  rw [if_neg hm]
  rw [if_neg (by simp [hb])]
  split
  · split
    · rename_i merged heq
      have heq2 : merged = e.gems[randIdx (rsub rs i 1) e.gems.length] := by
        have hsome : e.gems.get? (randIdx (rsub rs i 1) e.gems.length) =
            some (e.gems[randIdx (rsub rs i 1) e.gems.length]) := by
          simp [List.get?_eq_getElem?, List.getElem?_eq_getElem hlt]
        rw [hsome] at heq
        exact (Option.some.inj heq).symm
      subst heq2
      refine ⟨by simp, ?_, ?_, ?_⟩
      · have hself := list_set_getElem_self (e.gems.map Gem.id)
          (randIdx (rsub rs i 1) e.gems.length) (by simpa using hlt)
        rw [List.getElem_map] at hself
        simpa [List.map_set] using hself
      · have hsum := list_sum_set (e.gems.map Gem.value)
          (randIdx (rsub rs i 1) e.gems.length)
          ((e.gems[randIdx (rsub rs i 1) e.gems.length]).value + m.expValue)
          (by simpa using hlt)
        rw [List.getElem_map] at hsum
        simp only [gemValueSum]
        simp [List.map_set, hsum]
        ring
      · intro c e2 h2
        exact reachable_gems h2
    · rename_i heq
      exfalso
      simp [List.get?_eq_getElem?, List.getElem?_eq_getElem hlt] at heq
  · rename_i hge
    exact absurd hcap (by simpa using hge)

/-- Witness for C6 at the full stash: killing an ordinary monster leaves
520 gems and merges its exp into the stash. -/
theorem C6_witness :
    (¬deadSlime.hp > 0) ∧ cexC6.gems.length ≥ MAX_GEMS ∧
    (deathLoop zeroOracle rs0 [deadSlime] 0 cexC6 [] false 0).1.gems.length =
      cexC6.gems.length ∧
    gemValueSum (deathLoop zeroOracle rs0 [deadSlime] 0 cexC6 [] false 0).1.gems =
      gemValueSum cexC6.gems + deadSlime.expValue := by
  have hm : ¬deadSlime.hp > 0 := by norm_num [deadSlime]
  have hcap : cexC6.gems.length ≥ MAX_GEMS := by
    simp [cexC6, MAX_GEMS]
  have h := C6_gem_cap_merge zeroOracle rs0 cexC6 deadSlime 0 [] false 0 hm rfl hcap
  exact ⟨hm, hcap, h.1, h.2.2.1⟩

theorem cons_set_perm {α : Type} :
    ∀ (t : List α) (k : ℕ) (x : α) (hk : k < t.length),
    List.Perm (t[k] :: t.set k x) (x :: t)
  | y :: ys, 0, x, h => by
    simpa using List.Perm.swap x y ys
  | y :: ys, k + 1, x, h => by
    have hk : k < ys.length := by simpa using h
    have ih := cons_set_perm ys k x hk
    simp only [List.getElem_cons_succ, List.set_cons_succ]
    exact (List.Perm.swap y (ys.get ⟨k, hk⟩) (ys.set k x)).trans
      ((ih.cons y).trans (List.Perm.swap x y ys))

theorem set_set_perm {α : Type} :
    ∀ (l : List α) (i j : ℕ) (hi : i < l.length) (hj : j < l.length),
    List.Perm ((l.set i l[j]).set j l[i]) l
  | x :: t, 0, 0, hi, hj => by simp
  | x :: t, 0, m + 1, hi, hj => by
    have hm : m < t.length := by simpa using hj
    simpa using cons_set_perm t m x hm
  | x :: t, n + 1, 0, hi, hj => by
    have hn : n < t.length := by simpa using hi
    simpa using cons_set_perm t n x hn
  | x :: t, n + 1, m + 1, hi, hj => by
    have hn : n < t.length := by simpa using hi
    have hm : m < t.length := by simpa using hj
    simpa using (set_set_perm t n m hn hm).cons x

theorem swapL_perm {α : Type} (l : List α) (i j : ℕ) :
    List.Perm (swapL l i j) l := by
  unfold swapL
  split
  · rename_i a b hi hj
    have hi2 : i < l.length := by
      by_contra hc
      rw [List.get?_eq_getElem?] at hi
      rw [List.getElem?_eq_none_iff.mpr (by omega)] at hi
      cases hi
    have hj2 : j < l.length := by
      by_contra hc
      rw [List.get?_eq_getElem?] at hj
      rw [List.getElem?_eq_none_iff.mpr (by omega)] at hj
      cases hj
    have ha : a = l[i] := by
      rw [List.get?_eq_getElem?, List.getElem?_eq_getElem hi2] at hi
      exact (Option.some.inj hi).symm
    have hb : b = l[j] := by
      rw [List.get?_eq_getElem?, List.getElem?_eq_getElem hj2] at hj
      exact (Option.some.inj hj).symm
    subst ha
    subst hb
    exact set_set_perm l i j hi2 hj2
  · exact List.Perm.refl l

theorem shuffleAux_perm {α : Type} (rs : RS) :
    ∀ (n : ℕ) (l : List α), List.Perm (shuffleAux rs n l) l
  | 0, l => List.Perm.refl l
  | n + 1, l => by
    simp only [shuffleAux]
    exact (shuffleAux_perm rs n _).trans (swapL_perm l (n + 1) _)

theorem pickRandomUnique_length {α : Type} (rs : RS) (arr : List α) (n : ℕ) :
    (pickRandomUnique rs arr n).length = min n arr.length := by
  unfold pickRandomUnique
  rw [List.length_take, (shuffleAux_perm rs (arr.length - 1) arr).length_eq]

theorem pickRandomUnique_mem {α : Type} (rs : RS) (arr : List α) (n : ℕ) :
    ∀ x ∈ pickRandomUnique rs arr n, x ∈ arr := by
  intro x hx
  unfold pickRandomUnique at hx
  exact (shuffleAux_perm rs (arr.length - 1) arr).mem_iff.mp
    (List.mem_of_mem_take hx)

theorem pickRandomUnique_map_nodup {α β : Type} (rs : RS) (arr : List α) (n : ℕ)
    (f : α → β) (h : (arr.map f).Nodup) :
    ((pickRandomUnique rs arr n).map f).Nodup := by
  have hp : List.Perm ((shuffleAux rs (arr.length - 1) arr).map f) (arr.map f) :=
    (shuffleAux_perm rs (arr.length - 1) arr).map f
  have h2 : ((shuffleAux rs (arr.length - 1) arr).map f).Nodup := hp.nodup_iff.mpr h
  exact ((List.take_sublist n _).map f).nodup h2

theorem choose3_core (rs : RS) (fullPool chosen : List UpgradeOption)
    (hnodup : (fullPool.map UpgradeOption.id).Nodup)
    (hlen : 11 ≤ fullPool.length)
    (hc : chosen.length ≤ 1) :
    ((chosen ++ pickRandomUnique rs
        (fullPool.filter (fun opt => !(chosen.any (fun pick => pick.id == opt.id))))
        (3 - chosen.length)).take 3).length = 3 ∧
    (((chosen ++ pickRandomUnique rs
        (fullPool.filter (fun opt => !(chosen.any (fun pick => pick.id == opt.id))))
        (3 - chosen.length)).take 3).map UpgradeOption.id).Nodup := by
  have hsplit : fullPool.length =
      (fullPool.filter (fun opt => chosen.any (fun pick => pick.id == opt.id))).length +
      (fullPool.filter (fun opt => !(chosen.any (fun pick => pick.id == opt.id)))).length :=
    List.length_eq_length_filter_add _
  have hrm : (fullPool.filter
      (fun opt => chosen.any (fun pick => pick.id == opt.id))).length ≤ 1 := by
    match chosen, hc with
    | [], _ => simp
    | [p], _ =>
      have h1 : (fullPool.filter (fun opt => [p].any (fun pick => pick.id == opt.id))).length =
          List.countP (fun opt => p.id == opt.id) fullPool := by
        rw [← List.countP_eq_length_filter]
        apply List.countP_congr
        intro o ho
        simp
      have h2 : List.countP (fun opt => p.id == opt.id) fullPool =
          List.count p.id (fullPool.map UpgradeOption.id) := by
        rw [List.count, List.countP_map]
        apply List.countP_congr
        intro o ho
        by_cases hpo : p.id = o.id
        · simp [hpo]
        · simp [hpo, Ne.symm hpo]
      rw [h1, h2]
      exact List.nodup_iff_count_le_one.mp hnodup p.id
  have hrem_len : 10 ≤ (fullPool.filter
      (fun opt => !(chosen.any (fun pick => pick.id == opt.id)))).length := by
    omega
  have hrem_nodup : ((fullPool.filter
      (fun opt => !(chosen.any (fun pick => pick.id == opt.id)))).map
        UpgradeOption.id).Nodup :=
    ((List.filter_sublist _).map _).nodup hnodup
  have hpick_len := pickRandomUnique_length rs
    (fullPool.filter (fun opt => !(chosen.any (fun pick => pick.id == opt.id))))
    (3 - chosen.length)
  have hpick_nodup := pickRandomUnique_map_nodup rs
    (fullPool.filter (fun opt => !(chosen.any (fun pick => pick.id == opt.id))))
    (3 - chosen.length) UpgradeOption.id hrem_nodup
  have hdisj : ∀ a ∈ chosen.map UpgradeOption.id,
      a ∉ (pickRandomUnique rs
        (fullPool.filter (fun opt => !(chosen.any (fun pick => pick.id == opt.id))))
        (3 - chosen.length)).map UpgradeOption.id := by
    intro a ha hb
    obtain ⟨p, hp, rfl⟩ := List.mem_map.mp ha
    obtain ⟨x, hx, hax⟩ := List.mem_map.mp hb
    have hxr := pickRandomUnique_mem rs _ _ x hx
    have hP := List.of_mem_filter hxr
    simp [List.any_eq_true] at hP
    exact hP p hp (by rw [hax])
  have hchosen_nodup : (chosen.map UpgradeOption.id).Nodup := by
    match chosen, hc with
    | [], _ => simp
    | [p], _ => simp
  have hL_nodup : ((chosen ++ pickRandomUnique rs
      (fullPool.filter (fun opt => !(chosen.any (fun pick => pick.id == opt.id))))
      (3 - chosen.length)).map UpgradeOption.id).Nodup := by
    rw [List.map_append]
    exact List.Nodup.append hchosen_nodup hpick_nodup hdisj
  constructor
  · rw [List.length_take, List.length_append, hpick_len]
    omega
  · exact ((List.take_sublist 3 _).map _).nodup hL_nodup

theorem levelLoop_exact (next : ℚ) (lv : ℕ) (h : 0 < next) :
    levelLoop 24 (0 + next) next lv =
      (0, ((⌊next * 1.28 + 16⌋ : ℤ) : ℚ), lv + 1, 1) := by
  have hfloor : ¬ ((0 : ℚ) ≥ ((⌊next * 1.28 + 16⌋ : ℤ) : ℚ)) := by
    have h16 : (16 : ℤ) ≤ ⌊next * 1.28 + 16⌋ := by
      rw [Int.le_floor]
      push_cast
      nlinarith
    push_neg
    have h16q : (16 : ℚ) ≤ ((⌊next * 1.28 + 16⌋ : ℤ) : ℚ) := by exact_mod_cast h16
    linarith
  have h0 : (0 : ℚ) + next - next = 0 := by ring
  have e23 : levelLoop 23 0 ((⌊next * 1.28 + 16⌋ : ℤ) : ℚ) (lv + 1) =
      (0, ((⌊next * 1.28 + 16⌋ : ℤ) : ℚ), lv + 1, 0) := by
    rw [show (23 : ℕ) = 22 + 1 from rfl, levelLoop, if_neg hfloor]
  rw [show (24 : ℕ) = 23 + 1 from rfl, levelLoop,
    if_pos (by linarith : (0 : ℚ) + next ≥ next)]
  simp only [h0, e23]

theorem makeUpgradeChoices_spec (e : Engine) (rs : RS) :
    (e.makeUpgradeChoices rs).length = 3 ∧
    ((e.makeUpgradeChoices rs).map UpgradeOption.id).Nodup := by
  simp only [Engine.makeUpgradeChoices]
  refine choose3_core (rsub rs 1) _ _ ?_ ?_ ?_
  · rw [List.map_append]
    refine List.Nodup.append ?_ ?_ ?_
    · exact ((List.filter_sublist _).map _).nodup (by decide)
    · simp [Engine.buildSkillUpgradeOptions]
    · intro a ha hb
      have ha2 : a ∈ UPGRADES.map UpgradeOption.id := by
        obtain ⟨o, ho, rfl⟩ := List.mem_map.mp ha
        exact List.mem_map_of_mem _ ((List.filter_sublist _).subset ho)
      have hb2 : a ∈ ([.skillLightning, .skillBlade, .skillLaser] : List UpgradeType) := by
        simpa [Engine.buildSkillUpgradeOptions] using hb
      simp only [List.mem_cons, List.not_mem_nil, or_false] at hb2
      rcases hb2 with rfl | rfl | rfl <;> exact absurd ha2 (by decide)
  · have h3 : (e.buildSkillUpgradeOptions).length = 3 := by
      simp [Engine.buildSkillUpgradeOptions]
    rw [List.length_append, h3]
    by_cases hstyle : e.config.attackStyle = .slash_projectile
    · simp only [hstyle]
      decide
    · simp only [hstyle]
      decide
  · split <;> simp

/-- **C5.** For any player with `exp = 0` who gains experience exactly equal to
`expToNext` (while no upgrade gate is open), the level increases by exactly 1,
`exp` returns to 0, `expToNext` grows to `⌊expToNext * 1.28 + 16⌋`,
`pendingLevelUps` increases by exactly 1, `awaitingUpgrade` becomes true, and
the offered upgrade pool contains exactly 3 options with pairwise distinct ids. -/
theorem C5_exact_level_up_three_unique_choices (e : Engine) (rs : RS)
    (hexp : e.player.exp = 0) (hpos : 0 < e.player.expToNext)
    (haw : e.awaitingUpgrade = false) :
    (Engine.gainExp rs e e.player.expToNext).player.level = e.player.level + 1 ∧
    (Engine.gainExp rs e e.player.expToNext).player.exp = 0 ∧
    (Engine.gainExp rs e e.player.expToNext).player.expToNext =
      ((⌊e.player.expToNext * 1.28 + 16⌋ : ℤ) : ℚ) ∧
    (Engine.gainExp rs e e.player.expToNext).pendingLevelUps = e.pendingLevelUps + 1 ∧
    (Engine.gainExp rs e e.player.expToNext).awaitingUpgrade = true ∧
    (Engine.gainExp rs e e.player.expToNext).upgradeChoices.length = 3 ∧
    ((Engine.gainExp rs e e.player.expToNext).upgradeChoices.map UpgradeOption.id).Nodup := by
  have hr := levelLoop_exact e.player.expToNext e.player.level hpos
  simp only [Engine.gainExp, hexp, hr, Engine.emitAudio, Engine.nextId]
  rw [if_neg (not_le.mpr hpos)]
  simp [haw]
  exact ⟨(makeUpgradeChoices_spec _ _).1, (makeUpgradeChoices_spec _ _).2⟩

/-- C5 instantiated at the warrior's initial state (exp 0, expToNext 35,
no upgrade gate open) with the zero random stream. -/
theorem C5_witness :
    (Engine.gainExp rs0 (initEngine .warrior)
        (initEngine .warrior).player.expToNext).player.level =
      (initEngine .warrior).player.level + 1 ∧
    (Engine.gainExp rs0 (initEngine .warrior)
        (initEngine .warrior).player.expToNext).upgradeChoices.length = 3 ∧
    ((Engine.gainExp rs0 (initEngine .warrior)
        (initEngine .warrior).player.expToNext).upgradeChoices.map
      UpgradeOption.id).Nodup := by
  have h := C5_exact_level_up_three_unique_choices (initEngine .warrior) rs0
    (by norm_num [initEngine]) (by norm_num [initEngine]) (by norm_num [initEngine])
  exact ⟨h.1, h.2.2.2.2.2.1, h.2.2.2.2.2.2⟩
